import Mathlib

/-!
Verification of the archetype-based ECS core (`src/logic/world.rs`,
`src/logic/iterator.rs`) via a shallow embedding.

Modelling conventions:
* `TypeId` is modelled as `Nat`; component values of every type are modelled
  as `Nat` (each column is tagged with its type id, mirroring the type-erased
  `ComponentStore { type_id, data }`).
* `u64` arithmetic: generations wrap modulo `2 ^ 64` (`spawn` uses
  `overflowing_add`; `despawn`'s `+= 1` wraps in release builds).
* Rust `Vec` is a `List` in the same order; `Vec::pop` is `getLast?` plus
  `dropLast`, `Vec::push` appends at the end.
* The `HashMap<u64, usize>` keyed by `calculate_bundle_id` (a hash of the
  sorted type-id sequence) is modelled as an association list keyed directly
  by the sorted type-id sequence, since the hash's purpose (per the data
  model) is canonical type-set identity; `DefaultHasher` itself is opaque.
* Operations that index the entity registry out of bounds panic in the
  source; they are modelled by the `panic` result.  Interior `unwrap`s and
  indexings that are unreachable in invariant-respecting states are
  totalised with default values (`getD`).
-/

/-! ### Generic list helpers (models of `Vec` operations) -/

/-- Model of `Vec::swap_remove(i)`: replace element `i` with the last element
and pop.  (For `i` out of bounds the source panics; this totalisation still
drops the last element, which keeps columns in lockstep vacuously.) -/
def swapRemove (l : List Nat) (i : Nat) : List Nat :=
  if i + 1 = l.length then l.dropLast
  else (l.set i (l.getLast?.getD 0)).dropLast

/-- Insert an element at position `n` (model of `Vec::insert`). -/
def insertAt (n : Nat) (x : α) : List α → List α
  | [] => [x]
  | a :: as =>
    match n with
    | 0 => x :: a :: as
    | n + 1 => a :: insertAt n x as

/-- Remove the element at position `n` (model of `Vec::remove`). -/
def eraseAt (n : Nat) : List α → List α
  | [] => []
  | a :: as =>
    match n with
    | 0 => as
    | n + 1 => a :: eraseAt n as

/-- Map with the index supplied to the function, starting at `k`. -/
def mapIdxFrom (f : Nat → α → α) : Nat → List α → List α
  | _, [] => []
  | k, a :: as => f k a :: mapIdxFrom f (k + 1) as

def mapIdx (f : Nat → α → α) (l : List α) : List α := mapIdxFrom f 0 l

/-- Association-list lookup (model of `HashMap::get`); first match wins. -/
def alookup (m : List (List Nat × Nat)) (k : List Nat) : Option Nat :=
  match m with
  | [] => none
  | p :: ps => if p.1 = k then some p.2 else alookup ps k

/-- Result of `slice::binary_search` on a sorted slice: `found i` is `Ok(i)`
(`l[i] = x`), `notFound i` is `Err(i)` (the insertion point).  Implemented as
the linear scan satisfying the same specification on sorted input. -/
inductive SearchResult where
  | found (i : Nat)
  | notFound (i : Nat)
deriving DecidableEq, Repr

def searchSorted (l : List Nat) (x : Nat) : SearchResult :=
  match l with
  | [] => .notFound 0
  | a :: as =>
    if x < a then .notFound 0
    else if x = a then .found 0
    else
      match searchSorted as x with
      | .found i => .found (i + 1)
      | .notFound i => .notFound (i + 1)

/-- Insertion into a list of `(type_id, value)` pairs sorted by `type_id`
(used to model `sort_unstable_by` on the bundle). -/
def insByFst (p : Nat × Nat) : List (Nat × Nat) → List (Nat × Nat)
  | [] => [p]
  | q :: qs => if p.1 ≤ q.1 then p :: q :: qs else q :: insByFst p qs

/-- Sort a bundle by type id (`sort_unstable_by(|a, b| a.1.cmp(&b.1))`; for
the duplicate-free bundles the `debug_assert!` demands, any correct sort
produces this result). -/
def sortBundle : List (Nat × Nat) → List (Nat × Nat)
  | [] => []
  | p :: ps => insByFst p (sortBundle ps)

/-! ### Data model -/

/-- `u64` modulus. -/
def U64 : Nat := 2 ^ 64

/-- `std::any::type_name::<T>()`, modelled as the type id itself (a fixed
injective display name per type). -/
def typeName (t : Nat) : Nat := t

/-- `ComponentStore { type_id, data }`; the type-erased column is the list of
(model) component values. -/
structure ComponentStore where
  type_id : Nat
  data : List Nat
deriving DecidableEq, Repr

instance : Inhabited ComponentStore := ⟨⟨0, []⟩⟩

/-- `ComponentStore::new_same_type`: same type id, empty column. -/
def ComponentStore.new_same_type (c : ComponentStore) : ComponentStore :=
  ⟨c.type_id, []⟩

structure Archetype where
  entities : List Nat
  components : List ComponentStore
deriving DecidableEq, Repr

instance : Inhabited Archetype := ⟨⟨[], []⟩⟩

/-- The archetype's type-id sequence, `components.map(|c| c.type_id)`. -/
def stypes (a : Archetype) : List Nat := a.components.map (·.type_id)

/-- Value of column `j` at row `row`. -/
def colVal (a : Archetype) (j row : Nat) : Nat :=
  ((a.components.getD j default).data.getD row 0)

structure EntityLocation where
  archetype_index : Nat
  index_in_archetype : Nat
deriving DecidableEq, Repr

instance : Inhabited EntityLocation := ⟨⟨0, 0⟩⟩

structure EntityInfo where
  generation : Nat
  location : EntityLocation
deriving DecidableEq, Repr

instance : Inhabited EntityInfo := ⟨⟨0, default⟩⟩

/-- Entity handle. -/
structure Entity where
  index : Nat
  generation : Nat
deriving DecidableEq, Repr

structure World where
  archetypes : List Archetype
  bundle_id_to_archetype : List (List Nat × Nat)
  entities : List EntityInfo
  free_entities : List Nat
deriving DecidableEq, Repr

def World.new : World := ⟨[], [], [], []⟩

/-- `NoSuchEntity` and `ComponentError::EntityMissingComponent` (the latter
carries the entity id passed to `EntityMissingComponent::new` and the type's
display name). -/
inductive CompError where
  | noSuchEntity
  | entityMissingComponent (entity_id : Nat) (type_name : Nat)
deriving DecidableEq, Repr

/-- Outcome of a `&mut World` operation: `ok`/`err` carry the resulting
world state; `panic` models an out-of-bounds registry indexing panic. -/
inductive OpResult (α : Type) where
  | ok (a : α) (w : World)
  | err (e : CompError) (w : World)
  | panic
deriving DecidableEq

def OpResult.isOk : OpResult α → Bool
  | .ok _ _ => true
  | _ => false

/-! ### Archetype operations (`impl Archetype`) -/

/-- `Archetype::remove_entity(index)`: swap-remove row `index` from every
column and from `entities`; returns the entity index that previously occupied
the last row (`entities.last().unwrap()`, the entity moved into the vacated
row — or the removed entity itself when it was last). -/
def Archetype.remove_entity (a : Archetype) (index : Nat) : Nat × Archetype :=
  let comps := a.components.map fun c => ⟨c.type_id, swapRemove c.data index⟩
  let moved := a.entities.getLast?.getD 0
  (moved, { entities := swapRemove a.entities index, components := comps })

/-- `Archetype::get_component_mut::<T>(index)`: linear scan for the first
store with `T`'s type id; on a miss the error is built from `index` — which
at the call site in `World::get_component_mut` is the row index
(`index_in_archetype`), not the entity index. -/
def Archetype.get_component_mut (a : Archetype) (t index : Nat) :
    Except CompError Nat :=
  match a.components.findIdx? (fun c => c.type_id = t) with
  | some i => .ok ((a.components.getD i default).data.getD index 0)
  | none => .error (.entityMissingComponent index (typeName t))

/-! ### World operations (`impl World`) -/

/-- The bundle's canonically sorted `(type_id, value)` pairs and the sorted
type-id sequence fed to `calculate_bundle_id`. -/
def bundleTypes (b : List (Nat × Nat)) : List Nat :=
  (sortBundle b).map Prod.fst

/-- `ComponentBundle::new_archetype`: one empty store per component, sorted
by type id. -/
def new_archetype (b : List (Nat × Nat)) : Archetype :=
  { entities := [], components := (sortBundle b).map fun p => ⟨p.1, []⟩ }

/-- The spawn path's pushes: the source pushes component `k` of the bundle
into column `order[k]` (the rank of `k`'s type id); for the duplicate-free
bundles required by the `debug_assert!`, this appends the `j`-th
smallest-typed value to column `j`. -/
def pushBundle (a : Archetype) (entity_index : Nat) (b : List (Nat × Nat)) :
    Archetype :=
  { entities := a.entities ++ [entity_index],
    components :=
      a.components.zipWith (fun c p => ⟨c.type_id, c.data ++ [p.2]⟩)
        (sortBundle b) }

/-- `ComponentBundle::spawn_in_world`. -/
def spawn_in_world (b : List (Nat × Nat)) (w : World) (entity_index : Nat) :
    EntityLocation × World :=
  let types := bundleTypes b
  match alookup w.bundle_id_to_archetype types with
  | some ai =>
    let a' := pushBundle (w.archetypes.getD ai default) entity_index b
    (⟨ai, a'.entities.length - 1⟩,
     { w with archetypes := w.archetypes.set ai a' })
  | none =>
    let ai := w.archetypes.length
    let a' := pushBundle (new_archetype b) entity_index b
    (⟨ai, a'.entities.length - 1⟩,
     { w with
         archetypes := w.archetypes ++ [a'],
         bundle_id_to_archetype := (types, ai) :: w.bundle_id_to_archetype })

/-- `World::spawn`: reuse a free index (generation bumped with
`overflowing_add(1)`) or grow the registry with a placeholder slot, then
spawn the bundle and record the resulting location. -/
def World.spawn (w : World) (b : List (Nat × Nat)) : Entity × World :=
  match w.free_entities.getLast? with
  | some i =>
    let g := ((w.entities.getD i default).generation + 1) % U64
    let w0 := { w with free_entities := w.free_entities.dropLast }
    let (loc, w1) := spawn_in_world b w0 i
    (⟨i, g⟩, { w1 with entities := w1.entities.set i ⟨g, loc⟩ })
  | none =>
    let i := w.entities.length
    let w0 := { w with entities := w.entities ++ [⟨0, default⟩] }
    let (loc, w1) := spawn_in_world b w0 i
    (⟨i, 0⟩, { w1 with entities := w1.entities.set i ⟨0, loc⟩ })

/-- `World::despawn`: generation check, bump the slot generation
(wrapping in release builds), swap-remove the row, push the index on
the free list, and fix up the moved entity's location. -/
def World.despawn (w : World) (e : Entity) : OpResult Unit :=
  if e.index < w.entities.length then
    let info := w.entities.getD e.index default
    if info.generation = e.generation then
      let ents1 := w.entities.set e.index
        ⟨(info.generation + 1) % U64, info.location⟩
      let a := w.archetypes.getD info.location.archetype_index default
      let (moved, a') := a.remove_entity info.location.index_in_archetype
      let archs := w.archetypes.set info.location.archetype_index a'
      let ents2 := ents1.set moved
        { ents1.getD moved default with location := info.location }
      .ok () { archetypes := archs,
               bundle_id_to_archetype := w.bundle_id_to_archetype,
               entities := ents2,
               free_entities := w.free_entities ++ [e.index] }
    else .err .noSuchEntity w
  else .panic

/-- The migration performed by `remove_component`'s two loops plus the final
value extraction: every old column is swap-removed at `row` (column `ri` by
the returning `swap_remove`); new column `j < ri` receives old column `j`'s
value at `row` and columns `ri ≤ j < oldN - 1` receive old column `j + 1`'s
value at `row`. -/
def removeMigrate (old nw : Archetype) (row ri eIdx : Nat) :
    Archetype × Archetype :=
  let oldN := old.components.length
  ( { entities := swapRemove old.entities row,
      components := old.components.map fun c =>
        ⟨c.type_id, swapRemove c.data row⟩ },
    { entities := nw.entities ++ [eIdx],
      components := mapIdx (fun j (c : ComponentStore) =>
        if j + 1 < oldN then
          if j < ri then ⟨c.type_id, c.data ++ [colVal old j row]⟩
          else ⟨c.type_id, c.data ++ [colVal old (j + 1) row]⟩
        else c) nw.components } )

/-- `World::remove_component`. -/
def World.remove_component (w : World) (e : Entity) (t : Nat) :
    OpResult Nat :=
  if e.index < w.entities.length then
    let info := w.entities.getD e.index default
    if info.generation = e.generation then
      let aIdx := info.location.archetype_index
      let row := info.location.index_in_archetype
      let cur := w.archetypes.getD aIdx default
      let type_ids := stypes cur
      match searchSorted type_ids t with
      | .found ri =>
        let types2 := eraseAt ri type_ids
        let (bIdx, archs0, map0) :=
          match alookup w.bundle_id_to_archetype types2 with
          | some j => (j, w.archetypes, w.bundle_id_to_archetype)
          | none =>
            let na : Archetype :=
              { entities := [],
                components :=
                  (cur.components.filter (fun (c : ComponentStore) => decide (c.type_id ≠ t))).map
                    ComponentStore.new_same_type }
            (w.archetypes.length, w.archetypes ++ [na],
             (types2, w.archetypes.length) :: w.bundle_id_to_archetype)
        let old := archs0.getD aIdx default
        let nw := archs0.getD bIdx default
        let ents1 :=
          match old.entities.getLast? with
          | some last =>
            w.entities.set last
              { w.entities.getD last default with location := info.location }
          | none => w.entities
        let ents2 := ents1.set e.index
          { ents1.getD e.index default with
              location := ⟨bIdx, nw.entities.length⟩ }
        let (old', nw') := removeMigrate old nw row ri e.index
        .ok (colVal old ri row)
          { archetypes := (archs0.set aIdx old').set bIdx nw',
            bundle_id_to_archetype := map0,
            entities := ents2,
            free_entities := w.free_entities }
      | .notFound _ =>
        .err (.entityMissingComponent e.index (typeName t)) w
    else .err .noSuchEntity w
  else .panic

/-- `World::get_component_mut`. -/
def World.get_component_mut (w : World) (e : Entity) (t : Nat) :
    OpResult Nat :=
  if e.index < w.entities.length then
    let info := w.entities.getD e.index default
    if info.generation = e.generation then
      match (w.archetypes.getD info.location.archetype_index
              default).get_component_mut t info.location.index_in_archetype with
      | .ok v => .ok v w
      | .error er => .err er w
    else .err .noSuchEntity w
  else .panic

/-! ### State invariants

`WInv` packages the representation invariants the data model states
(§3 of the spec): columns in lockstep with the entity list, sorted unique
type ids per archetype, coherence of `bundle_id_to_archetype`, coherence of
registry locations with archetype rows, the free list well-formed, and
generations below `2 ^ 64`. -/

def slotOf (w : World) (i : Nat) : EntityInfo := w.entities.getD i default

def archOf (w : World) (ai : Nat) : Archetype := w.archetypes.getD ai default

def locOf (w : World) (i : Nat) : EntityLocation := (slotOf w i).location

def archAt (w : World) (i : Nat) : Archetype :=
  archOf w (locOf w i).archetype_index

def lockstep (w : World) : Prop :=
  ∀ a ∈ w.archetypes, ∀ c ∈ a.components,
    c.data.length = a.entities.length

def sortedTypes (w : World) : Prop :=
  ∀ a ∈ w.archetypes, (stypes a).Pairwise (· < ·)

def mapCoherent (w : World) : Prop :=
  ∀ p ∈ w.bundle_id_to_archetype,
    p.2 < w.archetypes.length ∧ stypes (archOf w p.2) = p.1

def mapComplete (w : World) : Prop :=
  ∀ i < w.archetypes.length,
    alookup w.bundle_id_to_archetype (stypes (archOf w i)) = some i

def rowCoherent (w : World) : Prop :=
  ∀ ai < w.archetypes.length, ∀ r < (archOf w ai).entities.length,
    (archOf w ai).entities.getD r 0 < w.entities.length ∧
    locOf w ((archOf w ai).entities.getD r 0) = ⟨ai, r⟩ ∧
    (archOf w ai).entities.getD r 0 ∉ w.free_entities

def freeBounded (w : World) : Prop :=
  ∀ i ∈ w.free_entities, i < w.entities.length

def freeNodup (w : World) : Prop := w.free_entities.Nodup

def liveValid (w : World) : Prop :=
  ∀ i < w.entities.length, i ∈ w.free_entities ∨
    ((locOf w i).archetype_index < w.archetypes.length ∧
     (locOf w i).index_in_archetype < (archAt w i).entities.length ∧
     (archAt w i).entities.getD (locOf w i).index_in_archetype 0 = i)

def genBounded (w : World) : Prop :=
  ∀ s ∈ w.entities, s.generation < U64

def WInv (w : World) : Prop :=
  lockstep w ∧ sortedTypes w ∧ mapCoherent w ∧ mapComplete w ∧
    rowCoherent w ∧ freeBounded w ∧ freeNodup w ∧ liveValid w ∧ genBounded w

/-- The handle `e` denotes a live entity: matching generation and a coherent
registry location (what despawn/add/remove/get act on successfully). -/
def EntityValid (w : World) (e : Entity) : Prop :=
  e.index < w.entities.length ∧
  (slotOf w e.index).generation = e.generation ∧
  (locOf w e.index).archetype_index < w.archetypes.length ∧
  (locOf w e.index).index_in_archetype < (archAt w e.index).entities.length ∧
  (archAt w e.index).entities.getD (locOf w e.index).index_in_archetype 0 =
    e.index

/-- Well-formed bundle: pairwise-distinct component types (the
`debug_assert!` in `spawn_in_world`). -/
def BundleWF (b : List (Nat × Nat)) : Prop := (b.map Prod.fst).Nodup

instance (w : World) : Decidable (lockstep w) := by
  unfold lockstep; infer_instance

instance (w : World) : Decidable (sortedTypes w) := by
  unfold sortedTypes; infer_instance

instance (w : World) : Decidable (mapCoherent w) := by
  unfold mapCoherent; infer_instance

instance (w : World) : Decidable (mapComplete w) := by
  unfold mapComplete; infer_instance

instance (w : World) : Decidable (rowCoherent w) := by
  unfold rowCoherent; infer_instance

instance (w : World) : Decidable (freeBounded w) := by
  unfold freeBounded; infer_instance

instance (w : World) : Decidable (freeNodup w) := by
  unfold freeNodup; infer_instance

instance (w : World) : Decidable (liveValid w) := by
  unfold liveValid; infer_instance

instance (w : World) : Decidable (genBounded w) := by
  unfold genBounded; infer_instance

instance (w : World) : Decidable (WInv w) := by
  unfold WInv; infer_instance

instance (w : World) (e : Entity) : Decidable (EntityValid w e) := by
  unfold EntityValid; infer_instance

instance (b : List (Nat × Nat)) : Decidable (BundleWF b) := by
  unfold BundleWF; infer_instance

/-! ### ChainedIterator (`src/logic/iterator.rs`) and the query facility

An iterator of already-computed items is modelled as the `List` of its
remaining items (`next` = head/tail).  `ChainedIterator` is translated
exactly: `new` pops the **last** iterator of the vector as the current one,
and `next`, on exhausting the current iterator, pops the next one from the
back and returns that iterator's first `next()` directly (returning `None`
without trying further iterators when it is empty). -/

structure ChainedIterator (α : Type) where
  current_iter : Option (List α)
  iterators : List (List α)
deriving DecidableEq, Repr

/-- `ChainedIterator::new`. -/
def ChainedIterator.new (its : List (List α)) : ChainedIterator α :=
  { current_iter := its.getLast?, iterators := its.dropLast }

/-- `ChainedIterator::next`. -/
def ChainedIterator.next (s : ChainedIterator α) :
    Option α × ChainedIterator α :=
  match s.current_iter with
  | none => (none, s)
  | some iter =>
    match iter with
    | x :: rest => (some x, { s with current_iter := some rest })
    | [] =>
      match s.iterators.getLast? with
      | none => (none, { current_iter := none,
                         iterators := s.iterators.dropLast })
      | some iter2 =>
        match iter2 with
        | [] => (none, { current_iter := some [],
                         iterators := s.iterators.dropLast })
        | y :: ys => (some y, { current_iter := some ys,
                                iterators := s.iterators.dropLast })

/-- Drive `next` until it yields `None`, collecting the items (what a `for`
loop over the iterator consumes).  Fuelled; `chainToList` supplies enough
fuel for any state. -/
def chainRun (fuel : Nat) (s : ChainedIterator α) : List α :=
  match fuel with
  | 0 => []
  | fuel + 1 =>
    match s.next with
    | (some x, s') => x :: chainRun fuel s'
    | (none, _) => []

def chainFuel (s : ChainedIterator α) : Nat :=
  ((s.current_iter.getD []).length + (s.iterators.map List.length).sum) +
    (s.iterators.length + 1)

def chainToList (s : ChainedIterator α) : List α := chainRun (chainFuel s) s

/-- Modelled from the spec: the query facility (`src/logic/query.rs` is not
in the source tree).  Per §4.4 a query must "locate every Archetype whose
type-set is a superset of the requested set" and iterate the matching rows;
matching archetypes are collected in storage order and each archetype
contributes its rows (tuples of the requested columns) in row order, chained
through the repository's `ChainedIterator`. -/
def archMatches (q : List Nat) (a : Archetype) : Bool :=
  q.all (fun t => (stypes a).contains t)

/-- The rows an archetype contributes to a query: for each row, the values
of the requested component types in the order requested. -/
def archRows (q : List Nat) (a : Archetype) : List (List Nat) :=
  (List.range a.entities.length).map fun r =>
    q.map fun t =>
      match a.components.findIdx? (fun c => c.type_id = t) with
      | some j => colVal a j r
      | none => 0

/-- Modelled from the spec: the per-archetype row iterators handed to
`ChainedIterator::new`, in the archetypes' storage order. -/
def queryIters (w : World) (q : List Nat) : List (List (List Nat)) :=
  (w.archetypes.filter (archMatches q)).map (archRows q)

/-- The sequence of rows a query over the types `q` produces. -/
def queryResult (w : World) (q : List Nat) : List (List Nat) :=
  chainToList (ChainedIterator.new (queryIters w q))

/-- The migration performed by `add_component`'s two loops plus the pushes
and the row removal: every old column is swap-removed at `row`; new column
`j < ii` receives old column `j`'s value at `row`, column `ii` receives the
new value `v`, and columns `ii < j ≤ oldN` receive old column `j - 1`'s
value at `row`; finally the old row is swap-removed from `entities` and the
entity index is pushed onto the new archetype's `entities`. -/
def addMigrate (old nw : Archetype) (row ii eIdx v : Nat) :
    Archetype × Archetype :=
  let oldN := old.components.length
  ( { entities := swapRemove old.entities row,
      components := old.components.map fun c =>
        ⟨c.type_id, swapRemove c.data row⟩ },
    { entities := nw.entities ++ [eIdx],
      components := mapIdx (fun j (c : ComponentStore) =>
        if j < ii then ⟨c.type_id, c.data ++ [colVal old j row]⟩
        else if j = ii then ⟨c.type_id, c.data ++ [v]⟩
        else if j ≤ oldN then ⟨c.type_id, c.data ++ [colVal old (j - 1) row]⟩
        else c) nw.components } )

/-- `World::add_component`. -/
def World.add_component (w : World) (e : Entity) (t v : Nat) :
    OpResult Unit :=
  if e.index < w.entities.length then
    let info := w.entities.getD e.index default
    if info.generation = e.generation then
      let aIdx := info.location.archetype_index
      let row := info.location.index_in_archetype
      let cur := w.archetypes.getD aIdx default
      let type_ids := stypes cur
      match searchSorted type_ids t with
      | .found ci =>
        -- component already present: `replace_component(ci, row, v)` in place
        let a' : Archetype :=
          { entities := cur.entities,
            components := mapIdx (fun j (c : ComponentStore) =>
              if j = ci then ⟨c.type_id, c.data.set row v⟩ else c)
              cur.components }
        .ok () { w with archetypes := w.archetypes.set aIdx a' }
      | .notFound ii =>
        let types2 := insertAt ii t type_ids
        let (bIdx, archs0, map0) :=
          match alookup w.bundle_id_to_archetype types2 with
          | some j => (j, w.archetypes, w.bundle_id_to_archetype)
          | none =>
            let na : Archetype :=
              { entities := [],
                components := insertAt ii ⟨t, []⟩
                  (cur.components.map ComponentStore.new_same_type) }
            (w.archetypes.length, w.archetypes ++ [na],
             (types2, w.archetypes.length) :: w.bundle_id_to_archetype)
        let old := archs0.getD aIdx default
        let nw := archs0.getD bIdx default
        -- location fix-ups, made before the migration as in the source
        let ents1 :=
          match old.entities.getLast? with
          | some last =>
            w.entities.set last
              { w.entities.getD last default with location := info.location }
          | none => w.entities
        let ents2 := ents1.set e.index
          { ents1.getD e.index default with
              location := ⟨bIdx, nw.entities.length⟩ }
        let (old', nw') := addMigrate old nw row ii e.index v
        .ok () { archetypes := (archs0.set aIdx old').set bIdx nw',
                 bundle_id_to_archetype := map0,
                 entities := ents2,
                 free_entities := w.free_entities }
    else .err .noSuchEntity w
  else .panic

/-! ### Decomposition helpers for `World::spawn` -/

/-- The entity index `spawn` allocates: the popped free index, or the fresh
index at the end of the registry. -/
def spawnIdx (w : World) : Nat :=
  match w.free_entities.getLast? with
  | some i => i
  | none => w.entities.length

/-- The generation `spawn` assigns. -/
def spawnGen (w : World) : Nat :=
  match w.free_entities.getLast? with
  | some i => ((slotOf w i).generation + 1) % U64
  | none => 0

/-- The world state just before `spawn_in_world` runs (free index popped or
placeholder slot pushed). -/
def preSpawn (w : World) : World :=
  match w.free_entities.getLast? with
  | some _ => { w with free_entities := w.free_entities.dropLast }
  | none => { w with entities := w.entities ++ [⟨0, default⟩] }

/-- The archetype index a spawn of bundle `b` targets. -/
def spawnTarget (w : World) (b : List (Nat × Nat)) : Nat :=
  match alookup w.bundle_id_to_archetype (bundleTypes b) with
  | some ai => ai
  | none => w.archetypes.length

/-- The entity index occupying the last row of the archetype entity `i`
lives in. -/
def lastRowEntity (w : World) (i : Nat) : Nat :=
  (archAt w i).entities.getD ((archAt w i).entities.length - 1) 0

/-- The fresh archetype `add_component` creates when no archetype with the
extended type set exists: empty same-type copies of the current columns with
an empty column for `t` inserted at position `ii`. -/
def newArchAdd (w : World) (e : Entity) (t ii : Nat) : Archetype :=
  ⟨[], insertAt ii ⟨t, []⟩
    ((archAt w e.index).components.map ComponentStore.new_same_type)⟩

/-- The fresh archetype `remove_component` creates when no archetype with
the reduced type set exists: empty same-type copies of the current columns
with the column of type `t` filtered out. -/
def newArchRemove (w : World) (e : Entity) (t : Nat) : Archetype :=
  ⟨[], ((archAt w e.index).components.filter
    (fun (c : ComponentStore) => decide (c.type_id ≠ t))).map
      ComponentStore.new_same_type⟩

/-- The registry contents after the two location fix-ups an archetype
migration performs: the displaced last row's entity is pointed at the
migrating entity's old location, then the migrating entity is pointed at
its new location. -/
def migrateEnts (w : World) (e : Entity) (bj m : Nat) : List EntityInfo :=
  (match (archAt w e.index).entities.getLast? with
    | some last => w.entities.set last
        ⟨(slotOf w last).generation, locOf w e.index⟩
    | none => w.entities).set e.index
    ⟨((match (archAt w e.index).entities.getLast? with
      | some last => w.entities.set last
          ⟨(slotOf w last).generation, locOf w e.index⟩
      | none => w.entities).getD e.index default).generation,
     ⟨bj, m⟩⟩

/-! ### Concrete example worlds used by witnesses and counterexamples -/

/-- A world with a single live entity, handle `(0, 0)`, holding one
component of type `0` with value `5`. -/
def exW1 : World := (World.new.spawn [(0, 5)]).2

/-- A world with two entities in two different archetypes: handle `(0, 0)`
in the archetype `{0, 1}` (row 0) and handle `(1, 0)` in the archetype
`{2}` (row 0). -/
def exW2 : World := ((World.new.spawn [(0, 10), (1, 20)]).2.spawn [(2, 30)]).2

/-- A world whose archetype `{0}` holds two entities: handle `(0, 0)` in
row 0 (value `10`) and handle `(1, 0)` in row 1 (value `20`). -/
def exW4 : World := ((World.new.spawn [(0, 10)]).2.spawn [(0, 20)]).2

/-- A world with two archetypes that both contain component type `0`:
archetype `0` has types `{0}` holding entity `(0, 0)` (value `1`), archetype
`1` has types `{0, 1}` holding entity `(1, 0)` (values `2`, `3`). -/
def exW3 : World := ((World.new.spawn [(0, 1)]).2.spawn [(0, 2), (1, 3)]).2

/-! ### Operation traces

`Step` is one successful API-level operation: a spawn of a well-formed
bundle, or a despawn / add_component / remove_component through a live
handle (a handle obtained from `spawn` and not yet despawned — stale
handles leave the state unchanged, see the error-path theorems).
`Reachable` is its reflexive-transitive closure.  `ReachBump` additionally
counts how many times the trace bumps the generation of one fixed registry
slot `i` (despawning it, or reusing it from the free list). -/

inductive Step : World → World → Prop where
  | spawn (w : World) (b : List (Nat × Nat)) (hb : BundleWF b) :
      Step w (w.spawn b).2
  | despawn (w w' : World) (e : Entity) (hv : EntityValid w e)
      (h : w.despawn e = .ok () w') : Step w w'
  | add (w w' : World) (e : Entity) (t v : Nat) (hv : EntityValid w e)
      (h : w.add_component e t v = .ok () w') : Step w w'
  | remove (w w' : World) (e : Entity) (t x : Nat) (hv : EntityValid w e)
      (h : w.remove_component e t = .ok x w') : Step w w'

inductive Reachable : World → World → Prop where
  | refl (w : World) : Reachable w w
  | tail (w w' w'' : World) : Reachable w w' → Step w' w'' → Reachable w w''

inductive ReachBump (i : Nat) (w : World) : World → Nat → Prop where
  | refl : ReachBump i w w 0
  | spawn (w' : World) (n : Nat) (b : List (Nat × Nat)) :
      ReachBump i w w' n →
      ReachBump i w (w'.spawn b).2
        (n + if w'.free_entities.getLast? = some i then 1 else 0)
  | despawn (w' w'' : World) (n : Nat) (e : Entity)
      (h : w'.despawn e = .ok () w'') : ReachBump i w w' n →
      ReachBump i w w'' (n + if e.index = i then 1 else 0)
  | add (w' w'' : World) (n : Nat) (e : Entity) (t v : Nat)
      (h : w'.add_component e t v = .ok () w'') : ReachBump i w w' n →
      ReachBump i w w'' n
  | remove (w' w'' : World) (n : Nat) (e : Entity) (t x : Nat)
      (h : w'.remove_component e t = .ok x w'') : ReachBump i w w' n →
      ReachBump i w w'' n

/-- The one-entity world in which slot `0` is despawned with generation
`g`: archetype `{0}` is empty, index `0` is on the free list. -/
def mkW (g : Nat) : World :=
  { archetypes := [⟨[], [⟨0, []⟩]⟩],
    bundle_id_to_archetype := [([0], 0)],
    entities := [⟨g, ⟨0, 0⟩⟩],
    free_entities := [0] }

/-- The one-entity world in which slot `0` is live with generation `g`,
holding component `(0, 5)` in row 0 of archetype `0`. -/
def mkL (g : Nat) : World :=
  { archetypes := [⟨[0], [⟨0, [5]⟩]⟩],
    bundle_id_to_archetype := [([0], 0)],
    entities := [⟨g, ⟨0, 0⟩⟩],
    free_entities := [] }

/-- Respawn slot 0 and despawn it again (one generation-bump cycle of two
on slot 0). -/
def cycleW (w : World) : World :=
  let p := w.spawn [(0, 5)]
  match p.2.despawn p.1 with
  | .ok _ w2 => w2
  | _ => p.2

/-- `k` successive `cycleW` cycles. -/
def cyclesN : Nat → World → World
  | 0, w => w
  | k + 1, w => cyclesN k (cycleW w)

/-! ### Lemma library: list helpers -/

theorem getD_set_self {α : Type} (l : List α) (i : Nat) (x d : α)
    (h : i < l.length) : (l.set i x).getD i d = x := by
  simp [List.getD_eq_getElem?_getD, List.getElem?_set_self h]

theorem getD_set_ne {α : Type} (l : List α) (i j : Nat) (x d : α)
    (h : i ≠ j) : (l.set i x).getD j d = l.getD j d := by
  simp [List.getD_eq_getElem?_getD, List.getElem?_set_ne h]

theorem getD_append_left {α : Type} (l l' : List α) (i : Nat) (d : α)
    (h : i < l.length) : (l ++ l').getD i d = l.getD i d :=
  List.getD_append l l' d i h

theorem getD_append_right {α : Type} (l l' : List α) (i : Nat) (d : α)
    (h : l.length ≤ i) : (l ++ l').getD i d = l'.getD (i - l.length) d := by
  simp [List.getD_eq_getElem?_getD, List.getElem?_append_right h]

theorem getD_concat_self {α : Type} (l : List α) (x d : α) :
    (l ++ [x]).getD l.length d = x := by
  rw [getD_append_right l [x] l.length d (Nat.le_refl _)]
  simp [List.getD]

theorem getD_of_le_length {α : Type} (l : List α) (i : Nat) (d : α)
    (h : l.length ≤ i) : l.getD i d = d := by
  simp [List.getD_eq_getElem?_getD, List.getElem?_eq_none h]

theorem getLast?_getD_eq_getD (l : List Nat) :
    l.getLast?.getD 0 = l.getD (l.length - 1) 0 := by
  rw [List.getLast?_eq_getElem?, List.getD_eq_getElem?_getD]

/-! swapRemove -/

theorem length_swapRemove (l : List Nat) (i : Nat) :
    (swapRemove l i).length = l.length - 1 := by
  unfold swapRemove
  split <;> simp [List.length_dropLast]

theorem getD_swapRemove (l : List Nat) (i j : Nat)
    (hj : j < l.length - 1) :
    (swapRemove l i).getD j 0 =
      if j = i then l.getD (l.length - 1) 0 else l.getD j 0 := by
  unfold swapRemove
  split
  · -- i is the last index: j < l.length - 1 = i so the `if` is false
    next h =>
    have hji : j ≠ i := by omega
    rw [if_neg hji, List.getD_eq_getElem?_getD, List.getD_eq_getElem?_getD,
      List.getElem?_dropLast, if_pos hj]
  · next h =>
    rw [getLast?_getD_eq_getD l]
    by_cases hji : j = i
    · subst hji
      have hjl : j < l.length := by omega
      rw [if_pos rfl, List.getD_eq_getElem?_getD, List.getElem?_dropLast,
        List.length_set, if_pos hj, List.getElem?_set_self hjl]
      rfl
    · rw [if_neg hji, List.getD_eq_getElem?_getD, List.getElem?_dropLast,
        List.length_set, if_pos hj, List.getElem?_set_ne (by omega : i ≠ j),
        List.getD_eq_getElem?_getD]

/-! mapIdx -/

theorem length_mapIdxFrom {α : Type} (f : Nat → α → α) (k : Nat)
    (l : List α) : (mapIdxFrom f k l).length = l.length := by
  induction l generalizing k with
  | nil => rfl
  | cons a as ih => simp [mapIdxFrom, ih]

theorem length_mapIdx {α : Type} (f : Nat → α → α) (l : List α) :
    (mapIdx f l).length = l.length := length_mapIdxFrom f 0 l

theorem getD_mapIdxFrom {α : Type} (f : Nat → α → α) (k : Nat) (l : List α)
    (i : Nat) (d : α) (h : i < l.length) :
    (mapIdxFrom f k l).getD i d = f (k + i) (l.getD i d) := by
  induction l generalizing k i with
  | nil => simp at h
  | cons a as ih =>
    cases i with
    | zero => simp [mapIdxFrom, List.getD]
    | succ n =>
      simp only [mapIdxFrom, List.getD_cons_succ]
      rw [ih (k + 1) n (by simpa using h)]
      congr 1
      omega

theorem getD_mapIdx {α : Type} (f : Nat → α → α) (l : List α)
    (i : Nat) (d : α) (h : i < l.length) :
    (mapIdx f l).getD i d = f i (l.getD i d) := by
  unfold mapIdx
  rw [getD_mapIdxFrom f 0 l i d h, Nat.zero_add]

/-! insertAt / eraseAt -/

theorem length_insertAt {α : Type} (n : Nat) (x : α) (l : List α)
    (h : n ≤ l.length) : (insertAt n x l).length = l.length + 1 := by
  induction l generalizing n with
  | nil =>
    have hn : n = 0 := by simpa using h
    subst hn; simp [insertAt]
  | cons a as ih =>
    cases n with
    | zero => simp [insertAt]
    | succ m => simp [insertAt, ih m (by simpa using h)]

theorem map_insertAt {α β : Type} (f : α → β) (n : Nat) (x : α)
    (l : List α) : (insertAt n x l).map f = insertAt n (f x) (l.map f) := by
  induction l generalizing n with
  | nil => cases n <;> simp [insertAt]
  | cons a as ih =>
    cases n with
    | zero => simp [insertAt]
    | succ m => simp [insertAt, ih m]

theorem eraseAt_insertAt {α : Type} (n : Nat) (x : α) (l : List α)
    (hn : n ≤ l.length) : eraseAt n (insertAt n x l) = l := by
  induction l generalizing n with
  | nil =>
    have h : n = 0 := by simpa using hn
    subst h; simp [insertAt, eraseAt]
  | cons a as ih =>
    cases n with
    | zero => simp [insertAt, eraseAt]
    | succ m => simp [insertAt, eraseAt, ih m (by simpa using hn)]

theorem getD_insertAt_lt {α : Type} (n : Nat) (x : α) (l : List α)
    (j : Nat) (d : α) (hj : j < n) (hn : n ≤ l.length) :
    (insertAt n x l).getD j d = l.getD j d := by
  induction l generalizing n j with
  | nil =>
    have : n = 0 := by simpa using hn
    omega
  | cons a as ih =>
    cases n with
    | zero => omega
    | succ m =>
      cases j with
      | zero => simp [insertAt, List.getD]
      | succ jj =>
        simp only [insertAt, List.getD_cons_succ]
        exact ih m jj (by omega) (by simpa using hn)

theorem getD_insertAt_self {α : Type} (n : Nat) (x : α) (l : List α)
    (d : α) (h : n ≤ l.length) : (insertAt n x l).getD n d = x := by
  induction l generalizing n with
  | nil =>
    cases n with
    | zero => simp [insertAt, List.getD]
    | succ m => simp at h
  | cons a as ih =>
    cases n with
    | zero => simp [insertAt, List.getD]
    | succ m =>
      simp only [insertAt, List.getD_cons_succ]
      exact ih m (by simpa using h)

theorem getD_insertAt_gt {α : Type} (n : Nat) (x : α) (l : List α)
    (j : Nat) (d : α) (hj : n < j) :
    (insertAt n x l).getD j d = l.getD (j - 1) d := by
  induction l generalizing n j with
  | nil =>
    cases n with
    | zero =>
      cases j with
      | zero => omega
      | succ jj => simp [insertAt, List.getD]
    | succ m =>
      simp only [insertAt]
      cases j with
      | zero => omega
      | succ jj => simp [List.getD]
  | cons a as ih =>
    cases n with
    | zero =>
      cases j with
      | zero => omega
      | succ jj => simp [insertAt, List.getD_cons_succ]
    | succ m =>
      cases j with
      | zero => omega
      | succ jj =>
        simp only [insertAt, List.getD_cons_succ]
        rw [ih m jj (by omega)]
        cases jj with
        | zero => omega
        | succ k => simp [List.getD_cons_succ]

theorem length_eraseAt {α : Type} (n : Nat) (l : List α)
    (h : n < l.length) : (eraseAt n l).length = l.length - 1 := by
  induction l generalizing n with
  | nil => simp at h
  | cons a as ih =>
    cases n with
    | zero => simp [eraseAt]
    | succ m =>
      simp only [eraseAt, List.length_cons]
      rw [ih m (by simpa using h)]
      have : 0 < as.length := by simp at h; omega
      omega

theorem getD_eraseAt_lt {α : Type} (n : Nat) (l : List α) (j : Nat) (d : α)
    (hj : j < n) : (eraseAt n l).getD j d = l.getD j d := by
  induction l generalizing n j with
  | nil => simp [eraseAt]
  | cons a as ih =>
    cases n with
    | zero => omega
    | succ m =>
      cases j with
      | zero => simp [eraseAt, List.getD]
      | succ jj =>
        simp only [eraseAt, List.getD_cons_succ]
        exact ih m jj (by omega)

theorem getD_eraseAt_ge {α : Type} (n : Nat) (l : List α) (j : Nat) (d : α)
    (hj : n ≤ j) : (eraseAt n l).getD j d = l.getD (j + 1) d := by
  induction l generalizing n j with
  | nil => simp [eraseAt, List.getD]
  | cons a as ih =>
    cases n with
    | zero => simp [eraseAt, List.getD_cons_succ]
    | succ m =>
      cases j with
      | zero => omega
      | succ jj =>
        simp only [eraseAt, List.getD_cons_succ]
        exact ih m jj (by omega)

/-! searchSorted: the `binary_search` contract on sorted input -/

theorem searchSorted_found_spec (l : List Nat) (x i : Nat)
    (h : searchSorted l x = .found i) :
    i < l.length ∧ l.getD i 0 = x := by
  induction l generalizing i with
  | nil => simp [searchSorted] at h
  | cons a as ih =>
    simp only [searchSorted] at h
    split at h
    · simp at h
    · next hxa =>
      split at h
      · next hx =>
        cases h
        exact ⟨by simp, by simp [List.getD, hx]⟩
      · next hx =>
        cases hrec : searchSorted as x with
        | found i' =>
          rw [hrec] at h
          cases h
          obtain ⟨h1, h2⟩ := ih i' hrec
          exact ⟨by simpa using Nat.succ_lt_succ h1,
                 by simpa [List.getD_cons_succ] using h2⟩
        | notFound i' => rw [hrec] at h; simp at h

theorem searchSorted_notFound_spec (l : List Nat) (x i : Nat)
    (hs : l.Pairwise (· < ·))
    (h : searchSorted l x = .notFound i) :
    i ≤ l.length ∧ x ∉ l ∧
      (∀ j, j < i → l.getD j 0 < x) ∧
      (∀ j, i ≤ j → j < l.length → x < l.getD j 0) := by
  induction l generalizing i with
  | nil =>
    simp only [searchSorted] at h
    cases h
    refine ⟨by simp, by simp, ?_, ?_⟩
    · intro j hj; omega
    · intro j hj hjl; simp at hjl
  | cons a as ih =>
    have hall : ∀ b ∈ as, a < b := (List.pairwise_cons.mp hs).1
    have hs' : as.Pairwise (· < ·) := (List.pairwise_cons.mp hs).2
    simp only [searchSorted] at h
    split at h
    · next hxa =>
      cases h
      refine ⟨by simp, ?_, by intro j hj; omega, ?_⟩
      · intro hm
        rcases List.mem_cons.mp hm with h1 | h1
        · omega
        · exact absurd (hall x h1) (by omega)
      · intro j _ hj
        cases j with
        | zero => simpa [List.getD]
        | succ jj =>
          have hjj : jj < as.length := by simpa using hj
          have hmem : as.getD jj 0 ∈ as := by
            rw [List.getD_eq_getElem?_getD, List.getElem?_eq_getElem hjj]
            exact List.getElem_mem hjj
          have : x < as.getD jj 0 := by
            have := hall (as.getD jj 0) hmem
            omega
          simpa [List.getD_cons_succ]
    · next hxa =>
      split at h
      · simp at h
      · next hx =>
        cases hrec : searchSorted as x with
        | found i' => rw [hrec] at h; simp at h
        | notFound i' =>
          rw [hrec] at h
          cases h
          obtain ⟨h1, h2, h3, h4⟩ := ih i' hs' hrec
          refine ⟨by simpa using Nat.succ_le_succ h1, ?_, ?_, ?_⟩
          · intro hm
            rcases List.mem_cons.mp hm with hh | hh
            · exact hx hh
            · exact h2 hh
          · intro j hj
            cases j with
            | zero => simp [List.getD]; omega
            | succ jj =>
              simp only [List.getD_cons_succ]
              exact h3 jj (by omega)
          · intro j hj hjl
            cases j with
            | zero => omega
            | succ jj =>
              simp only [List.getD_cons_succ]
              exact h4 jj (by omega) (by simpa using hjl)

/-! sortBundle coincides with Mathlib's insertion sort -/

def bundleLE (u v : Nat × Nat) : Prop := u.1 ≤ v.1

instance : DecidableRel bundleLE := fun u v => Nat.decLe u.1 v.1

instance : IsTotal (Nat × Nat) bundleLE := ⟨fun a b => Nat.le_total a.1 b.1⟩

instance : IsTrans (Nat × Nat) bundleLE :=
  ⟨fun _ _ _ h1 h2 => Nat.le_trans h1 h2⟩

theorem insByFst_eq (p : Nat × Nat) (l : List (Nat × Nat)) :
    insByFst p l = List.orderedInsert bundleLE p l := by
  induction l with
  | nil => rfl
  | cons q qs ih =>
    simp only [insByFst, List.orderedInsert, ih]
    rfl

theorem sortBundle_eq (b : List (Nat × Nat)) :
    sortBundle b = List.insertionSort bundleLE b := by
  induction b with
  | nil => rfl
  | cons p ps ih => simp only [sortBundle, List.insertionSort, ih, insByFst_eq]

theorem sortBundle_perm (b : List (Nat × Nat)) : (sortBundle b).Perm b := by
  rw [sortBundle_eq]; exact List.perm_insertionSort bundleLE b

theorem sortBundle_sorted (b : List (Nat × Nat)) :
    (sortBundle b).Pairwise bundleLE := by
  rw [sortBundle_eq]; exact List.sorted_insertionSort bundleLE b

theorem bundleTypes_perm (b : List (Nat × Nat)) :
    (bundleTypes b).Perm (b.map Prod.fst) := by
  unfold bundleTypes
  exact (sortBundle_perm b).map Prod.fst

theorem bundleTypes_sorted (b : List (Nat × Nat)) (hb : BundleWF b) :
    (bundleTypes b).Pairwise (· < ·) := by
  have hle : (bundleTypes b).Pairwise (· ≤ ·) := by
    unfold bundleTypes
    exact (List.pairwise_map).mpr (sortBundle_sorted b)
  have hnd : (bundleTypes b).Nodup :=
    (bundleTypes_perm b).nodup_iff.mpr hb
  have := hle.and hnd
  exact this.imp (fun h => by
    obtain ⟨h1, h2⟩ := h
    omega)

theorem strict_sorted_eq_of_perm {l1 l2 : List Nat}
    (hp : l1.Perm l2) (h1 : l1.Pairwise (· < ·)) (h2 : l2.Pairwise (· < ·)) :
    l1 = l2 := by
  have : IsAntisymm Nat (· < ·) := ⟨fun a b ha hb => by omega⟩
  exact List.eq_of_perm_of_sorted hp h1 h2

theorem searchSorted_of_mem (l : List Nat) (x : Nat)
    (hs : l.Pairwise (· < ·)) (hm : x ∈ l) :
    ∃ i, searchSorted l x = .found i := by
  cases hr : searchSorted l x with
  | found i => exact ⟨i, rfl⟩
  | notFound i =>
    obtain ⟨-, hnm, -, -⟩ := searchSorted_notFound_spec l x i hs hr
    exact absurd hm hnm

theorem searchSorted_of_not_mem (l : List Nat) (x : Nat) (hm : x ∉ l) :
    ∃ i, searchSorted l x = .notFound i := by
  cases hr : searchSorted l x with
  | found i =>
    obtain ⟨h1, h2⟩ := searchSorted_found_spec l x i hr
    have : x ∈ l := by
      rw [← h2, List.getD_eq_getElem?_getD, List.getElem?_eq_getElem h1]
      exact List.getElem_mem h1
    exact absurd this hm
  | notFound i => exact ⟨i, rfl⟩

/-! alookup -/

theorem alookup_cons_self (k : List Nat) (v : Nat)
    (m : List (List Nat × Nat)) : alookup ((k, v) :: m) k = some v := by
  simp [alookup]

theorem alookup_cons_ne (k k' : List Nat) (v : Nat)
    (m : List (List Nat × Nat)) (h : k' ≠ k) :
    alookup ((k', v) :: m) k = alookup m k := by
  simp [alookup, h]

theorem alookup_mem (m : List (List Nat × Nat)) (k : List Nat) (v : Nat)
    (h : alookup m k = some v) : (k, v) ∈ m := by
  induction m with
  | nil => simp [alookup] at h
  | cons p ps ih =>
    simp only [alookup] at h
    split at h
    · next heq =>
      cases h
      have : p = (k, p.2) := by
        cases p
        simp_all
      rw [← this]
      exact List.mem_cons_self p ps
    · exact List.mem_cons_of_mem p (ih h)

/-! ### Claims -/

/-- C7: for every handle whose index is within the registry's bounds but
whose generation differs from the registry slot's generation, each of
`despawn`, `add_component`, `remove_component` and `get_component_mut`
returns the `NoSuchEntity` error and leaves the entire `World` state
(archetypes, registry slots, free list, bundle-id map) unchanged. -/
theorem C7_stale_generation_rejected (w : World) (e : Entity) (t v : Nat)
    (hidx : e.index < w.entities.length)
    (hgen : (slotOf w e.index).generation ≠ e.generation) :
    w.despawn e = .err .noSuchEntity w ∧
    w.add_component e t v = .err .noSuchEntity w ∧
    w.remove_component e t = .err .noSuchEntity w ∧
    w.get_component_mut e t = .err .noSuchEntity w := by
  unfold World.despawn World.add_component World.remove_component
    World.get_component_mut
  unfold slotOf at hgen
  refine ⟨?_, ?_, ?_, ?_⟩ <;>
    · rw [if_pos hidx]
      simp only []
      rw [if_neg hgen]

theorem C7_stale_generation_rejected_witness :
    (0 < exW1.entities.length ∧ (slotOf exW1 0).generation ≠ 1) ∧
    (exW1.despawn ⟨0, 1⟩ = .err .noSuchEntity exW1 ∧
     exW1.add_component ⟨0, 1⟩ 3 7 = .err .noSuchEntity exW1 ∧
     exW1.remove_component ⟨0, 1⟩ 3 = .err .noSuchEntity exW1 ∧
     exW1.get_component_mut ⟨0, 1⟩ 3 = .err .noSuchEntity exW1) :=
  ⟨⟨by decide, by decide⟩,
   C7_stale_generation_rejected exW1 ⟨0, 1⟩ 3 7 (by decide) (by decide)⟩

/-- C10: for every handle whose index field is at least the number of
registry slots ever allocated, `despawn`, `get_component_mut`,
`add_component` and `remove_component` panic on the out-of-bounds registry
indexing (`self.entities[entity.index as usize]`) instead of returning
`NoSuchEntity`. -/
theorem C10_out_of_bounds_panics (w : World) (e : Entity) (t v : Nat)
    (h : w.entities.length ≤ e.index) :
    w.despawn e = .panic ∧ w.get_component_mut e t = .panic ∧
    w.add_component e t v = .panic ∧ w.remove_component e t = .panic := by
  unfold World.despawn World.add_component World.remove_component
    World.get_component_mut
  refine ⟨?_, ?_, ?_, ?_⟩ <;> rw [if_neg (by omega)]

theorem C10_out_of_bounds_panics_witness :
    (exW1.entities.length ≤ 5) ∧
    (exW1.despawn ⟨5, 0⟩ = .panic ∧ exW1.get_component_mut ⟨5, 0⟩ 0 = .panic ∧
     exW1.add_component ⟨5, 0⟩ 0 9 = .panic ∧
     exW1.remove_component ⟨5, 0⟩ 0 = .panic) :=
  ⟨by decide, C10_out_of_bounds_panics exW1 ⟨5, 0⟩ 0 9 (by decide)⟩

/-- C8: `Archetype::get_component_mut` builds its `EntityMissingComponent`
from the row index (`index_in_archetype`) it was handed, not the entity's
registry index, contradicting the parameter name `entity_id` of
`EntityMissingComponent::new` and the `"entity {:?} does not have ..."`
display text; `remove_component` passes the correct `entity.index`.  At the
failing input below, entity `(1, 0)` sits in row `0` of archetype `1`, and
`get_component_mut` reports entity `0` while `remove_component` on the same
input reports entity `1`. -/
theorem C8_missing_component_error_id :
    exW2.get_component_mut ⟨1, 0⟩ 0 =
      .err (.entityMissingComponent 0 (typeName 0)) exW2 ∧
    exW2.remove_component ⟨1, 0⟩ 0 =
      .err (.entityMissingComponent 1 (typeName 0)) exW2 ∧
    (⟨1, 0⟩ : Entity).index = 1 := by decide

/-! ### ChainedIterator: behaviour on nonempty iterators -/

theorem chainRun_spec {α : Type} (fuel : Nat) (cur : List α)
    (stack : List (List α)) (hne : ∀ l ∈ stack, l ≠ [])
    (hf : cur.length + (stack.map List.length).sum + stack.length < fuel) :
    chainRun fuel ⟨some cur, stack⟩ = cur ++ stack.reverse.flatten := by
  induction fuel generalizing cur stack with
  | zero => omega
  | succ f ih =>
    cases cur with
    | cons x rest =>
      show x :: chainRun f ⟨some rest, stack⟩ = _
      rw [ih rest stack hne (by simp at hf ⊢; omega)]
      rfl
    | nil =>
      cases hstack : stack.getLast? with
      | none =>
        have hs : stack = [] := by
          cases stack with
          | nil => rfl
          | cons a as => simp [List.getLast?_concat] at hstack
        subst hs
        show ([] : List α) = _
        simp
      | some last =>
        have hsplit : stack.dropLast ++ [last] = stack :=
          List.dropLast_append_getLast? last hstack
        have hmem : last ∈ stack := by
          rw [← hsplit]; simp
        have hlast : last ≠ [] := hne last hmem
        cases last with
        | nil => exact absurd rfl hlast
        | cons y ys =>
          have hne' : ∀ l ∈ stack.dropLast, l ≠ [] := by
            intro l hl
            exact hne l (by rw [← hsplit]; exact List.mem_append_left _ hl)
          have hsum : (stack.map List.length).sum =
              (stack.dropLast.map List.length).sum + (ys.length + 1) := by
            conv_lhs => rw [← hsplit]
            simp
          have hlen : stack.length = stack.dropLast.length + 1 := by
            conv_lhs => rw [← hsplit]
            simp
          show chainRun (f + 1) ⟨some [], stack⟩ = _
          have hnext : chainRun (f + 1) ⟨some ([] : List α), stack⟩ =
              y :: chainRun f ⟨some ys, stack.dropLast⟩ := by
            show (match (ChainedIterator.next ⟨some ([] : List α), stack⟩) with
              | (some x, s') => x :: chainRun f s'
              | (none, _) => []) = _
            unfold ChainedIterator.next
            simp only [hstack]
          rw [hnext, ih ys stack.dropLast hne' (by simp at hf; omega)]
          have : stack.reverse.flatten = (y :: ys) ++
              stack.dropLast.reverse.flatten := by
            conv_lhs => rw [← hsplit]
            simp [List.reverse_append]
          rw [this]
          simp

theorem chainToList_nonempty {α : Type} (its : List (List α))
    (hne : ∀ l ∈ its, l ≠ []) :
    chainToList (ChainedIterator.new its) = its.reverse.flatten := by
  unfold ChainedIterator.new chainToList
  cases hlast : its.getLast? with
  | none =>
    have hs : its = [] := by
      cases its with
      | nil => rfl
      | cons a as => simp [List.getLast?_concat] at hlast
    subst hs
    rfl
  | some last =>
    have hsplit : its.dropLast ++ [last] = its :=
      List.dropLast_append_getLast? last hlast
    have hmem : last ∈ its := by rw [← hsplit]; simp
    have hne' : ∀ l ∈ its.dropLast, l ≠ [] := by
      intro l hl
      exact hne l (by rw [← hsplit]; exact List.mem_append_left _ hl)
    rw [chainRun_spec _ last its.dropLast hne' (by
      unfold chainFuel
      simp only [Option.getD_some]
      omega)]
    have : its.reverse.flatten = last ++ its.dropLast.reverse.flatten := by
      conv_lhs => rw [← hsplit]
      simp [List.reverse_append]
    rw [this]

/-- C9: counterexample to storage-order visitation.  In `exW3` both
archetypes match the query (types `{0}` ⊇ `{0}` and `{0, 1}` ⊇ `{0}`); the
query yields archetype 1's row before archetype 0's row, the reverse of
their storage order (which would yield `[[1], [2]]`). -/
theorem C9_storage_order_counterexample :
    queryResult exW3 [0] = [[2], [1]] ∧
    ((exW3.archetypes.filter (archMatches [0])).map (archRows [0])).flatten
      = [[1], [2]] ∧
    queryResult exW3 [0] ≠
      ((exW3.archetypes.filter (archMatches [0])).map
        (archRows [0])).flatten := by
  refine ⟨by decide, by decide, by decide⟩

/-- C9 (amended): `ChainedIterator::new` and `next` pop iterators off the
back of the vector, so a query visits the matching archetypes in the
reverse of their storage order (within each archetype, rows are yielded in
row order); when every matching archetype is nonempty the produced sequence
is exactly the reverse-storage-order concatenation of the per-archetype row
lists. -/
theorem C9_query_reverse_order (w : World) (q : List Nat)
    (hne : ∀ l ∈ queryIters w q, l ≠ []) :
    queryResult w q = (queryIters w q).reverse.flatten :=
  chainToList_nonempty (queryIters w q) hne

theorem C9_query_reverse_order_witness :
    (∀ l ∈ queryIters exW3 [0], l ≠ []) ∧
    queryResult exW3 [0] = (queryIters exW3 [0]).reverse.flatten :=
  ⟨by decide, C9_query_reverse_order exW3 [0] (by decide)⟩

/-! ### Decomposition lemmas for spawn -/

theorem spawn_in_world_found (b : List (Nat × Nat)) (w : World) (i ai : Nat)
    (h : alookup w.bundle_id_to_archetype (bundleTypes b) = some ai) :
    spawn_in_world b w i =
      (⟨ai, (archOf w ai).entities.length⟩,
       { w with archetypes :=
           w.archetypes.set ai (pushBundle (archOf w ai) i b) }) := by
  unfold spawn_in_world
  simp only [h, archOf, pushBundle]
  simp

theorem spawn_in_world_new (b : List (Nat × Nat)) (w : World) (i : Nat)
    (h : alookup w.bundle_id_to_archetype (bundleTypes b) = none) :
    spawn_in_world b w i =
      (⟨w.archetypes.length, 0⟩,
       { w with
           archetypes := w.archetypes ++ [pushBundle (new_archetype b) i b],
           bundle_id_to_archetype :=
             (bundleTypes b, w.archetypes.length) ::
               w.bundle_id_to_archetype }) := by
  unfold spawn_in_world
  simp only [h, pushBundle, new_archetype]
  simp

theorem spawn_unfold (w : World) (b : List (Nat × Nat)) :
    w.spawn b =
      (⟨spawnIdx w, spawnGen w⟩,
       { (spawn_in_world b (preSpawn w) (spawnIdx w)).2 with
           entities :=
             (spawn_in_world b (preSpawn w) (spawnIdx w)).2.entities.set
               (spawnIdx w)
               ⟨spawnGen w, (spawn_in_world b (preSpawn w) (spawnIdx w)).1⟩ }) := by
  unfold World.spawn spawnIdx spawnGen preSpawn
  cases hfree : w.free_entities.getLast? <;> simp [hfree, slotOf]

theorem preSpawn_archetypes (w : World) :
    (preSpawn w).archetypes = w.archetypes := by
  unfold preSpawn
  cases w.free_entities.getLast? <;> rfl

theorem preSpawn_map (w : World) :
    (preSpawn w).bundle_id_to_archetype = w.bundle_id_to_archetype := by
  unfold preSpawn
  cases w.free_entities.getLast? <;> rfl

theorem preSpawn_free (w : World) :
    (preSpawn w).free_entities = w.free_entities.dropLast := by
  unfold preSpawn
  cases hfree : w.free_entities.getLast? with
  | none =>
    have : w.free_entities = [] := List.getLast?_eq_none_iff.mp hfree
    simp [this]
  | some i => rfl

theorem preSpawn_entities_le (w : World) :
    w.entities.length ≤ (preSpawn w).entities.length := by
  unfold preSpawn
  cases w.free_entities.getLast? <;> simp

theorem preSpawn_slot (w : World) (j : Nat) (hj : j < w.entities.length) :
    slotOf (preSpawn w) j = slotOf w j := by
  unfold preSpawn slotOf
  cases w.free_entities.getLast? with
  | none =>
    show (w.entities ++ [(⟨0, default⟩ : EntityInfo)]).getD j default = _
    rw [getD_append_left _ _ _ _ hj]
  | some i => rfl

theorem spawnIdx_lt (w : World) (hD : freeBounded w) :
    spawnIdx w < (preSpawn w).entities.length := by
  unfold spawnIdx preSpawn
  cases hfree : w.free_entities.getLast? with
  | none => simp
  | some i =>
    have hmem : i ∈ w.free_entities := by
      have hsplit := List.dropLast_append_getLast? i hfree
      rw [← hsplit]; simp
    exact hD i hmem

theorem spawn_in_world_entities (b : List (Nat × Nat)) (w : World)
    (i : Nat) : (spawn_in_world b w i).2.entities = w.entities := by
  cases h : alookup w.bundle_id_to_archetype (bundleTypes b) with
  | some ai => rw [spawn_in_world_found b w i ai h]
  | none => rw [spawn_in_world_new b w i h]

theorem spawn_in_world_free (b : List (Nat × Nat)) (w : World) (i : Nat) :
    (spawn_in_world b w i).2.free_entities = w.free_entities := by
  cases h : alookup w.bundle_id_to_archetype (bundleTypes b) with
  | some ai => rw [spawn_in_world_found b w i ai h]
  | none => rw [spawn_in_world_new b w i h]

theorem spawn_in_world_loc (b : List (Nat × Nat)) (w : World) (i : Nat) :
    (spawn_in_world b w i).1 =
      ⟨spawnTarget w b, (archOf w (spawnTarget w b)).entities.length⟩ := by
  unfold spawnTarget
  cases h : alookup w.bundle_id_to_archetype (bundleTypes b) with
  | some ai => rw [spawn_in_world_found b w i ai h]
  | none =>
    rw [spawn_in_world_new b w i h]
    have : archOf w w.archetypes.length = default := by
      unfold archOf
      exact getD_of_le_length _ _ _ (Nat.le_refl _)
    simp [this]
    rfl

theorem spawn_free (w : World) (b : List (Nat × Nat)) :
    (w.spawn b).2.free_entities = w.free_entities.dropLast := by
  rw [spawn_unfold]
  show (spawn_in_world b (preSpawn w) (spawnIdx w)).2.free_entities = _
  rw [spawn_in_world_free, preSpawn_free]

theorem spawn_entities_len (w : World) (b : List (Nat × Nat)) :
    (w.spawn b).2.entities.length = (preSpawn w).entities.length := by
  rw [spawn_unfold]
  show ((spawn_in_world b (preSpawn w) (spawnIdx w)).2.entities.set _ _).length = _
  rw [List.length_set, spawn_in_world_entities]

theorem spawn_entities_le (w : World) (b : List (Nat × Nat)) :
    w.entities.length ≤ (w.spawn b).2.entities.length := by
  rw [spawn_entities_len]
  exact preSpawn_entities_le w

theorem spawn_slot_self (w : World) (b : List (Nat × Nat))
    (hD : freeBounded w) :
    slotOf (w.spawn b).2 (spawnIdx w) =
      ⟨spawnGen w,
       ⟨spawnTarget w b, (archOf w (spawnTarget w b)).entities.length⟩⟩ := by
  rw [spawn_unfold]
  show ((spawn_in_world b (preSpawn w) (spawnIdx w)).2.entities.set
      (spawnIdx w) _).getD (spawnIdx w) default = _
  rw [getD_set_self]
  · rw [spawn_in_world_loc]
    rw [show spawnTarget (preSpawn w) b = spawnTarget w b by
      unfold spawnTarget
      rw [preSpawn_map, preSpawn_archetypes]]
    rw [show archOf (preSpawn w) = archOf w by
      unfold archOf
      rw [preSpawn_archetypes]]
  · rw [spawn_in_world_entities]
    exact spawnIdx_lt w hD

theorem spawn_slot_other (w : World) (b : List (Nat × Nat)) (j : Nat)
    (hj : j ≠ spawnIdx w) (hjl : j < w.entities.length) :
    slotOf (w.spawn b).2 j = slotOf w j := by
  rw [spawn_unfold]
  show ((spawn_in_world b (preSpawn w) (spawnIdx w)).2.entities.set
      (spawnIdx w) _).getD j default = _
  rw [getD_set_ne _ _ _ _ _ (fun h => hj h.symm), spawn_in_world_entities]
  exact preSpawn_slot w j hjl

theorem spawn_lookup_self (w : World) (b : List (Nat × Nat)) :
    alookup (w.spawn b).2.bundle_id_to_archetype (bundleTypes b) =
      some (spawnTarget w b) := by
  rw [spawn_unfold]
  show alookup (spawn_in_world b (preSpawn w) (spawnIdx w)).2.bundle_id_to_archetype _ = _
  unfold spawnTarget
  cases h : alookup w.bundle_id_to_archetype (bundleTypes b) with
  | some ai =>
    rw [spawn_in_world_found b (preSpawn w) (spawnIdx w) ai
      (by rw [preSpawn_map]; exact h)]
    rw [preSpawn_map]
    exact h
  | none =>
    rw [spawn_in_world_new b (preSpawn w) (spawnIdx w)
      (by rw [preSpawn_map]; exact h)]
    show alookup ((bundleTypes b, (preSpawn w).archetypes.length) :: _) _ = _
    rw [alookup_cons_self, preSpawn_archetypes]

theorem spawn_freeBounded (w : World) (b : List (Nat × Nat))
    (hD : freeBounded w) : freeBounded (w.spawn b).2 := by
  intro i hi
  rw [spawn_free] at hi
  have h1 := hD i (List.mem_of_mem_dropLast hi)
  have h2 := spawn_entities_le w b
  omega

theorem spawn_freeNodup (w : World) (b : List (Nat × Nat))
    (hF : freeNodup w) : freeNodup (w.spawn b).2 := by
  unfold freeNodup at *
  rw [spawn_free]
  exact hF.sublist (List.dropLast_sublist _)

theorem spawnIdx_spawn_ne (w : World) (b : List (Nat × Nat))
    (hF : freeNodup w) (hD : freeBounded w) :
    spawnIdx (w.spawn b).2 ≠ spawnIdx w := by
  unfold spawnIdx
  rw [spawn_free]
  cases hfree : w.free_entities.getLast? with
  | none =>
    -- fresh index: the free list is empty
    have hnil : w.free_entities = [] := List.getLast?_eq_none_iff.mp hfree
    rw [hnil]
    simp only [List.dropLast_nil, show ([] : List Nat).getLast? = none from rfl]
    have hlen := spawn_entities_len w b
    unfold preSpawn at hlen
    rw [hfree] at hlen
    simp only [List.length_append, List.length_cons, List.length_nil] at hlen
    omega
  | some i =>
    have hsplit := List.dropLast_append_getLast? i hfree
    cases hlast2 : w.free_entities.dropLast.getLast? with
    | some j =>
      -- two distinct elements of a Nodup free list
      simp only []
      have hjmem : j ∈ w.free_entities.dropLast := by
        have := List.dropLast_append_getLast? j hlast2
        rw [← this]; simp
      have hnd : (w.free_entities.dropLast ++ [i]).Nodup := by
        rw [hsplit]; exact hF
      have hni : i ∉ w.free_entities.dropLast := by
        rcases List.nodup_append.mp hnd with ⟨-, -, hdisj⟩
        intro hmem
        exact hdisj hmem (by simp)
      intro heq
      exact hni (heq ▸ hjmem)
    | none =>
      -- free list becomes empty: the next index is the fresh registry slot
      have himem : i ∈ w.free_entities := by rw [← hsplit]; simp
      have hi := hD i himem
      have hlen := spawn_entities_len w b
      unfold preSpawn at hlen
      rw [hfree] at hlen
      simp only at hlen
      rw [show (match (none : Option Nat) with
            | some i => i
            | none => (w.spawn b).2.entities.length) =
          (w.spawn b).2.entities.length from rfl,
          show (match some i with
            | some i => i
            | none => w.entities.length) = i from rfl]
      omega

theorem spawn_fst (w : World) (b : List (Nat × Nat)) :
    (w.spawn b).1 = ⟨spawnIdx w, spawnGen w⟩ := by
  rw [spawn_unfold]

theorem bundleTypes_eq_of_perm (b1 b2 : List (Nat × Nat))
    (h1 : BundleWF b1) (h2 : BundleWF b2)
    (hp : (b1.map Prod.fst).Perm (b2.map Prod.fst)) :
    bundleTypes b1 = bundleTypes b2 :=
  strict_sorted_eq_of_perm
    ((bundleTypes_perm b1).trans (hp.trans (bundleTypes_perm b2).symm))
    (bundleTypes_sorted b1 h1) (bundleTypes_sorted b2 h2)

theorem arch_types_inj (w : World) (hH : mapComplete w) (i j : Nat)
    (hi : i < w.archetypes.length) (hj : j < w.archetypes.length)
    (heq : stypes (archOf w i) = stypes (archOf w j)) : i = j := by
  have ha := hH i hi
  have hb := hH j hj
  rw [heq] at ha
  rw [ha] at hb
  have := Option.some.inj hb
  omega

/-- C4: two bundles with equal type sets (possibly different declaration
order) spawned in sequence land in the same archetype, and a world
satisfying the representation invariant never holds two distinct archetypes
with the same type-id sequence. -/
theorem C4_same_type_set_same_archetype (w : World) (b1 b2 : List (Nat × Nat))
    (hI : WInv w) (h1 : BundleWF b1) (h2 : BundleWF b2)
    (hp : (b1.map Prod.fst).Perm (b2.map Prod.fst)) :
    (locOf ((w.spawn b1).2.spawn b2).2
        (w.spawn b1).1.index).archetype_index =
      (locOf ((w.spawn b1).2.spawn b2).2
        ((w.spawn b1).2.spawn b2).1.index).archetype_index ∧
    (∀ i j, i < w.archetypes.length → j < w.archetypes.length →
      stypes (archOf w i) = stypes (archOf w j) → i = j) := by
  obtain ⟨-, -, -, hH, -, hD, hF, -, -⟩ := hI
  constructor
  · have hD1 : freeBounded (w.spawn b1).2 := spawn_freeBounded w b1 hD
    -- the second spawned entity's archetype
    have he2 : (locOf ((w.spawn b1).2.spawn b2).2
        ((w.spawn b1).2.spawn b2).1.index).archetype_index =
        spawnTarget (w.spawn b1).2 b2 := by
      rw [spawn_fst (w.spawn b1).2 b2]
      unfold locOf
      rw [spawn_slot_self (w.spawn b1).2 b2 hD1]
    -- the second spawn finds the bundle key the first spawn ensured
    have htgt : spawnTarget (w.spawn b1).2 b2 = spawnTarget w b1 := by
      unfold spawnTarget
      rw [← bundleTypes_eq_of_perm b1 b2 h1 h2 hp, spawn_lookup_self w b1]
      rfl
    -- the first spawned entity's slot survives the second spawn
    have he1 : (locOf ((w.spawn b1).2.spawn b2).2
        (w.spawn b1).1.index).archetype_index = spawnTarget w b1 := by
      rw [spawn_fst w b1]
      unfold locOf
      rw [spawn_slot_other (w.spawn b1).2 b2 (spawnIdx w)
        (fun h => spawnIdx_spawn_ne w b1 hF hD h.symm)
        (by
          rw [spawn_entities_len]
          exact spawnIdx_lt w hD)]
      rw [spawn_slot_self w b1 hD]
    rw [he1, he2, htgt]
  · exact fun i j hi hj heq => arch_types_inj w hH i j hi hj heq

theorem C4_same_type_set_same_archetype_witness :
    (WInv World.new ∧ BundleWF [(0, 1), (1, 2)] ∧ BundleWF [(1, 5), (0, 6)] ∧
      ([(0, 1), (1, 2)].map Prod.fst).Perm ([(1, 5), (0, 6)].map Prod.fst)) ∧
    ((locOf ((World.new.spawn [(0, 1), (1, 2)]).2.spawn [(1, 5), (0, 6)]).2
        (World.new.spawn [(0, 1), (1, 2)]).1.index).archetype_index =
      (locOf ((World.new.spawn [(0, 1), (1, 2)]).2.spawn [(1, 5), (0, 6)]).2
        ((World.new.spawn [(0, 1), (1, 2)]).2.spawn
          [(1, 5), (0, 6)]).1.index).archetype_index ∧
     (∀ i j, i < World.new.archetypes.length → j < World.new.archetypes.length →
       stypes (archOf World.new i) = stypes (archOf World.new j) → i = j)) :=
  ⟨⟨by decide, by decide, by decide, by decide⟩,
   C4_same_type_set_same_archetype World.new [(0, 1), (1, 2)] [(1, 5), (0, 6)]
     (by decide) (by decide) (by decide) (by decide)⟩

/-! ### Lemmas for spawn + get_component_mut (C3) -/

theorem getD_mem {α : Type} (l : List α) (j : Nat) (d : α)
    (hj : j < l.length) : l.getD j d ∈ l := by
  rw [List.getD_eq_getElem?_getD, List.getElem?_eq_getElem hj]
  exact List.getElem_mem hj

theorem getD_map {α β : Type} (f : α → β) (l : List α) (j : Nat) (d : α)
    (d' : β) (hj : j < l.length) :
    (l.map f).getD j d' = f (l.getD j d) := by
  rw [List.getD_eq_getElem?_getD, List.getD_eq_getElem?_getD,
    List.getElem?_map, List.getElem?_eq_getElem hj]
  rfl

theorem getD_zipWith {α β γ : Type} (f : α → β → γ) (l1 : List α)
    (l2 : List β) (j : Nat) (d1 : α) (d2 : β) (d3 : γ)
    (h1 : j < l1.length) (h2 : j < l2.length) :
    (List.zipWith f l1 l2).getD j d3 = f (l1.getD j d1) (l2.getD j d2) := by
  rw [List.getD_eq_getElem?_getD, List.getElem?_zipWith,
    List.getElem?_eq_getElem h1, List.getElem?_eq_getElem h2,
    List.getD_eq_getElem?_getD, List.getD_eq_getElem?_getD,
    List.getElem?_eq_getElem h1, List.getElem?_eq_getElem h2]
  rfl

theorem findIdx?_unique {α : Type} [Inhabited α] (f : α → Nat)
    (cs : List α) (t : Nat) (j : Nat)
    (hnd : (cs.map f).Nodup) (hj : j < cs.length)
    (ht : f (cs.getD j default) = t) :
    cs.findIdx? (fun c => f c = t) = some j := by
  induction cs generalizing j with
  | nil => simp at hj
  | cons c cs' ih =>
    cases j with
    | zero =>
      have hct : f c = t := by simpa [List.getD] using ht
      rw [List.findIdx?_cons, if_pos (by simp [hct])]
    | succ jj =>
      have hjj : jj < cs'.length := by simpa using hj
      have htj : f (cs'.getD jj default) = t := by
        simpa [List.getD_cons_succ] using ht
      have hmem : f (cs'.getD jj default) ∈ cs'.map f :=
        List.mem_map_of_mem f (getD_mem cs' jj default hjj)
      rw [List.map_cons] at hnd
      have hnd2 := List.nodup_cons.mp hnd
      have hcne : f c ≠ t := by
        intro hct
        have hni : f c ∉ cs'.map f := hnd2.1
        rw [hct, ← htj] at hni
        exact hni hmem
      rw [List.findIdx?_cons, if_neg (by simp [hcne]), List.findIdx?_succ,
        ih jj hnd2.2 hjj htj]
      rfl

theorem map_typeid_zipPush (cs : List ComponentStore)
    (ps : List (Nat × Nat)) (h : cs.length ≤ ps.length) :
    (List.zipWith (fun c p =>
        (⟨c.type_id, c.data ++ [p.2]⟩ : ComponentStore)) cs ps).map
      (·.type_id) = cs.map (·.type_id) := by
  induction cs generalizing ps with
  | nil => simp
  | cons c cs' ih =>
    cases ps with
    | nil => simp at h
    | cons p ps' => simp [ih ps' (by simpa using h)]

theorem stypes_pushBundle (A : Archetype) (i : Nat) (b : List (Nat × Nat))
    (hlen : A.components.length ≤ (sortBundle b).length) :
    stypes (pushBundle A i b) = stypes A := by
  unfold stypes pushBundle
  exact map_typeid_zipPush A.components (sortBundle b) hlen

theorem stypes_new_archetype (b : List (Nat × Nat)) :
    stypes (new_archetype b) = bundleTypes b := by
  unfold stypes new_archetype bundleTypes
  simp

theorem strict_sorted_nodup (l : List Nat) (h : l.Pairwise (· < ·)) :
    l.Nodup :=
  h.imp (fun hlt => by omega)

theorem sortBundle_pair_at (b : List (Nat × Nat)) (hb : BundleWF b)
    (j t v : Nat) (hjt : (bundleTypes b).getD j 0 = t)
    (hj : j < (sortBundle b).length) (hmem : (t, v) ∈ b) :
    (sortBundle b).getD j (0, 0) = (t, v) := by
  have hp : (sortBundle b).getD j (0, 0) ∈ sortBundle b :=
    getD_mem _ j _ hj
  have hfst : ((sortBundle b).getD j (0, 0)).1 = t := by
    rw [← hjt]
    unfold bundleTypes
    rw [getD_map Prod.fst (sortBundle b) j (0, 0) 0 hj]
  have hmem' : (t, v) ∈ sortBundle b := (sortBundle_perm b).mem_iff.mpr hmem
  have hnd : ((sortBundle b).map Prod.fst).Nodup := by
    have : ((sortBundle b).map Prod.fst).Perm (b.map Prod.fst) :=
      (sortBundle_perm b).map Prod.fst
    exact this.nodup_iff.mpr hb
  exact List.inj_on_of_nodup_map hnd hp hmem' (by simpa using hfst)

theorem pushBundle_get (A : Archetype) (i : Nat) (b : List (Nat × Nat))
    (t v : Nat) (hb : BundleWF b) (hmem : (t, v) ∈ b)
    (hst : stypes A = bundleTypes b)
    (hlock : ∀ c ∈ A.components, c.data.length = A.entities.length) :
    (pushBundle A i b).get_component_mut t A.entities.length = .ok v := by
  have hsorted : (bundleTypes b).Pairwise (· < ·) := bundleTypes_sorted b hb
  have hnd : (bundleTypes b).Nodup := strict_sorted_nodup _ hsorted
  have hclen : A.components.length = (sortBundle b).length := by
    have h1 : (stypes A).length = A.components.length := by
      unfold stypes; simp
    have h2 : (bundleTypes b).length = (sortBundle b).length := by
      unfold bundleTypes; simp
    rw [hst] at h1
    omega
  -- the requested type sits at some index j of the sorted type list
  have htmem : t ∈ bundleTypes b := by
    have : t ∈ b.map Prod.fst := by
      exact List.mem_map_of_mem Prod.fst hmem
    exact (bundleTypes_perm b).mem_iff.mpr this
  obtain ⟨j, hjlen, hjt⟩ := List.getElem_of_mem htmem
  have hjlen' : j < (sortBundle b).length := by
    have : (bundleTypes b).length = (sortBundle b).length := by
      unfold bundleTypes; simp
    omega
  have hjt' : (bundleTypes b).getD j 0 = t := by
    rw [List.getD_eq_getElem?_getD, List.getElem?_eq_getElem hjlen, hjt]
    rfl
  -- the pushed archetype's columns and types
  have hplen : (pushBundle A i b).components.length = A.components.length := by
    unfold pushBundle
    rw [List.length_zipWith]
    omega
  have hpst : stypes (pushBundle A i b) = bundleTypes b := by
    rw [stypes_pushBundle A i b (by omega), hst]
  have hjcomp : j < (pushBundle A i b).components.length := by
    have : (bundleTypes b).length = (sortBundle b).length := by
      unfold bundleTypes; simp
    omega
  unfold Archetype.get_component_mut
  rw [findIdx?_unique (·.type_id) (pushBundle A i b).components t j
    (by
      have : (pushBundle A i b).components.map (·.type_id) =
          stypes (pushBundle A i b) := rfl
      rw [this, hpst]
      exact hnd)
    hjcomp
    (by
      have := getD_map (·.type_id) (pushBundle A i b).components j default 0
        hjcomp
      have h2 : (pushBundle A i b).components.map (·.type_id) =
          stypes (pushBundle A i b) := rfl
      rw [h2, hpst] at this
      rw [← this]
      exact hjt')]
  -- the column value at the new row
  have hcol : (pushBundle A i b).components.getD j default =
      ⟨(A.components.getD j default).type_id,
       (A.components.getD j default).data ++
         [((sortBundle b).getD j (0, 0)).2]⟩ := by
    unfold pushBundle
    exact getD_zipWith _ A.components (sortBundle b) j default (0, 0) default
      (by omega) hjlen'
  show Except.ok (((pushBundle A i b).components.getD j
      default).data.getD A.entities.length 0) = Except.ok v
  rw [hcol]
  have hdlen : (A.components.getD j default).data.length =
      A.entities.length :=
    hlock _ (getD_mem A.components j default (by omega))
  have hpair : (sortBundle b).getD j (0, 0) = (t, v) :=
    sortBundle_pair_at b hb j t v hjt' hjlen' hmem
  show Except.ok (((A.components.getD j default).data ++
      [((sortBundle b).getD j (0, 0)).2]).getD A.entities.length 0) =
    Except.ok v
  rw [← hdlen, getD_concat_self, hpair]

theorem spawn_archetypes (w : World) (b : List (Nat × Nat)) :
    (w.spawn b).2.archetypes =
      (spawn_in_world b (preSpawn w) (spawnIdx w)).2.archetypes := by
  rw [spawn_unfold]

theorem spawn_arch_target (w : World) (b : List (Nat × Nat))
    (hA : lockstep w) (hG : mapCoherent w) :
    ∃ A : Archetype,
      archOf (w.spawn b).2 (spawnTarget w b) = pushBundle A (spawnIdx w) b ∧
      stypes A = bundleTypes b ∧
      A.entities.length = (archOf w (spawnTarget w b)).entities.length ∧
      (∀ c ∈ A.components, c.data.length = A.entities.length) := by
  unfold archOf
  rw [spawn_archetypes]
  cases h : alookup w.bundle_id_to_archetype (bundleTypes b) with
  | some ai =>
    have hmem := alookup_mem _ _ _ h
    obtain ⟨hailt, hsty⟩ := hG _ hmem
    have htgt : spawnTarget w b = ai := by unfold spawnTarget; rw [h]
    rw [spawn_in_world_found b (preSpawn w) (spawnIdx w) ai
      (by rw [preSpawn_map]; exact h)]
    refine ⟨archOf w ai, ?_, hsty, ?_, ?_⟩
    · show ((preSpawn w).archetypes.set ai
          (pushBundle (archOf (preSpawn w) ai) (spawnIdx w) b)).getD
          (spawnTarget w b) default = _
      have hpre : archOf (preSpawn w) ai = archOf w ai := by
        unfold archOf; rw [preSpawn_archetypes]
      rw [htgt, preSpawn_archetypes, hpre,
        getD_set_self w.archetypes ai _ default hailt]
    · rw [htgt]
      rfl
    · intro c hc
      exact hA (archOf w ai) (getD_mem _ ai default hailt) c hc
  | none =>
    have htgt : spawnTarget w b = w.archetypes.length := by
      unfold spawnTarget; rw [h]
    rw [spawn_in_world_new b (preSpawn w) (spawnIdx w)
      (by rw [preSpawn_map]; exact h)]
    refine ⟨new_archetype b, ?_, stypes_new_archetype b, ?_, ?_⟩
    · show ((preSpawn w).archetypes ++
          [pushBundle (new_archetype b) (spawnIdx w) b]).getD
          (spawnTarget w b) default = _
      rw [htgt, preSpawn_archetypes, getD_concat_self]
    · rw [htgt]
      show (0 : Nat) = (w.archetypes.getD w.archetypes.length
        default).entities.length
      rw [getD_of_le_length _ _ _ (Nat.le_refl _)]
      rfl
    · intro c hc
      unfold new_archetype at hc
      simp only [List.mem_map] at hc
      obtain ⟨p, -, hp⟩ := hc
      rw [← hp]
      rfl

theorem get_component_unfold (w : World) (e : Entity) (t : Nat)
    (hidx : e.index < w.entities.length)
    (hgen : (slotOf w e.index).generation = e.generation) :
    w.get_component_mut e t =
      match (archOf w (locOf w e.index).archetype_index).get_component_mut t
          (locOf w e.index).index_in_archetype with
      | .ok v => .ok v w
      | .error er => .err er w := by
  unfold World.get_component_mut
  rw [if_pos hidx]
  unfold slotOf at hgen
  rw [if_pos hgen]
  rfl

/-- C3: immediately after `spawn(B)` with a duplicate-free bundle `B`, for
every `(T, v)` in `B` (in whatever declaration order), `get_component_mut`
on the returned handle succeeds and returns `v`. -/
theorem C3_spawn_then_get (w : World) (b : List (Nat × Nat)) (t v : Nat)
    (hI : WInv w) (hb : BundleWF b) (hmem : (t, v) ∈ b) :
    (w.spawn b).2.get_component_mut (w.spawn b).1 t = .ok v (w.spawn b).2 := by
  obtain ⟨hA, hB, hG, hH, hC, hD, hF, hE, hgb⟩ := hI
  rw [spawn_fst]
  have hidx : spawnIdx w < (w.spawn b).2.entities.length := by
    rw [spawn_entities_len]
    exact spawnIdx_lt w hD
  have hslot := spawn_slot_self w b hD
  have hgen : (slotOf (w.spawn b).2 ((⟨spawnIdx w, spawnGen w⟩ :
      Entity).index)).generation = spawnGen w := by
    rw [hslot]
  rw [get_component_unfold (w.spawn b).2 ⟨spawnIdx w, spawnGen w⟩ t hidx hgen]
  have hloc : locOf (w.spawn b).2 (spawnIdx w) =
      ⟨spawnTarget w b, (archOf w (spawnTarget w b)).entities.length⟩ := by
    unfold locOf
    rw [hslot]
  rw [show ((⟨spawnIdx w, spawnGen w⟩ : Entity).index) = spawnIdx w from rfl,
    hloc]
  obtain ⟨A, hAeq, hAst, hAlen, hAlock⟩ := spawn_arch_target w b hA hG
  show (match (archOf (w.spawn b).2 (spawnTarget w b)).get_component_mut t
      ((archOf w (spawnTarget w b)).entities.length) with
    | .ok v => OpResult.ok v (w.spawn b).2
    | .error er => OpResult.err er (w.spawn b).2) = _
  rw [hAeq, ← hAlen,
    pushBundle_get A (spawnIdx w) b t v hb hmem hAst hAlock]

theorem C3_spawn_then_get_witness :
    (WInv World.new ∧ BundleWF [(1, 7), (0, 9)] ∧
      ((0 : Nat), (9 : Nat)) ∈ [(1, 7), (0, 9)]) ∧
    (World.new.spawn [(1, 7), (0, 9)]).2.get_component_mut
      (World.new.spawn [(1, 7), (0, 9)]).1 0 =
      .ok 9 (World.new.spawn [(1, 7), (0, 9)]).2 :=
  ⟨⟨by decide, by decide, by decide⟩,
   C3_spawn_then_get World.new [(1, 7), (0, 9)] 0 9
     (by decide) (by decide) (by decide)⟩

/-! ### Lemmas for despawn (C5) -/

theorem findIdx?_map_typeid (cs : List ComponentStore)
    (g : List Nat → List Nat) (t : Nat) :
    (cs.map (fun c => (⟨c.type_id, g c.data⟩ : ComponentStore))).findIdx?
        (fun c => c.type_id = t) =
      cs.findIdx? (fun c => c.type_id = t) := by
  induction cs with
  | nil => rfl
  | cons c cs' ih =>
    rw [List.map_cons, List.findIdx?_cons, List.findIdx?_cons]
    by_cases hc : c.type_id = t
    · rw [if_pos (by simpa using hc), if_pos (by simpa using hc)]
    · rw [if_neg (by simpa using hc), if_neg (by simpa using hc),
        List.findIdx?_succ, List.findIdx?_succ, ih]

theorem despawn_unfold (w : World) (e : Entity)
    (hidx : e.index < w.entities.length)
    (hgen : (slotOf w e.index).generation = e.generation) :
    w.despawn e = .ok ()
      { archetypes := w.archetypes.set (locOf w e.index).archetype_index
          ⟨swapRemove (archAt w e.index).entities
              (locOf w e.index).index_in_archetype,
            (archAt w e.index).components.map fun c =>
              ⟨c.type_id, swapRemove c.data
                (locOf w e.index).index_in_archetype⟩⟩,
        bundle_id_to_archetype := w.bundle_id_to_archetype,
        entities :=
          (w.entities.set e.index
            ⟨((slotOf w e.index).generation + 1) % U64, locOf w e.index⟩).set
            ((archAt w e.index).entities.getLast?.getD 0)
            ⟨((w.entities.set e.index
                ⟨((slotOf w e.index).generation + 1) % U64,
                 locOf w e.index⟩).getD
                ((archAt w e.index).entities.getLast?.getD 0)
                default).generation,
             locOf w e.index⟩,
        free_entities := w.free_entities ++ [e.index] } := by
  unfold World.despawn
  rw [if_pos hidx]
  unfold slotOf at hgen
  rw [if_pos hgen]
  rfl

theorem findIdx?_lt_length {α : Type} (p : α → Bool) (l : List α) (j : Nat)
    (h : l.findIdx? p = some j) : j < l.length :=
  (List.findIdx?_eq_some_iff_findIdx_eq.mp h).1

theorem swapRemoved_arch_get (A : Archetype) (r : Nat)
    (hr : r + 1 < A.entities.length)
    (hlock : ∀ c ∈ A.components, c.data.length = A.entities.length)
    (t x : Nat) (h : A.get_component_mut t (A.entities.length - 1) = .ok x) :
    (⟨swapRemove A.entities r, A.components.map fun c =>
        ⟨c.type_id, swapRemove c.data r⟩⟩ :
      Archetype).get_component_mut t r = .ok x := by
  unfold Archetype.get_component_mut at h ⊢
  show (match (A.components.map fun (c : ComponentStore) =>
      (⟨c.type_id, swapRemove c.data r⟩ : ComponentStore)).findIdx?
        (fun (c : ComponentStore) => c.type_id = t) with
    | some i => Except.ok (((A.components.map fun (c : ComponentStore) =>
        (⟨c.type_id, swapRemove c.data r⟩ : ComponentStore)).getD i
          default).data.getD r 0)
    | none => Except.error
        (CompError.entityMissingComponent r (typeName t))) = _
  rw [findIdx?_map_typeid A.components (fun d => swapRemove d r) t]
  cases hf : A.components.findIdx? (fun c => c.type_id = t) with
  | none =>
    rw [hf] at h
    simp at h
  | some j =>
    rw [hf] at h
    have hj : j < A.components.length := findIdx?_lt_length _ _ _ hf
    have hx : (A.components.getD j default).data.getD
        (A.entities.length - 1) 0 = x := by
      simpa using h
    show Except.ok (((A.components.map fun (c : ComponentStore) =>
        (⟨c.type_id, swapRemove c.data r⟩ : ComponentStore)).getD j
          default).data.getD r 0) = _
    rw [getD_map (fun c => (⟨c.type_id, swapRemove c.data r⟩ :
      ComponentStore)) A.components j default default hj]
    have hdl : (A.components.getD j default).data.length =
        A.entities.length :=
      hlock _ (getD_mem A.components j default hj)
    show Except.ok ((swapRemove (A.components.getD j default).data r).getD
        r 0) = _
    rw [getD_swapRemove _ r r (by omega), if_pos rfl, hdl, hx]

/-- Projection form of `despawn_unfold`: the success case described one
field at a time. -/
theorem despawn_ok (w : World) (e : Entity)
    (hidx : e.index < w.entities.length)
    (hgen : (slotOf w e.index).generation = e.generation) :
    ∃ w', w.despawn e = .ok () w' ∧
      w'.archetypes = w.archetypes.set (locOf w e.index).archetype_index
        ⟨swapRemove (archAt w e.index).entities
            (locOf w e.index).index_in_archetype,
          (archAt w e.index).components.map fun c =>
            ⟨c.type_id, swapRemove c.data
              (locOf w e.index).index_in_archetype⟩⟩ ∧
      w'.bundle_id_to_archetype = w.bundle_id_to_archetype ∧
      w'.entities = (w.entities.set e.index
          ⟨((slotOf w e.index).generation + 1) % U64, locOf w e.index⟩).set
          ((archAt w e.index).entities.getLast?.getD 0)
          ⟨((w.entities.set e.index
              ⟨((slotOf w e.index).generation + 1) % U64,
               locOf w e.index⟩).getD
              ((archAt w e.index).entities.getLast?.getD 0)
              default).generation,
           locOf w e.index⟩ ∧
      w'.free_entities = w.free_entities ++ [e.index] :=
  ⟨_, despawn_unfold w e hidx hgen, rfl, rfl, rfl, rfl⟩

/-- C5: when `despawn(e)` removes an entity that is not in the last row of
its archetype, the entity `f` that occupied the last row is, in the
resulting world, still valid under its original handle, its registry
location is the row `e` vacated, and every component value reachable
through `f`'s handle before the despawn is reachable (and equal) after. -/
theorem C5_moved_entity_reachable (w : World) (e : Entity)
    (hI : WInv w) (hv : EntityValid w e)
    (hr : (locOf w e.index).index_in_archetype + 1 <
      (archAt w e.index).entities.length) :
    ∃ w', w.despawn e = .ok () w' ∧
      EntityValid w' ⟨lastRowEntity w e.index,
        (slotOf w (lastRowEntity w e.index)).generation⟩ ∧
      locOf w' (lastRowEntity w e.index) = locOf w e.index ∧
      (∀ t x,
        w.get_component_mut ⟨lastRowEntity w e.index,
          (slotOf w (lastRowEntity w e.index)).generation⟩ t = .ok x w →
        w'.get_component_mut ⟨lastRowEntity w e.index,
          (slotOf w (lastRowEntity w e.index)).generation⟩ t = .ok x w') := by
  obtain ⟨hA, hB, hG, hH, hC, hD, hF, hE, hgb⟩ := hI
  obtain ⟨hie, hge, hai, hrow, harr⟩ := hv
  have hlocf := hC (locOf w e.index).archetype_index hai
    ((archAt w e.index).entities.length - 1)
    (by
      show (archAt w e.index).entities.length - 1 <
        (archAt w e.index).entities.length
      omega)
  obtain ⟨hfI_lt, hfI_loc, -⟩ := hlocf
  have hfI_eq : (archOf w (locOf w e.index).archetype_index).entities.getD
      ((archAt w e.index).entities.length - 1) 0 =
      lastRowEntity w e.index := rfl
  rw [hfI_eq] at hfI_lt hfI_loc
  have hloc_e := hC (locOf w e.index).archetype_index hai
    (locOf w e.index).index_in_archetype hrow
  rw [show (archOf w (locOf w e.index).archetype_index).entities.getD
      (locOf w e.index).index_in_archetype 0 = e.index from harr] at hloc_e
  obtain ⟨-, hloc_e2, -⟩ := hloc_e
  have hne : e.index ≠ lastRowEntity w e.index := by
    intro heq
    rw [← heq] at hfI_loc
    rw [hloc_e2] at hfI_loc
    have := congrArg EntityLocation.index_in_archetype hfI_loc
    simp only [] at this
    omega
  have hlast : (archAt w e.index).entities.getLast?.getD 0 =
      lastRowEntity w e.index := by
    rw [getLast?_getD_eq_getD]
    rfl
  obtain ⟨w', hok, harchs, hmap, hents, hfree⟩ := despawn_ok w e hie hge
  have hents1_len : (w.entities.set e.index
      ⟨((slotOf w e.index).generation + 1) % U64,
       locOf w e.index⟩).length = w.entities.length := List.length_set _ _ _
  have hslot1 : (w.entities.set e.index
      ⟨((slotOf w e.index).generation + 1) % U64,
       locOf w e.index⟩).getD (lastRowEntity w e.index) default =
      slotOf w (lastRowEntity w e.index) :=
    getD_set_ne _ _ _ _ _ hne
  have hlen2 : w'.entities.length = w.entities.length := by
    rw [hents, List.length_set, hents1_len]
  have hs2 : slotOf w' (lastRowEntity w e.index) =
      ⟨(slotOf w (lastRowEntity w e.index)).generation, locOf w e.index⟩ := by
    unfold slotOf
    rw [hents, hlast,
      getD_set_self _ _ _ _ (by rw [hents1_len]; exact hfI_lt), hslot1]
    rfl
  have hl2 : locOf w' (lastRowEntity w e.index) = locOf w e.index := by
    unfold locOf
    rw [hs2]
    rfl
  have harch' : archOf w' (locOf w e.index).archetype_index =
      ⟨swapRemove (archAt w e.index).entities
          (locOf w e.index).index_in_archetype,
        (archAt w e.index).components.map fun c =>
          ⟨c.type_id, swapRemove c.data
            (locOf w e.index).index_in_archetype⟩⟩ := by
    unfold archOf
    rw [harchs, getD_set_self _ _ _ _ hai]
  refine ⟨w', hok, ⟨?_, ?_, ?_, ?_, ?_⟩, hl2, ?_⟩
  · rw [hlen2]
    exact hfI_lt
  · rw [hs2]
  · show (locOf w' (lastRowEntity w e.index)).archetype_index <
      w'.archetypes.length
    rw [hl2, harchs, List.length_set]
    exact hai
  · show (locOf w' (lastRowEntity w e.index)).index_in_archetype <
      (archOf w' (locOf w' (lastRowEntity w e.index)).archetype_index).entities.length
    rw [hl2, harch']
    show (locOf w e.index).index_in_archetype <
      (swapRemove (archAt w e.index).entities
        (locOf w e.index).index_in_archetype).length
    rw [length_swapRemove]
    omega
  · show (archOf w' (locOf w' (lastRowEntity w e.index)).archetype_index).entities.getD
      (locOf w' (lastRowEntity w e.index)).index_in_archetype 0 = _
    rw [hl2, harch']
    show (swapRemove (archAt w e.index).entities
        (locOf w e.index).index_in_archetype).getD
        (locOf w e.index).index_in_archetype 0 = _
    rw [getD_swapRemove _ _ _ (by omega), if_pos rfl]
    rfl
  · intro t x hw
    rw [get_component_unfold w _ t hfI_lt rfl] at hw
    rw [show locOf w (lastRowEntity w e.index) =
        ⟨(locOf w e.index).archetype_index,
         (archAt w e.index).entities.length - 1⟩ from hfI_loc] at hw
    have hokA : (archAt w e.index).get_component_mut t
        ((archAt w e.index).entities.length - 1) = .ok x := by
      cases hres : (archOf w
          (locOf w e.index).archetype_index).get_component_mut t
          ((archAt w e.index).entities.length - 1) with
      | ok y =>
        rw [hres] at hw
        simp only [] at hw
        cases hw
        exact hres
      | error er =>
        rw [hres] at hw
        simp at hw
    rw [get_component_unfold w' _ t (by rw [hlen2]; exact hfI_lt)
      (by rw [hs2])]
    rw [hl2, harch']
    rw [swapRemoved_arch_get (archAt w e.index)
      (locOf w e.index).index_in_archetype hr
      (hA (archAt w e.index) (getD_mem _ _ default hai)) t x hokA]

theorem C5_moved_entity_reachable_witness :
    (WInv exW4 ∧ EntityValid exW4 ⟨0, 0⟩ ∧
      (locOf exW4 (⟨0, 0⟩ : Entity).index).index_in_archetype + 1 <
        (archAt exW4 (⟨0, 0⟩ : Entity).index).entities.length) ∧
    (∃ w', exW4.despawn ⟨0, 0⟩ = .ok () w' ∧
      EntityValid w' ⟨lastRowEntity exW4 (⟨0, 0⟩ : Entity).index,
        (slotOf exW4 (lastRowEntity exW4 (⟨0, 0⟩ : Entity).index)).generation⟩ ∧
      locOf w' (lastRowEntity exW4 (⟨0, 0⟩ : Entity).index) =
        locOf exW4 (⟨0, 0⟩ : Entity).index ∧
      (∀ t x,
        exW4.get_component_mut ⟨lastRowEntity exW4 (⟨0, 0⟩ : Entity).index,
          (slotOf exW4 (lastRowEntity exW4
            (⟨0, 0⟩ : Entity).index)).generation⟩ t = .ok x exW4 →
        w'.get_component_mut ⟨lastRowEntity exW4 (⟨0, 0⟩ : Entity).index,
          (slotOf exW4 (lastRowEntity exW4
            (⟨0, 0⟩ : Entity).index)).generation⟩ t = .ok x w')) :=
  ⟨⟨by decide, by decide, by decide⟩,
   C5_moved_entity_reachable exW4 ⟨0, 0⟩ (by decide) (by decide) (by decide)⟩

/-! ### Folding lemmas (normal forms for rewriting inside unfolded ops) -/

theorem fold_slotOf (w : World) (i : Nat) :
    w.entities.getD i default = slotOf w i := rfl

theorem fold_locOf (w : World) (i : Nat) :
    (slotOf w i).location = locOf w i := rfl

theorem fold_archOf (w : World) (ai : Nat) :
    w.archetypes.getD ai default = archOf w ai := rfl

theorem fold_archAt (w : World) (i : Nat) :
    archOf w (locOf w i).archetype_index = archAt w i := rfl

/-! ### Unfold lemmas for add_component and remove_component -/

theorem add_unfold_found (w : World) (e : Entity) (t v : Nat) (ii bj : Nat)
    (hidx : e.index < w.entities.length)
    (hgen : (slotOf w e.index).generation = e.generation)
    (hsearch : searchSorted (stypes (archAt w e.index)) t = .notFound ii)
    (hlk : alookup w.bundle_id_to_archetype
      (insertAt ii t (stypes (archAt w e.index))) = some bj) :
    w.add_component e t v = .ok ()
      { archetypes := (w.archetypes.set (locOf w e.index).archetype_index
            (addMigrate (archAt w e.index) (archOf w bj)
              (locOf w e.index).index_in_archetype ii e.index v).1).set bj
            (addMigrate (archAt w e.index) (archOf w bj)
              (locOf w e.index).index_in_archetype ii e.index v).2,
        bundle_id_to_archetype := w.bundle_id_to_archetype,
        entities := migrateEnts w e bj (archOf w bj).entities.length,
        free_entities := w.free_entities } := by
  unfold World.add_component
  rw [if_pos hidx]
  simp only [fold_slotOf, fold_locOf, fold_archOf, fold_archAt]
  rw [if_pos hgen]
  simp only [hsearch, hlk]
  simp only [fold_archOf, fold_archAt, migrateEnts]

theorem add_unfold_new (w : World) (e : Entity) (t v : Nat) (ii : Nat)
    (hidx : e.index < w.entities.length)
    (hgen : (slotOf w e.index).generation = e.generation)
    (hsearch : searchSorted (stypes (archAt w e.index)) t = .notFound ii)
    (hlk : alookup w.bundle_id_to_archetype
      (insertAt ii t (stypes (archAt w e.index))) = none)
    (hai : (locOf w e.index).archetype_index < w.archetypes.length) :
    w.add_component e t v = .ok ()
      { archetypes := ((w.archetypes ++ [newArchAdd w e t ii]).set
            (locOf w e.index).archetype_index
            (addMigrate (archAt w e.index) (newArchAdd w e t ii)
              (locOf w e.index).index_in_archetype ii e.index v).1).set
            w.archetypes.length
            (addMigrate (archAt w e.index) (newArchAdd w e t ii)
              (locOf w e.index).index_in_archetype ii e.index v).2,
        bundle_id_to_archetype :=
          (insertAt ii t (stypes (archAt w e.index)), w.archetypes.length) ::
            w.bundle_id_to_archetype,
        entities := migrateEnts w e w.archetypes.length
          (newArchAdd w e t ii).entities.length,
        free_entities := w.free_entities } := by
  unfold World.add_component
  rw [if_pos hidx]
  simp only [fold_slotOf, fold_locOf, fold_archOf, fold_archAt]
  rw [if_pos hgen]
  simp only [hsearch, hlk]
  rw [getD_append_left _ _ _ _ hai, getD_concat_self]
  simp only [fold_archOf, fold_archAt, migrateEnts, newArchAdd]

theorem add_unfold_replace (w : World) (e : Entity) (t v : Nat) (ci : Nat)
    (hidx : e.index < w.entities.length)
    (hgen : (slotOf w e.index).generation = e.generation)
    (hsearch : searchSorted (stypes (archAt w e.index)) t = .found ci) :
    w.add_component e t v = .ok ()
      { archetypes := w.archetypes.set (locOf w e.index).archetype_index
          ⟨(archAt w e.index).entities,
            mapIdx (fun j (c : ComponentStore) =>
              if j = ci then
                ⟨c.type_id, c.data.set (locOf w e.index).index_in_archetype v⟩
              else c) (archAt w e.index).components⟩,
        bundle_id_to_archetype := w.bundle_id_to_archetype,
        entities := w.entities,
        free_entities := w.free_entities } := by
  unfold World.add_component
  rw [if_pos hidx]
  simp only [fold_slotOf, fold_locOf, fold_archOf, fold_archAt]
  rw [if_pos hgen]
  simp only [hsearch]

theorem remove_unfold_found (w : World) (e : Entity) (t : Nat) (ri aj : Nat)
    (hidx : e.index < w.entities.length)
    (hgen : (slotOf w e.index).generation = e.generation)
    (hsearch : searchSorted (stypes (archAt w e.index)) t = .found ri)
    (hlk : alookup w.bundle_id_to_archetype
      (eraseAt ri (stypes (archAt w e.index))) = some aj) :
    w.remove_component e t = .ok
      (colVal (archAt w e.index) ri (locOf w e.index).index_in_archetype)
      { archetypes := (w.archetypes.set (locOf w e.index).archetype_index
            (removeMigrate (archAt w e.index) (archOf w aj)
              (locOf w e.index).index_in_archetype ri e.index).1).set aj
            (removeMigrate (archAt w e.index) (archOf w aj)
              (locOf w e.index).index_in_archetype ri e.index).2,
        bundle_id_to_archetype := w.bundle_id_to_archetype,
        entities := migrateEnts w e aj (archOf w aj).entities.length,
        free_entities := w.free_entities } := by
  unfold World.remove_component
  rw [if_pos hidx]
  simp only [fold_slotOf, fold_locOf, fold_archOf, fold_archAt]
  rw [if_pos hgen]
  simp only [hsearch, hlk]
  simp only [fold_archOf, fold_archAt, migrateEnts, colVal]

theorem remove_unfold_new (w : World) (e : Entity) (t : Nat) (ri : Nat)
    (hidx : e.index < w.entities.length)
    (hgen : (slotOf w e.index).generation = e.generation)
    (hsearch : searchSorted (stypes (archAt w e.index)) t = .found ri)
    (hlk : alookup w.bundle_id_to_archetype
      (eraseAt ri (stypes (archAt w e.index))) = none)
    (hai : (locOf w e.index).archetype_index < w.archetypes.length) :
    w.remove_component e t = .ok
      (colVal (archAt w e.index) ri (locOf w e.index).index_in_archetype)
      { archetypes := ((w.archetypes ++ [newArchRemove w e t]).set
            (locOf w e.index).archetype_index
            (removeMigrate (archAt w e.index) (newArchRemove w e t)
              (locOf w e.index).index_in_archetype ri e.index).1).set
            w.archetypes.length
            (removeMigrate (archAt w e.index) (newArchRemove w e t)
              (locOf w e.index).index_in_archetype ri e.index).2,
        bundle_id_to_archetype :=
          (eraseAt ri (stypes (archAt w e.index)), w.archetypes.length) ::
            w.bundle_id_to_archetype,
        entities := migrateEnts w e w.archetypes.length
          (newArchRemove w e t).entities.length,
        free_entities := w.free_entities } := by
  unfold World.remove_component
  rw [if_pos hidx]
  simp only [fold_slotOf, fold_locOf, fold_archOf, fold_archAt]
  rw [if_pos hgen]
  simp only [hsearch, hlk]
  rw [getD_append_left _ _ _ _ hai, getD_concat_self]
  simp only [fold_archOf, fold_archAt, migrateEnts, newArchRemove, colVal]

theorem remove_unfold_missing (w : World) (e : Entity) (t : Nat) (ri : Nat)
    (hidx : e.index < w.entities.length)
    (hgen : (slotOf w e.index).generation = e.generation)
    (hsearch : searchSorted (stypes (archAt w e.index)) t = .notFound ri) :
    w.remove_component e t =
      .err (.entityMissingComponent e.index (typeName t)) w := by
  unfold World.remove_component
  rw [if_pos hidx]
  simp only [fold_slotOf, fold_locOf, fold_archOf, fold_archAt]
  rw [if_pos hgen]
  simp only [hsearch]

/-! ### Helper lemmas for the add/remove round trip (C2) -/

theorem getElem_eq_getD (l : List Nat) (a : Nat) (h : a < l.length) :
    l[a] = l.getD a 0 := by
  rw [List.getD_eq_getElem?_getD, List.getElem?_eq_getElem h]
  rfl

theorem searchSorted_found_of (l : List Nat) (x i : Nat)
    (hs : l.Pairwise (· < ·)) (hi : i < l.length) (hx : l.getD i 0 = x) :
    searchSorted l x = .found i := by
  induction l generalizing i with
  | nil => simp at hi
  | cons a as ih =>
    have hall : ∀ y ∈ as, a < y := (List.pairwise_cons.mp hs).1
    have hs' : as.Pairwise (· < ·) := (List.pairwise_cons.mp hs).2
    cases i with
    | zero =>
      have hxa : x = a := by simpa [List.getD] using hx.symm
      simp only [searchSorted]
      rw [if_neg (by omega), if_pos hxa]
    | succ j =>
      have hj : j < as.length := by simpa using hi
      have hxj : as.getD j 0 = x := by simpa [List.getD_cons_succ] using hx
      have hax : a < x := by
        have := hall (as.getD j 0) (getD_mem as j 0 hj)
        omega
      simp only [searchSorted]
      rw [if_neg (by omega), if_neg (by omega), ih j hs' hj hxj]

theorem insertAt_sorted (ts : List Nat) (t ii : Nat) (hii : ii ≤ ts.length)
    (hlow : ∀ j, j < ii → ts.getD j 0 < t)
    (hhigh : ∀ j, ii ≤ j → j < ts.length → t < ts.getD j 0)
    (hs : ts.Pairwise (· < ·)) :
    (insertAt ii t ts).Pairwise (· < ·) := by
  have hs' : ∀ i j, i < j → j < ts.length → ts.getD i 0 < ts.getD j 0 := by
    intro i j hij hj
    have := List.pairwise_iff_getElem.mp hs i j (by omega) hj hij
    rwa [getElem_eq_getD _ _ (by omega), getElem_eq_getD _ _ hj] at this
  have hlen : (insertAt ii t ts).length = ts.length + 1 :=
    length_insertAt ii t ts hii
  rw [List.pairwise_iff_getElem]
  intro a b ha hb hab
  rw [getElem_eq_getD _ _ ha, getElem_eq_getD _ _ hb]
  rw [hlen] at ha hb
  by_cases hbi : b < ii
  · rw [getD_insertAt_lt _ _ _ _ _ (by omega) hii,
      getD_insertAt_lt _ _ _ _ _ hbi hii]
    exact hs' a b hab (by omega)
  · by_cases hbe : b = ii
    · subst hbe
      rw [getD_insertAt_lt _ _ _ _ _ hab hii, getD_insertAt_self _ _ _ _ hii]
      exact hlow a hab
    · have hbg : ii < b := by omega
      rw [getD_insertAt_gt _ _ _ _ _ hbg]
      by_cases hal : a < ii
      · rw [getD_insertAt_lt _ _ _ _ _ hal hii]
        exact hs' a (b - 1) (by omega) (by omega)
      · by_cases hae : a = ii
        · subst hae
          rw [getD_insertAt_self _ _ _ _ hii]
          exact hhigh (b - 1) (by omega) (by omega)
        · have hag : ii < a := by omega
          rw [getD_insertAt_gt _ _ _ _ _ hag]
          exact hs' (a - 1) (b - 1) (by omega) (by omega)

theorem mapIdxFrom_typeid (f : Nat → ComponentStore → ComponentStore)
    (k : Nat) (cs : List ComponentStore)
    (hf : ∀ j c, (f j c).type_id = c.type_id) :
    (mapIdxFrom f k cs).map (·.type_id) = cs.map (·.type_id) := by
  induction cs generalizing k with
  | nil => rfl
  | cons c cs' ih => simp [mapIdxFrom, hf, ih]

theorem stypes_mapIdx (f : Nat → ComponentStore → ComponentStore)
    (cs : List ComponentStore)
    (hf : ∀ j c, (f j c).type_id = c.type_id) :
    (mapIdx f cs).map (·.type_id) = cs.map (·.type_id) :=
  mapIdxFrom_typeid f 0 cs hf

theorem stypes_addMigrate_nw (A nwA : Archetype) (r ii ei v : Nat) :
    stypes (addMigrate A nwA r ii ei v).2 = stypes nwA := by
  unfold addMigrate stypes
  apply stypes_mapIdx
  intro j c
  by_cases h1 : j < ii
  · simp [h1]
  · by_cases h2 : j = ii
    · simp [h1, h2]
    · by_cases h3 : j ≤ A.components.length
      · simp [h1, h2, h3]
      · simp [h1, h2, h3]

theorem stypes_addMigrate_old (A nwA : Archetype) (r ii ei v : Nat) :
    stypes (addMigrate A nwA r ii ei v).1 = stypes A := by
  unfold addMigrate stypes
  simp [List.map_map]

theorem stypes_removeMigrate_nw (A nwA : Archetype) (r ri ei : Nat) :
    stypes (removeMigrate A nwA r ri ei).2 = stypes nwA := by
  unfold removeMigrate stypes
  apply stypes_mapIdx
  intro j c
  by_cases h1 : j + 1 < A.components.length
  · by_cases h2 : j < ri
    · simp [h1, h2]
    · simp [h1, h2]
  · simp [h1]

theorem stypes_removeMigrate_old (A nwA : Archetype) (r ri ei : Nat) :
    stypes (removeMigrate A nwA r ri ei).1 = stypes A := by
  unfold removeMigrate stypes
  simp [List.map_map]

theorem stypes_newArchAdd (w : World) (e : Entity) (t ii : Nat) :
    stypes (newArchAdd w e t ii) =
      insertAt ii t (stypes (archAt w e.index)) := by
  unfold newArchAdd stypes
  rw [map_insertAt]
  simp [List.map_map]
  rfl

theorem mem_insertAt {α : Type} (x y : α) (n : Nat) (l : List α)
    (h : y ∈ insertAt n x l) : y = x ∨ y ∈ l := by
  induction l generalizing n with
  | nil => exact Or.inl (by simpa [insertAt] using h)
  | cons a as ih =>
    cases n with
    | zero =>
      rcases (by simpa [insertAt] using h : y = x ∨ y = a ∨ y ∈ as) with
        h1 | h1 | h1
      · exact Or.inl h1
      · exact Or.inr (by simp [h1])
      · exact Or.inr (List.mem_cons_of_mem a h1)
    | succ m =>
      rcases (by simpa [insertAt] using h : y = a ∨ y ∈ insertAt m x as) with
        h1 | h1
      · exact Or.inr (by simp [h1])
      · rcases ih m h1 with h2 | h2
        · exact Or.inl h2
        · exact Or.inr (List.mem_cons_of_mem a h2)

theorem findIdx?_typeid_congr (cs1 cs2 : List ComponentStore) (t : Nat)
    (h : cs1.map (·.type_id) = cs2.map (·.type_id)) :
    cs1.findIdx? (fun c => c.type_id = t) =
      cs2.findIdx? (fun c => c.type_id = t) := by
  induction cs1 generalizing cs2 with
  | nil =>
    cases cs2 with
    | nil => rfl
    | cons c cs' => simp at h
  | cons c cs' ih =>
    cases cs2 with
    | nil => simp at h
    | cons d ds =>
      rw [List.map_cons, List.map_cons] at h
      injection h with h1 h2
      rw [List.findIdx?_cons, List.findIdx?_cons, h1, List.findIdx?_succ,
        List.findIdx?_succ, ih ds h2]

theorem migrateEnts_len (w : World) (e : Entity) (bj m : Nat) :
    (migrateEnts w e bj m).length = w.entities.length := by
  unfold migrateEnts
  cases (archAt w e.index).entities.getLast? <;>
    simp [List.length_set]

theorem migrateEnts_slot_self (w : World) (e : Entity) (bj m : Nat)
    (hidx : e.index < w.entities.length) :
    (migrateEnts w e bj m).getD e.index default =
      ⟨(slotOf w e.index).generation, ⟨bj, m⟩⟩ := by
  unfold migrateEnts
  cases hl : (archAt w e.index).entities.getLast? with
  | none =>
    rw [getD_set_self _ _ _ _ hidx]
    rfl
  | some last =>
    rw [getD_set_self _ _ _ _ (by rw [List.length_set]; exact hidx)]
    by_cases he : last = e.index
    · subst he
      rw [getD_set_self _ _ _ _ hidx]
    · rw [getD_set_ne _ _ _ _ _ he]
      rfl

/-- Specification of the `add_component` migration path (`t` not present in
the entity's archetype): the result state described through the facts the
round-trip proof needs. -/
theorem add_notFound_spec (w : World) (e : Entity) (t v ii : Nat)
    (hA : lockstep w) (hG : mapCoherent w) (hH : mapComplete w)
    (hidx : e.index < w.entities.length)
    (hgen : (slotOf w e.index).generation = e.generation)
    (hai : (locOf w e.index).archetype_index < w.archetypes.length)
    (hsearch : searchSorted (stypes (archAt w e.index)) t = .notFound ii)
    (hii : ii ≤ (stypes (archAt w e.index)).length) :
    ∃ w1 bj nwA,
      w.add_component e t v = .ok () w1 ∧
      w1.entities.length = w.entities.length ∧
      slotOf w1 e.index =
        ⟨e.generation, ⟨bj, nwA.entities.length⟩⟩ ∧
      bj ≠ (locOf w e.index).archetype_index ∧
      bj < w1.archetypes.length ∧
      (locOf w e.index).archetype_index < w1.archetypes.length ∧
      archOf w1 bj = (addMigrate (archAt w e.index) nwA
        (locOf w e.index).index_in_archetype ii e.index v).2 ∧
      archOf w1 (locOf w e.index).archetype_index =
        (addMigrate (archAt w e.index) nwA
          (locOf w e.index).index_in_archetype ii e.index v).1 ∧
      stypes nwA = insertAt ii t (stypes (archAt w e.index)) ∧
      alookup w1.bundle_id_to_archetype (stypes (archAt w e.index)) =
        some (locOf w e.index).archetype_index ∧
      (∀ c ∈ nwA.components, c.data.length = nwA.entities.length) := by
  have hts_len : (insertAt ii t (stypes (archAt w e.index))).length =
      (stypes (archAt w e.index)).length + 1 :=
    length_insertAt ii t _ hii
  have hself : stypes (archOf w (locOf w e.index).archetype_index) =
      stypes (archAt w e.index) := rfl
  cases hlk : alookup w.bundle_id_to_archetype
      (insertAt ii t (stypes (archAt w e.index))) with
  | some bj =>
    obtain ⟨hbj_lt0, hbj_st0⟩ := hG _ (alookup_mem _ _ _ hlk)
    have hbj_lt : bj < w.archetypes.length := hbj_lt0
    have hbj_st : stypes (archOf w bj) =
        insertAt ii t (stypes (archAt w e.index)) := hbj_st0
    have hbj_ne : bj ≠ (locOf w e.index).archetype_index := by
      intro heq
      rw [heq, hself] at hbj_st
      have := congrArg List.length hbj_st
      omega
    refine ⟨_, bj, archOf w bj,
      add_unfold_found w e t v ii bj hidx hgen hsearch hlk,
      migrateEnts_len w e bj _, ?_, hbj_ne, ?_, ?_, ?_, ?_, hbj_st, ?_, ?_⟩
    · show (migrateEnts w e bj (archOf w bj).entities.length).getD e.index
        default = _
      rw [migrateEnts_slot_self w e bj _ hidx, hgen]
    · show bj < (List.set _ _ _).length
      rw [List.length_set, List.length_set]
      exact hbj_lt
    · show (locOf w e.index).archetype_index < (List.set _ _ _).length
      rw [List.length_set, List.length_set]
      exact hai
    · show (List.set _ _ _).getD bj default = _
      rw [getD_set_self _ _ _ _ (by rw [List.length_set]; exact hbj_lt)]
    · show (List.set _ _ _).getD (locOf w e.index).archetype_index default = _
      rw [getD_set_ne _ _ _ _ _ hbj_ne,
        getD_set_self _ _ _ _ hai]
    · show alookup w.bundle_id_to_archetype _ = _
      have := hH (locOf w e.index).archetype_index hai
      rw [hself] at this
      exact this
    · intro c hc
      exact hA (archOf w bj) (getD_mem _ _ default hbj_lt) c hc
  | none =>
    have hne_key : insertAt ii t (stypes (archAt w e.index)) ≠
        stypes (archAt w e.index) := by
      intro heq
      have := congrArg List.length heq
      omega
    refine ⟨_, w.archetypes.length, newArchAdd w e t ii,
      add_unfold_new w e t v ii hidx hgen hsearch hlk hai,
      migrateEnts_len w e _ _, ?_, by omega, ?_, ?_, ?_, ?_,
      stypes_newArchAdd w e t ii, ?_, ?_⟩
    · show (migrateEnts w e w.archetypes.length
        (newArchAdd w e t ii).entities.length).getD e.index default = _
      rw [migrateEnts_slot_self w e _ _ hidx, hgen]
    · show w.archetypes.length < (List.set _ _ _).length
      rw [List.length_set, List.length_set, List.length_append]
      simp
    · show (locOf w e.index).archetype_index < (List.set _ _ _).length
      rw [List.length_set, List.length_set, List.length_append]
      simp
      omega
    · show (List.set _ _ _).getD w.archetypes.length default = _
      rw [getD_set_self _ _ _ _ (by
        rw [List.length_set, List.length_append]
        simp)]
    · show (List.set _ _ _).getD (locOf w e.index).archetype_index default = _
      rw [getD_set_ne _ _ _ _ _ (by omega),
        getD_set_self _ _ _ _ (by rw [List.length_append]; simp; omega)]
    · show alookup ((insertAt ii t (stypes (archAt w e.index)),
        w.archetypes.length) :: w.bundle_id_to_archetype) _ = _
      rw [alookup_cons_ne _ _ _ _ hne_key]
      have := hH (locOf w e.index).archetype_index hai
      rw [hself] at this
      exact this
    · intro c hc
      unfold newArchAdd at hc
      simp only [] at hc
      rcases mem_insertAt _ _ _ _ hc with h1 | h1
      · rw [h1]
        rfl
      · simp only [List.mem_map] at h1
        obtain ⟨d, -, hd⟩ := h1
        rw [← hd]
        rfl

/-- Specification of the successful `remove_component` migration path. -/
theorem remove_found_spec (w1 : World) (e : Entity) (t ri aj : Nat)
    (hidx : e.index < w1.entities.length)
    (hgen : (slotOf w1 e.index).generation = e.generation)
    (hsearch : searchSorted (stypes (archAt w1 e.index)) t = .found ri)
    (hlk : alookup w1.bundle_id_to_archetype
      (eraseAt ri (stypes (archAt w1 e.index))) = some aj)
    (haj_lt : aj < w1.archetypes.length) :
    ∃ w2,
      w1.remove_component e t = .ok
        (colVal (archAt w1 e.index) ri
          (locOf w1 e.index).index_in_archetype) w2 ∧
      w2.entities.length = w1.entities.length ∧
      slotOf w2 e.index =
        ⟨e.generation, ⟨aj, (archOf w1 aj).entities.length⟩⟩ ∧
      archOf w2 aj = (removeMigrate (archAt w1 e.index) (archOf w1 aj)
        (locOf w1 e.index).index_in_archetype ri e.index).2 := by
  refine ⟨_, remove_unfold_found w1 e t ri aj hidx hgen hsearch hlk,
    migrateEnts_len w1 e aj _, ?_, ?_⟩
  · show (migrateEnts w1 e aj _).getD e.index default = _
    rw [migrateEnts_slot_self w1 e aj _ hidx, hgen]
  · show (List.set _ _ _).getD aj default = _
    rw [getD_set_self _ _ _ _ (by rw [List.length_set]; exact haj_lt)]

theorem addMigrate_nw_col (A nwA : Archetype) (r ii ei v j : Nat)
    (hj : j < nwA.components.length) :
    (addMigrate A nwA r ii ei v).2.components.getD j default =
      (if j < ii then
        ⟨(nwA.components.getD j default).type_id,
         (nwA.components.getD j default).data ++ [colVal A j r]⟩
      else if j = ii then
        ⟨(nwA.components.getD j default).type_id,
         (nwA.components.getD j default).data ++ [v]⟩
      else if j ≤ A.components.length then
        ⟨(nwA.components.getD j default).type_id,
         (nwA.components.getD j default).data ++ [colVal A (j - 1) r]⟩
      else nwA.components.getD j default) := by
  unfold addMigrate
  simp only []
  rw [getD_mapIdx _ _ j default hj]

theorem removeMigrate_nw_col (src dst : Archetype) (r ri ei j : Nat)
    (hj : j < dst.components.length) :
    (removeMigrate src dst r ri ei).2.components.getD j default =
      (if j + 1 < src.components.length then
        if j < ri then
          ⟨(dst.components.getD j default).type_id,
           (dst.components.getD j default).data ++ [colVal src j r]⟩
        else
          ⟨(dst.components.getD j default).type_id,
           (dst.components.getD j default).data ++ [colVal src (j + 1) r]⟩
      else dst.components.getD j default) := by
  unfold removeMigrate
  simp only []
  rw [getD_mapIdx _ _ j default hj]

theorem addMigrate_old_col (A nwA : Archetype) (r ii ei v j : Nat)
    (hj : j < A.components.length) :
    (addMigrate A nwA r ii ei v).1.components.getD j default =
      ⟨(A.components.getD j default).type_id,
       swapRemove (A.components.getD j default).data r⟩ := by
  unfold addMigrate
  simp only []
  rw [getD_map (fun c => (⟨c.type_id, swapRemove c.data r⟩ :
    ComponentStore)) A.components j default default hj]

/-- C2: for a valid entity whose archetype lacks component type `t`,
`add_component(e, t, v)` followed by `remove_component(e, t)` succeeds,
returns `v`, and every component value `e` held before the add is
unchanged (each `get_component_mut` that succeeded before the round trip
succeeds afterwards with an equal value). -/
theorem C2_add_remove_round_trip (w : World) (e : Entity) (t v : Nat)
    (hI : WInv w) (hv : EntityValid w e)
    (hlack : t ∉ stypes (archAt w e.index)) :
    ∃ w1 w2, w.add_component e t v = .ok () w1 ∧
      w1.remove_component e t = .ok v w2 ∧
      (∀ t' x, w.get_component_mut e t' = .ok x w →
        w2.get_component_mut e t' = .ok x w2) := by
  obtain ⟨hA, hB, hG, hH, hC, hD, hF, hE, hgb⟩ := hI
  obtain ⟨hie, hge, hai, hrow, harr⟩ := hv
  have hAmem : archAt w e.index ∈ w.archetypes := getD_mem _ _ default hai
  have hsorted : (stypes (archAt w e.index)).Pairwise (· < ·) := hB _ hAmem
  have hlockA : ∀ c ∈ (archAt w e.index).components,
      c.data.length = (archAt w e.index).entities.length := hA _ hAmem
  have htsN : (stypes (archAt w e.index)).length =
      (archAt w e.index).components.length := by
    unfold stypes; simp
  obtain ⟨ii, hsearch⟩ := searchSorted_of_not_mem _ t hlack
  obtain ⟨hii, -, hlow, hhigh⟩ :=
    searchSorted_notFound_spec _ t ii hsorted hsearch
  have hlow' : ∀ j, j < ii → (stypes (archAt w e.index)).getD j 0 < t := by
    intro j hj
    exact (hlow j hj)
  obtain ⟨w1, bj, nwA, hadd, hw1len, hw1slot, hbj_ne, hbj_lt, hai_lt1,
    hw1bj, hw1ai, hnwAst, hw1lk, hnwAlock⟩ :=
    add_notFound_spec w e t v ii hA hG hH hie hge hai hsearch hii
  have hnwA_len : nwA.components.length =
      (stypes (archAt w e.index)).length + 1 := by
    have h1 : (stypes nwA).length = nwA.components.length := by
      unfold stypes; simp
    rw [hnwAst, length_insertAt _ _ _ hii] at h1
    omega
  have hloc1 : locOf w1 e.index = ⟨bj, nwA.entities.length⟩ := by
    unfold locOf; rw [hw1slot]
  have hgen1 : (slotOf w1 e.index).generation = e.generation := by
    rw [hw1slot]
  have hidx1 : e.index < w1.entities.length := by omega
  have harchAt1 : archAt w1 e.index = (addMigrate (archAt w e.index) nwA
      (locOf w e.index).index_in_archetype ii e.index v).2 := by
    unfold archAt
    rw [hloc1]
    exact hw1bj
  have hsty1 : stypes (archAt w1 e.index) =
      insertAt ii t (stypes (archAt w e.index)) := by
    rw [harchAt1, stypes_addMigrate_nw, hnwAst]
  have hsearch2 : searchSorted (stypes (archAt w1 e.index)) t =
      .found ii := by
    rw [hsty1]
    exact searchSorted_found_of _ t ii
      (insertAt_sorted _ t ii hii hlow'
        (fun j h1 h2 => hhigh j h1 h2) hsorted)
      (by rw [length_insertAt _ _ _ hii]; omega)
      (getD_insertAt_self _ _ _ _ hii)
  have herase : eraseAt ii (stypes (archAt w1 e.index)) =
      stypes (archAt w e.index) := by
    rw [hsty1, eraseAt_insertAt _ _ _ hii]
  have hlk2 : alookup w1.bundle_id_to_archetype
      (eraseAt ii (stypes (archAt w1 e.index))) =
      some (locOf w e.index).archetype_index := by
    rw [herase]; exact hw1lk
  obtain ⟨w2, hrem, hw2len, hw2slot, hw2ai⟩ :=
    remove_found_spec w1 e t ii (locOf w e.index).archetype_index
      hidx1 hgen1 hsearch2 hlk2 hai_lt1
  -- the value handed back by remove_component is v
  have hval : colVal (archAt w1 e.index) ii
      (locOf w1 e.index).index_in_archetype = v := by
    rw [harchAt1, hloc1]
    show colVal (addMigrate (archAt w e.index) nwA
      (locOf w e.index).index_in_archetype ii e.index v).2 ii
      nwA.entities.length = v
    unfold colVal
    rw [addMigrate_nw_col _ _ _ _ _ _ ii (by omega)]
    rw [if_neg (by omega), if_pos rfl]
    have hc := hnwAlock (nwA.components.getD ii default)
      (getD_mem _ _ _ (by omega))
    show ((nwA.components.getD ii default).data ++ [v]).getD
      nwA.entities.length 0 = v
    rw [← hc, getD_concat_self]
  refine ⟨w1, w2, hadd, by rw [← hval]; exact hrem, ?_⟩
  -- component values reachable before are reachable after
  intro t' x hw
  rw [get_component_unfold w e t' hie hge, fold_archAt w e.index] at hw
  have hold_ents : (addMigrate (archAt w e.index) nwA
      (locOf w e.index).index_in_archetype ii e.index v).1.entities =
      swapRemove (archAt w e.index).entities
        (locOf w e.index).index_in_archetype := rfl
  have hm2 : (archOf w1 (locOf w e.index).archetype_index).entities.length =
      (archAt w e.index).entities.length - 1 := by
    rw [hw1ai, hold_ents, length_swapRemove]
  have hidx2 : e.index < w2.entities.length := by omega
  have hgen2 : (slotOf w2 e.index).generation = e.generation := by
    rw [hw2slot]
  rw [get_component_unfold w2 e t' hidx2 hgen2]
  have hloc2 : locOf w2 e.index =
      ⟨(locOf w e.index).archetype_index,
       (archOf w1 (locOf w e.index).archetype_index).entities.length⟩ := by
    unfold locOf; rw [hw2slot]; rfl
  rw [hloc2]
  show (match (archOf w2 (locOf w e.index).archetype_index).get_component_mut
      t' ((archOf w1 (locOf w e.index).archetype_index).entities.length) with
    | .ok v => OpResult.ok v w2
    | .error er => OpResult.err er w2) = _
  rw [hw2ai]
  -- decompose the pre-state read
  cases hf : (archAt w e.index).components.findIdx?
      (fun c => c.type_id = t') with
  | none =>
    exfalso
    unfold Archetype.get_component_mut at hw
    rw [hf] at hw
    simp at hw
  | some j =>
    have hjA : j < (archAt w e.index).components.length :=
      findIdx?_lt_length _ _ _ hf
    have hx : (archAt w e.index |>.components.getD j default).data.getD
        (locOf w e.index).index_in_archetype 0 = x := by
      unfold Archetype.get_component_mut at hw
      rw [hf] at hw
      simp only [] at hw
      cases hw
      rfl
    -- the post-state columns carry the same type ids as the pre-state
    have hstyw2 : (removeMigrate (archAt w1 e.index)
        (archOf w1 (locOf w e.index).archetype_index)
        (locOf w1 e.index).index_in_archetype ii
        e.index).2.components.map (·.type_id) =
        (archAt w e.index).components.map (·.type_id) := by
      have h1 := stypes_removeMigrate_nw (archAt w1 e.index)
        (archOf w1 (locOf w e.index).archetype_index)
        (locOf w1 e.index).index_in_archetype ii e.index
      have h2 := stypes_addMigrate_old (archAt w e.index) nwA
        (locOf w e.index).index_in_archetype ii e.index v
      unfold stypes at h1 h2
      rw [h1, hw1ai, h2]
    have hfind2 : (removeMigrate (archAt w1 e.index)
        (archOf w1 (locOf w e.index).archetype_index)
        (locOf w1 e.index).index_in_archetype ii
        e.index).2.components.findIdx? (fun c => c.type_id = t') = some j := by
      rw [findIdx?_typeid_congr _ (archAt w e.index).components t' hstyw2]
      exact hf
    -- now compute the stored value at the entity's new row
    have hjdst : j < (archOf w1
        (locOf w e.index).archetype_index).components.length := by
      rw [hw1ai]
      show j < (List.map _ _).length
      rw [List.length_map]
      exact hjA
    have hsrclen : (archAt w1 e.index).components.length =
        (stypes (archAt w e.index)).length + 1 := by
      rw [harchAt1]
      show (mapIdx _ _).length = _
      rw [length_mapIdx]
      exact hnwA_len
    unfold Archetype.get_component_mut
    rw [hfind2]
    show OpResult.ok (((removeMigrate (archAt w1 e.index)
        (archOf w1 (locOf w e.index).archetype_index)
        (locOf w1 e.index).index_in_archetype ii
        e.index).2.components.getD j default).data.getD
        ((archOf w1 (locOf w e.index).archetype_index).entities.length) 0)
        w2 = OpResult.ok x w2
    rw [removeMigrate_nw_col _ _ _ _ _ j hjdst]
    rw [if_pos (by omega)]
    have holdj : (archOf w1
        (locOf w e.index).archetype_index).components.getD j default =
        ⟨((archAt w e.index).components.getD j default).type_id,
         swapRemove ((archAt w e.index).components.getD j default).data
           (locOf w e.index).index_in_archetype⟩ := by
      rw [hw1ai]
      exact addMigrate_old_col _ _ _ _ _ _ j hjA
    have hcolj_len : ((archAt w e.index).components.getD j default).data.length
        = (archAt w e.index).entities.length :=
      hlockA _ (getD_mem _ _ _ hjA)
    -- the value appended by the second migration is the original value
    have happend : ∀ jj, jj < nwA.components.length →
        colVal (archAt w1 e.index) jj (locOf w1 e.index).index_in_archetype =
        (if jj < ii then colVal (archAt w e.index) jj
            (locOf w e.index).index_in_archetype
         else if jj = ii then v
         else colVal (archAt w e.index) (jj - 1)
            (locOf w e.index).index_in_archetype) := by
      intro jj hjj
      rw [harchAt1, hloc1]
      show colVal (addMigrate (archAt w e.index) nwA
        (locOf w e.index).index_in_archetype ii e.index v).2 jj
        nwA.entities.length = _
      unfold colVal
      rw [addMigrate_nw_col _ _ _ _ _ _ jj hjj]
      have hcjj := hnwAlock (nwA.components.getD jj default)
        (getD_mem _ _ _ hjj)
      by_cases h1 : jj < ii
      · rw [if_pos h1, if_pos h1]
        show ((nwA.components.getD jj default).data ++ [_]).getD
          nwA.entities.length 0 = _
        rw [← hcjj, getD_concat_self]
        rfl
      · rw [if_neg h1, if_neg h1]
        by_cases h2 : jj = ii
        · rw [if_pos h2, if_pos h2]
          show ((nwA.components.getD jj default).data ++ [v]).getD
            nwA.entities.length 0 = _
          rw [← hcjj, getD_concat_self]
        · rw [if_neg h2, if_neg h2, if_pos (by omega)]
          show ((nwA.components.getD jj default).data ++ [_]).getD
            nwA.entities.length 0 = _
          rw [← hcjj, getD_concat_self]
          rfl
    by_cases hji : j < ii
    · rw [if_pos hji, holdj]
      show OpResult.ok ((swapRemove ((archAt w e.index).components.getD j
          default).data (locOf w e.index).index_in_archetype ++
          [colVal (archAt w1 e.index) j
            (locOf w1 e.index).index_in_archetype]).getD
          ((archOf w1 (locOf w e.index).archetype_index).entities.length) 0)
          w2 = _
      rw [happend j (by omega), if_pos hji]
      rw [show (archOf w1 (locOf w e.index).archetype_index).entities.length
          = (swapRemove ((archAt w e.index).components.getD j default).data
            (locOf w e.index).index_in_archetype).length from by
        rw [hm2, length_swapRemove, hcolj_len]]
      rw [getD_concat_self]
      unfold colVal
      rw [hx]
    · rw [if_neg hji, holdj]
      show OpResult.ok ((swapRemove ((archAt w e.index).components.getD j
          default).data (locOf w e.index).index_in_archetype ++
          [colVal (archAt w1 e.index) (j + 1)
            (locOf w1 e.index).index_in_archetype]).getD
          ((archOf w1 (locOf w e.index).archetype_index).entities.length) 0)
          w2 = _
      rw [happend (j + 1) (by omega), if_neg (by omega), if_neg (by omega)]
      rw [show j + 1 - 1 = j from rfl]
      rw [show (archOf w1 (locOf w e.index).archetype_index).entities.length
          = (swapRemove ((archAt w e.index).components.getD j default).data
            (locOf w e.index).index_in_archetype).length from by
        rw [hm2, length_swapRemove, hcolj_len]]
      rw [getD_concat_self]
      unfold colVal
      rw [hx]

theorem C2_add_remove_round_trip_witness :
    (WInv exW1 ∧ EntityValid exW1 ⟨0, 0⟩ ∧
      (1 : Nat) ∉ stypes (archAt exW1 (⟨0, 0⟩ : Entity).index)) ∧
    (∃ w1 w2, exW1.add_component ⟨0, 0⟩ 1 42 = .ok () w1 ∧
      w1.remove_component ⟨0, 0⟩ 1 = .ok 42 w2 ∧
      (∀ t' x, exW1.get_component_mut ⟨0, 0⟩ t' = .ok x exW1 →
        w2.get_component_mut ⟨0, 0⟩ t' = .ok x w2)) :=
  ⟨⟨by decide, by decide, by decide⟩,
   C2_add_remove_round_trip exW1 ⟨0, 0⟩ 1 42 (by decide) (by decide)
     (by decide)⟩

/-! ### Generation evolution along traces (C1) -/

theorem gens_preserved_set_loc (l : List EntityInfo) (j : Nat)
    (loc : EntityLocation) (i : Nat) :
    ((l.set j ⟨(l.getD j default).generation, loc⟩).getD i
      default).generation = (l.getD i default).generation := by
  by_cases hj : j < l.length
  · by_cases hij : j = i
    · subst hij
      rw [getD_set_self _ _ _ _ hj]
    · rw [getD_set_ne _ _ _ _ _ hij]
  · rw [List.set_eq_of_length_le (by omega)]

theorem migrateEnts_gen (w : World) (e : Entity) (bj m i : Nat) :
    ((migrateEnts w e bj m).getD i default).generation =
      (slotOf w i).generation := by
  unfold migrateEnts
  cases hl : (archAt w e.index).entities.getLast? with
  | none =>
    exact gens_preserved_set_loc w.entities e.index _ i
  | some last =>
    show (((w.entities.set last
        ⟨(slotOf w last).generation, locOf w e.index⟩).set e.index
        ⟨((w.entities.set last
            ⟨(slotOf w last).generation, locOf w e.index⟩).getD e.index
            default).generation, ⟨bj, m⟩⟩).getD i default).generation = _
    rw [gens_preserved_set_loc _ e.index _ i]
    rw [show (⟨(slotOf w last).generation, locOf w e.index⟩ : EntityInfo) =
      ⟨(w.entities.getD last default).generation, locOf w e.index⟩ from rfl]
    rw [gens_preserved_set_loc w.entities last _ i]
    rfl

theorem spawn_slot_gen (w : World) (b : List (Nat × Nat)) (i : Nat)
    (hi : i < w.entities.length) :
    (slotOf (w.spawn b).2 i).generation =
      if w.free_entities.getLast? = some i then
        ((slotOf w i).generation + 1) % U64
      else (slotOf w i).generation := by
  unfold slotOf
  rw [spawn_unfold]
  show (((spawn_in_world b (preSpawn w) (spawnIdx w)).2.entities.set
    (spawnIdx w) ⟨spawnGen w, _⟩).getD i default).generation = _
  rw [spawn_in_world_entities]
  unfold spawnIdx spawnGen preSpawn
  cases hfree : w.free_entities.getLast? with
  | none =>
    simp only [hfree]
    rw [if_neg (by simp)]
    rw [getD_set_ne _ _ _ _ _ (by omega)]
    show ((w.entities ++ [(⟨0, default⟩ : EntityInfo)]).getD i
      default).generation = _
    rw [getD_append_left _ _ _ _ hi]
  | some j =>
    simp only [hfree]
    by_cases hij : j = i
    · subst hij
      rw [if_pos rfl, getD_set_self _ _ _ _ hi]
      rfl
    · rw [if_neg (by simp [hij]), getD_set_ne _ _ _ _ _ hij]

theorem despawn_ok_inv (w : World) (e : Entity) (w' : World)
    (h : w.despawn e = .ok () w') :
    e.index < w.entities.length ∧
    (slotOf w e.index).generation = e.generation ∧
    w'.entities.length = w.entities.length ∧
    (∀ i, i < w.entities.length →
      (slotOf w' i).generation =
        if e.index = i then ((slotOf w i).generation + 1) % U64
        else (slotOf w i).generation) := by
  by_cases hidx : e.index < w.entities.length
  · by_cases hgen : (slotOf w e.index).generation = e.generation
    · rw [despawn_unfold w e hidx hgen] at h
      injection h with h1 h2
      subst h2
      refine ⟨hidx, hgen, ?_, ?_⟩
      · show (List.set _ _ _).length = _
        rw [List.length_set, List.length_set]
      · intro i hi
        show (((w.entities.set e.index
            ⟨((slotOf w e.index).generation + 1) % U64,
             locOf w e.index⟩).set
            ((archAt w e.index).entities.getLast?.getD 0)
            _).getD i default).generation = _
        rw [show (⟨((w.entities.set e.index
            ⟨((slotOf w e.index).generation + 1) % U64,
             locOf w e.index⟩).getD
            ((archAt w e.index).entities.getLast?.getD 0)
            default).generation, locOf w e.index⟩ : EntityInfo) =
          ⟨((w.entities.set e.index
            ⟨((slotOf w e.index).generation + 1) % U64,
             locOf w e.index⟩).getD
            ((archAt w e.index).entities.getLast?.getD 0)
            default).generation, locOf w e.index⟩ from rfl]
        rw [gens_preserved_set_loc]
        by_cases hei : e.index = i
        · subst hei
          rw [if_pos rfl, getD_set_self _ _ _ _ hidx]
        · rw [if_neg hei, getD_set_ne _ _ _ _ _ hei]
          rfl
    · unfold World.despawn at h
      rw [if_pos hidx] at h
      simp only [fold_slotOf] at h
      rw [if_neg hgen] at h
      simp at h
  · unfold World.despawn at h
    rw [if_neg hidx] at h
    simp at h

theorem add_ok_entities (w : World) (e : Entity) (t v : Nat) (w' : World)
    (h : w.add_component e t v = .ok () w') :
    w'.entities.length = w.entities.length ∧
    (∀ i, i < w.entities.length →
      (slotOf w' i).generation = (slotOf w i).generation) := by
  by_cases hidx : e.index < w.entities.length
  · by_cases hgen : (slotOf w e.index).generation = e.generation
    · cases hs : searchSorted (stypes (archAt w e.index)) t with
      | found ci =>
        rw [add_unfold_replace w e t v ci hidx hgen hs] at h
        injection h with h1 h2
        subst h2
        exact ⟨rfl, fun i hi => rfl⟩
      | notFound ii =>
        cases hlk : alookup w.bundle_id_to_archetype
            (insertAt ii t (stypes (archAt w e.index))) with
        | some bj =>
          rw [add_unfold_found w e t v ii bj hidx hgen hs hlk] at h
          injection h with h1 h2
          subst h2
          refine ⟨migrateEnts_len w e _ _, fun i hi => ?_⟩
          show ((migrateEnts w e bj _).getD i default).generation = _
          rw [migrateEnts_gen]
        | none =>
          by_cases hai : (locOf w e.index).archetype_index <
              w.archetypes.length
          · rw [add_unfold_new w e t v ii hidx hgen hs hlk hai] at h
            injection h with h1 h2
            subst h2
            refine ⟨migrateEnts_len w e _ _, fun i hi => ?_⟩
            show ((migrateEnts w e w.archetypes.length
              (newArchAdd w e t ii).entities.length).getD i
              default).generation = _
            rw [migrateEnts_gen]
          · -- the registry points outside the archetype list: the location
            -- fix-up reads an empty entity list, so only slot `e.index` is
            -- rewritten (with its generation kept)
            unfold World.add_component at h
            rw [if_pos hidx] at h
            simp only [fold_slotOf, fold_locOf, fold_archOf, fold_archAt] at h
            rw [if_pos hgen] at h
            simp only [hs, hlk] at h
            injection h with h1 h2
            subst h2
            have hempty : ((w.archetypes ++
                [(⟨[], insertAt ii ⟨t, []⟩
                  ((archAt w e.index).components.map
                    ComponentStore.new_same_type)⟩ : Archetype)]).getD
                (locOf w e.index).archetype_index default).entities = [] := by
              by_cases hLen : (locOf w e.index).archetype_index =
                  w.archetypes.length
              · rw [hLen, getD_concat_self]
              · rw [getD_of_le_length _ _ _ (by
                  rw [List.length_append]
                  simp
                  omega)]
                rfl
            have hsc : ((w.archetypes ++
                [(⟨[], insertAt ii ⟨t, []⟩
                  ((archAt w e.index).components.map
                    ComponentStore.new_same_type)⟩ : Archetype)]).getD
                (locOf w e.index).archetype_index
                default).entities.getLast? = none := by
              rw [hempty]
              rfl
            simp only [hsc]
            refine ⟨?_, fun i hi => ?_⟩
            · rw [List.length_set]
            · simp only [slotOf]
              rw [gens_preserved_set_loc w.entities e.index _ i]
    · unfold World.add_component at h
      rw [if_pos hidx] at h
      simp only [fold_slotOf] at h
      rw [if_neg hgen] at h
      simp at h
  · unfold World.add_component at h
    rw [if_neg hidx] at h
    simp at h

theorem remove_ok_entities (w : World) (e : Entity) (t x : Nat) (w' : World)
    (h : w.remove_component e t = .ok x w') :
    w'.entities.length = w.entities.length ∧
    (∀ i, i < w.entities.length →
      (slotOf w' i).generation = (slotOf w i).generation) := by
  by_cases hidx : e.index < w.entities.length
  · by_cases hgen : (slotOf w e.index).generation = e.generation
    · cases hs : searchSorted (stypes (archAt w e.index)) t with
      | notFound ri =>
        rw [remove_unfold_missing w e t ri hidx hgen hs] at h
        simp at h
      | found ri =>
        cases hlk : alookup w.bundle_id_to_archetype
            (eraseAt ri (stypes (archAt w e.index))) with
        | some aj =>
          rw [remove_unfold_found w e t ri aj hidx hgen hs hlk] at h
          injection h with h1 h2
          subst h2
          refine ⟨migrateEnts_len w e _ _, fun i hi => ?_⟩
          show ((migrateEnts w e aj _).getD i default).generation = _
          rw [migrateEnts_gen]
        | none =>
          by_cases hai : (locOf w e.index).archetype_index <
              w.archetypes.length
          · rw [remove_unfold_new w e t ri hidx hgen hs hlk hai] at h
            injection h with h1 h2
            subst h2
            refine ⟨migrateEnts_len w e _ _, fun i hi => ?_⟩
            show ((migrateEnts w e w.archetypes.length
              (newArchRemove w e t).entities.length).getD i
              default).generation = _
            rw [migrateEnts_gen]
          · unfold World.remove_component at h
            rw [if_pos hidx] at h
            simp only [fold_slotOf, fold_locOf, fold_archOf, fold_archAt] at h
            rw [if_pos hgen] at h
            simp only [hs, hlk] at h
            injection h with h1 h2
            subst h2
            have hempty : ((w.archetypes ++
                [(⟨[], ((archAt w e.index).components.filter
                  (fun (c : ComponentStore) => decide (c.type_id ≠ t))).map
                    ComponentStore.new_same_type⟩ : Archetype)]).getD
                (locOf w e.index).archetype_index default).entities = [] := by
              by_cases hLen : (locOf w e.index).archetype_index =
                  w.archetypes.length
              · rw [hLen, getD_concat_self]
              · rw [getD_of_le_length _ _ _ (by
                  rw [List.length_append]
                  simp
                  omega)]
                rfl
            have hsc : ((w.archetypes ++
                [(⟨[], ((archAt w e.index).components.filter
                  (fun (c : ComponentStore) => decide (c.type_id ≠ t))).map
                    ComponentStore.new_same_type⟩ : Archetype)]).getD
                (locOf w e.index).archetype_index
                default).entities.getLast? = none := by
              rw [hempty]
              rfl
            simp only [hsc]
            refine ⟨?_, fun i hi => ?_⟩
            · rw [List.length_set]
            · simp only [slotOf]
              rw [gens_preserved_set_loc w.entities e.index _ i]
    · unfold World.remove_component at h
      rw [if_pos hidx] at h
      simp only [fold_slotOf] at h
      rw [if_neg hgen] at h
      simp at h
  · unfold World.remove_component at h
    rw [if_neg hidx] at h
    simp at h

theorem spawn_len (w : World) (b : List (Nat × Nat)) :
    w.entities.length ≤ (w.spawn b).2.entities.length := by
  rw [spawn_unfold]
  show w.entities.length ≤
    ((spawn_in_world b (preSpawn w) (spawnIdx w)).2.entities.set (spawnIdx w)
      ⟨spawnGen w, (spawn_in_world b (preSpawn w) (spawnIdx w)).1⟩).length
  rw [List.length_set, spawn_in_world_entities]
  unfold preSpawn
  cases hfree : w.free_entities.getLast? <;> simp [hfree]

theorem reachBump_gen (i : Nat) (w w' : World) (n : Nat)
    (hr : ReachBump i w w' n) (hi : i < w.entities.length)
    (hg : (slotOf w i).generation < U64) :
    w.entities.length ≤ w'.entities.length ∧
    (slotOf w' i).generation = ((slotOf w i).generation + n) % U64 := by
  induction hr with
  | refl => exact ⟨le_refl _, by rw [Nat.add_zero, Nat.mod_eq_of_lt hg]⟩
  | spawn w' nn bnd hrec ih =>
    obtain ⟨hlen, hgen⟩ := ih
    have hi' : i < w'.entities.length := lt_of_lt_of_le hi hlen
    refine ⟨le_trans hlen (spawn_len w' bnd), ?_⟩
    rw [spawn_slot_gen w' bnd i hi', hgen]
    by_cases hfr : w'.free_entities.getLast? = some i
    · rw [if_pos hfr, if_pos hfr, Nat.mod_add_mod, Nat.add_assoc]
    · rw [if_neg hfr, if_neg hfr]
      rfl
  | despawn w' w'' nn e h hrec ih =>
    obtain ⟨hlen, hgen⟩ := ih
    have hi' : i < w'.entities.length := lt_of_lt_of_le hi hlen
    obtain ⟨_, _, hlen', hslot⟩ := despawn_ok_inv w' e w'' h
    refine ⟨by rw [hlen']; exact hlen, ?_⟩
    rw [hslot i hi', hgen]
    by_cases hei : e.index = i
    · rw [if_pos hei, if_pos hei, Nat.mod_add_mod, Nat.add_assoc]
    · rw [if_neg hei, if_neg hei]
      rfl
  | add w' w'' nn e t v h hrec ih =>
    obtain ⟨hlen, hgen⟩ := ih
    have hi' : i < w'.entities.length := lt_of_lt_of_le hi hlen
    obtain ⟨hlen', hslot⟩ := add_ok_entities w' e t v w'' h
    exact ⟨by rw [hlen']; exact hlen, by rw [hslot i hi', hgen]⟩
  | remove w' w'' nn e t x h hrec ih =>
    obtain ⟨hlen, hgen⟩ := ih
    have hi' : i < w'.entities.length := lt_of_lt_of_le hi hlen
    obtain ⟨hlen', hslot⟩ := remove_ok_entities w' e t x w'' h
    exact ⟨by rw [hlen']; exact hlen, by rw [hslot i hi', hgen]⟩

theorem spawn_mkW (g : Nat) :
    (mkW g).spawn [(0, 5)] = (⟨0, (g + 1) % U64⟩, mkL ((g + 1) % U64)) := rfl

theorem despawn_mkL (g : Nat) :
    (mkL g).despawn ⟨0, g⟩ = .ok () (mkW ((g + 1) % U64)) := by
  rw [despawn_unfold (mkL g) ⟨0, g⟩ Nat.zero_lt_one rfl]
  rfl

theorem cycle_mkW (g : Nat) : cycleW (mkW g) = mkW ((g + 2) % U64) := by
  unfold cycleW
  simp only [spawn_mkW]
  rw [despawn_mkL, Nat.mod_add_mod]

theorem cyclesN_succ_back (k : Nat) (w : World) :
    cyclesN (k + 1) w = cycleW (cyclesN k w) := by
  induction k generalizing w with
  | zero => rfl
  | succ k ih =>
    show cyclesN (k + 1) (cycleW w) = _
    rw [ih]
    rfl

theorem cycle_iter (k g : Nat) (hg : g < U64) :
    cyclesN k (mkW g) = mkW ((g + 2 * k) % U64) := by
  induction k generalizing g with
  | zero =>
    show mkW g = _
    rw [Nat.mul_zero, Nat.add_zero, Nat.mod_eq_of_lt hg]
  | succ k ih =>
    show cyclesN k (cycleW (mkW g)) = _
    rw [cycle_mkW, ih _ (Nat.mod_lt _ (by decide)), Nat.mod_add_mod]
    have h2 : g + 2 + 2 * k = g + 2 * (k + 1) := by omega
    rw [h2]

theorem reach_cycle (k g : Nat) (hg : g < U64) :
    ReachBump 0 (mkW g) (cyclesN k (mkW g)) (2 * k) := by
  induction k with
  | zero => exact ReachBump.refl
  | succ k ih =>
    rw [cyclesN_succ_back, cycle_iter k g hg, cycle_mkW]
    rw [cycle_iter k g hg] at ih
    have h1 := ReachBump.spawn (mkW ((g + 2 * k) % U64)) (2 * k) [(0, 5)] ih
    have e2 : ((mkW ((g + 2 * k) % U64)).spawn [(0, 5)]).2 =
        mkL (((g + 2 * k) % U64 + 1) % U64) := by rw [spawn_mkW]
    rw [e2] at h1
    have h2 := ReachBump.despawn _ _ _ ⟨0, ((g + 2 * k) % U64 + 1) % U64⟩
      (despawn_mkL _) h1
    have e4 : ((((g + 2 * k) % U64 + 1) % U64 + 1) % U64) =
        ((g + 2 * k) % U64 + 2) % U64 := by rw [Nat.mod_add_mod]
    rw [e4] at h2
    exact h2

theorem mod_ne_of_lt (g m N : Nat) (hg : g < N) (hm : 0 < m)
    (hmN : m < N) : (g + m) % N ≠ g := by
  by_cases hlt : g + m < N
  · rw [Nat.mod_eq_of_lt hlt]
    omega
  · rw [Nat.mod_eq_sub_mod (by omega), Nat.mod_eq_of_lt (by omega)]
    omega

/-- C1 (amended): after `despawn e` succeeds, every later `despawn`,
`add_component`, `remove_component` or `get_component_mut` invoked with the
original handle `e` fails with `NoSuchEntity` and this holds in every state
reachable by further successful operations — as long as the generation
counter of registry slot `e.index` has been bumped fewer than `2 ^ 64 - 1`
further times since the despawn (`n` counts those bumps: despawns of the
slot and spawns that reuse it from the free list).  The bound is necessary:
the counter wraps modulo `2 ^ 64` (`generation.overflowing_add(1)` in
`spawn`, the wrapping `+= 1` in `despawn`), so after exactly `2 ^ 64 - 1`
further bumps a reusing spawn revalidates the original handle — see
`C1_wraparound_counterexample`. -/
theorem C1_despawn_invalidates (w w1 w2 : World) (e : Entity) (n t v : Nat)
    (hd : w.despawn e = .ok () w1)
    (hr : ReachBump e.index w1 w2 n)
    (hgen : e.generation < U64)
    (hn : n + 1 < U64) :
    w2.despawn e = .err .noSuchEntity w2 ∧
    w2.add_component e t v = .err .noSuchEntity w2 ∧
    w2.remove_component e t = .err .noSuchEntity w2 ∧
    w2.get_component_mut e t = .err .noSuchEntity w2 := by
  obtain ⟨hidx, hgeq, hlen1, hslot⟩ := despawn_ok_inv w e w1 hd
  have hi1 : e.index < w1.entities.length := by rw [hlen1]; exact hidx
  have hg1 : (slotOf w1 e.index).generation = (e.generation + 1) % U64 := by
    rw [hslot e.index hidx, if_pos rfl, hgeq]
  have hglt : (slotOf w1 e.index).generation < U64 := by
    rw [hg1]
    exact Nat.mod_lt _ (by decide)
  obtain ⟨hlen2, hg2⟩ := reachBump_gen e.index w1 w2 n hr hi1 hglt
  have hi2 : e.index < w2.entities.length := lt_of_lt_of_le hi1 hlen2
  have hne' := mod_ne_of_lt e.generation (1 + n) U64 hgen (by omega) (by omega)
  rw [← Nat.add_assoc] at hne'
  have hne : (slotOf w2 e.index).generation ≠ e.generation := by
    rw [hg2, hg1, Nat.mod_add_mod]
    exact hne'
  unfold World.despawn World.add_component World.remove_component
    World.get_component_mut
  unfold slotOf at hne
  refine ⟨?_, ?_, ?_, ?_⟩ <;>
    · rw [if_pos hi2]
      simp only []
      rw [if_neg hne]

theorem C1_despawn_invalidates_witness :
    ((World.new.spawn [(0, 5)]).2.despawn ⟨0, 0⟩ = .ok () (mkW 1) ∧
     (0 : Nat) < U64 ∧ 0 + 1 < U64) ∧
    ((mkW 1).despawn ⟨0, 0⟩ = .err .noSuchEntity (mkW 1) ∧
     (mkW 1).add_component ⟨0, 0⟩ 3 7 = .err .noSuchEntity (mkW 1) ∧
     (mkW 1).remove_component ⟨0, 0⟩ 3 = .err .noSuchEntity (mkW 1) ∧
     (mkW 1).get_component_mut ⟨0, 0⟩ 3 = .err .noSuchEntity (mkW 1)) :=
  ⟨⟨by decide, by decide, by decide⟩,
   C1_despawn_invalidates (World.new.spawn [(0, 5)]).2 (mkW 1) (mkW 1)
     ⟨0, 0⟩ 0 3 7 (by decide) ReachBump.refl (by decide) (by decide)⟩

/-- C1 counterexample to the unrestricted claim: spawning in the empty
world returns handle `(0, 0)` and despawning it succeeds, yet the state
`mkL 0` — reachable from the post-despawn state by `2 ^ 64 - 1` further
generation bumps of slot `0` (`2 ^ 63 - 1` respawn/despawn cycles followed
by one reusing spawn, which wraps the slot's generation counter back to
`0`) — accepts the original, long-despawned handle `(0, 0)` again:
`despawn` with it succeeds instead of failing with `NoSuchEntity`. -/
theorem C1_wraparound_counterexample :
    (World.new.spawn [(0, 5)]).1 = (⟨0, 0⟩ : Entity) ∧
    (World.new.spawn [(0, 5)]).2.despawn ⟨0, 0⟩ = .ok () (mkW 1) ∧
    ReachBump 0 (mkW 1) (mkL 0) (2 ^ 64 - 1) ∧
    ((mkL 0).despawn ⟨0, 0⟩).isOk = true := by
  refine ⟨by decide, by decide, ?_, by decide⟩
  have hr := reach_cycle (2 ^ 63 - 1) 1 (by decide)
  rw [cycle_iter (2 ^ 63 - 1) 1 (by decide)] at hr
  have e1 : ((1 + 2 * (2 ^ 63 - 1)) % U64) = 2 ^ 64 - 1 := by decide
  rw [e1] at hr
  have h1 := ReachBump.spawn (mkW (2 ^ 64 - 1)) (2 * (2 ^ 63 - 1)) [(0, 5)] hr
  have e2 : ((mkW (2 ^ 64 - 1 : Nat)).spawn [(0, 5)]).2 =
      mkL ((2 ^ 64 - 1 + 1) % U64) := by rw [spawn_mkW]
  have e3 : ((2 ^ 64 - 1 + 1) % U64) = 0 := by decide
  rw [e2, e3] at h1
  have e4 : (2 * (2 ^ 63 - 1) +
      if (mkW (2 ^ 64 - 1 : Nat)).free_entities.getLast? = some 0 then 1
      else 0) = 2 ^ 64 - 1 := by decide
  rw [e4] at h1
  exact h1

theorem mem_iff_getD {α : Type} (l : List α) (a d : α) (h : a ∈ l) :
    ∃ j, j < l.length ∧ l.getD j d = a := by
  obtain ⟨j, hj, hje⟩ := List.mem_iff_getElem.mp h
  refine ⟨j, hj, ?_⟩
  rw [List.getD_eq_getElem?_getD, List.getElem?_eq_getElem hj, hje]
  rfl

theorem not_mem_dropLast_of_nodup (l : List Nat) (i : Nat) (hnd : l.Nodup)
    (hl : l.getLast? = some i) : i ∉ l.dropLast := by
  have hsplit := List.dropLast_append_getLast? i hl
  have hnd' : (l.dropLast ++ [i]).Nodup := by rw [hsplit]; exact hnd
  rcases List.nodup_append.mp hnd' with ⟨-, -, hdisj⟩
  intro hmem
  exact hdisj hmem (by simp)

theorem getLast?_mem (l : List Nat) (i : Nat) (hl : l.getLast? = some i) :
    i ∈ l := by
  have hsplit := List.dropLast_append_getLast? i hl
  rw [← hsplit]
  simp

theorem migrateEnts_slot_last (w : World) (e : Entity) (bj m last : Nat)
    (hl : (archAt w e.index).entities.getLast? = some last)
    (hne : last ≠ e.index) (hlt : last < w.entities.length) :
    (migrateEnts w e bj m).getD last default =
      ⟨(slotOf w last).generation, locOf w e.index⟩ := by
  unfold migrateEnts
  rw [hl]
  rw [getD_set_ne _ _ _ _ _ (fun h => hne h.symm),
    getD_set_self _ _ _ _ hlt]

theorem migrateEnts_slot_other (w : World) (e : Entity) (bj m i : Nat)
    (hne : i ≠ e.index)
    (hnl : ∀ last, (archAt w e.index).entities.getLast? = some last →
      i ≠ last) :
    (migrateEnts w e bj m).getD i default = slotOf w i := by
  unfold migrateEnts
  cases hl : (archAt w e.index).entities.getLast? with
  | none => rw [getD_set_ne _ _ _ _ _ (fun h => hne h.symm)]; rfl
  | some last =>
    rw [getD_set_ne _ _ _ _ _ (fun h => hne h.symm),
      getD_set_ne _ _ _ _ _ (fun h => (hnl last hl) h.symm)]
    rfl

theorem migrateEnts_genBounded (w : World) (e : Entity) (bj m : Nat)
    (hE : genBounded w) :
    ∀ s ∈ migrateEnts w e bj m, s.generation < U64 := by
  intro s hs
  obtain ⟨j, hj, hje⟩ := mem_iff_getD _ s default hs
  rw [migrateEnts_len] at hj
  rw [← hje, migrateEnts_gen]
  exact hE _ (getD_mem _ j default hj)

theorem swapRemoved_lockstep (A : Archetype) (r : Nat)
    (hA : ∀ c ∈ A.components, c.data.length = A.entities.length) :
    ∀ c ∈ ((⟨swapRemove A.entities r,
        A.components.map fun c => ⟨c.type_id, swapRemove c.data r⟩⟩ :
      Archetype)).components,
      c.data.length =
        ((⟨swapRemove A.entities r,
            A.components.map fun c => ⟨c.type_id, swapRemove c.data r⟩⟩ :
          Archetype)).entities.length := by
  intro c hc
  simp only [List.mem_map] at hc
  obtain ⟨d, hd, hdc⟩ := hc
  rw [← hdc]
  show (swapRemove d.data r).length = (swapRemove A.entities r).length
  rw [length_swapRemove, length_swapRemove, hA d hd]

theorem swapRemoved_stypes (A : Archetype) (r : Nat) :
    stypes ((⟨swapRemove A.entities r,
        A.components.map fun c => ⟨c.type_id, swapRemove c.data r⟩⟩ :
      Archetype)) = stypes A := by
  unfold stypes
  rw [List.map_map]
  rfl

theorem addMigrate_fst_lockstep (A nwA : Archetype) (r ii ei v : Nat)
    (hA : ∀ c ∈ A.components, c.data.length = A.entities.length) :
    ∀ c ∈ (addMigrate A nwA r ii ei v).1.components,
      c.data.length = (addMigrate A nwA r ii ei v).1.entities.length :=
  swapRemoved_lockstep A r hA

theorem removeMigrate_fst_lockstep (A nwA : Archetype) (r ri ei : Nat)
    (hA : ∀ c ∈ A.components, c.data.length = A.entities.length) :
    ∀ c ∈ (removeMigrate A nwA r ri ei).1.components,
      c.data.length = (removeMigrate A nwA r ri ei).1.entities.length :=
  swapRemoved_lockstep A r hA

theorem addMigrate_snd_lockstep (A nwA : Archetype) (r ii ei v : Nat)
    (hlen : nwA.components.length = A.components.length + 1)
    (hnw : ∀ c ∈ nwA.components, c.data.length = nwA.entities.length) :
    ∀ c ∈ (addMigrate A nwA r ii ei v).2.components,
      c.data.length = (addMigrate A nwA r ii ei v).2.entities.length := by
  intro c hc
  show c.data.length = (nwA.entities ++ [ei]).length
  obtain ⟨j, hj, hje⟩ := mem_iff_getD _ c default hc
  have hjn : j < nwA.components.length := by
    have : (mapIdx (fun j (c : ComponentStore) =>
        if j < ii then ⟨c.type_id, c.data ++ [colVal A j r]⟩
        else if j = ii then ⟨c.type_id, c.data ++ [v]⟩
        else if j ≤ A.components.length then
          ⟨c.type_id, c.data ++ [colVal A (j - 1) r]⟩
        else c) nwA.components).length = nwA.components.length :=
      length_mapIdx _ _
    rw [show (addMigrate A nwA r ii ei v).2.components =
      mapIdx (fun j (c : ComponentStore) =>
        if j < ii then ⟨c.type_id, c.data ++ [colVal A j r]⟩
        else if j = ii then ⟨c.type_id, c.data ++ [v]⟩
        else if j ≤ A.components.length then
          ⟨c.type_id, c.data ++ [colVal A (j - 1) r]⟩
        else c) nwA.components from rfl, this] at hj
    exact hj
  rw [show (addMigrate A nwA r ii ei v).2.components =
    mapIdx (fun j (c : ComponentStore) =>
      if j < ii then ⟨c.type_id, c.data ++ [colVal A j r]⟩
      else if j = ii then ⟨c.type_id, c.data ++ [v]⟩
      else if j ≤ A.components.length then
        ⟨c.type_id, c.data ++ [colVal A (j - 1) r]⟩
      else c) nwA.components from rfl] at hje
  rw [getD_mapIdx _ _ j default hjn] at hje
  have hbase := hnw _ (getD_mem nwA.components j default hjn)
  rw [List.length_append]
  by_cases h1 : j < ii
  · rw [if_pos h1] at hje
    rw [← hje]
    show ((nwA.components.getD j default).data ++ [colVal A j r]).length = _
    rw [List.length_append, hbase]
    rfl
  · rw [if_neg h1] at hje
    by_cases h2 : j = ii
    · rw [if_pos h2] at hje
      rw [← hje]
      show ((nwA.components.getD j default).data ++ [v]).length = _
      rw [List.length_append, hbase]
      rfl
    · rw [if_neg h2, if_pos (by omega)] at hje
      rw [← hje]
      show ((nwA.components.getD j default).data ++
        [colVal A (j - 1) r]).length = _
      rw [List.length_append, hbase]
      rfl

theorem removeMigrate_snd_lockstep (A nwA : Archetype) (r ri ei : Nat)
    (hlen : nwA.components.length + 1 = A.components.length)
    (hnw : ∀ c ∈ nwA.components, c.data.length = nwA.entities.length) :
    ∀ c ∈ (removeMigrate A nwA r ri ei).2.components,
      c.data.length = (removeMigrate A nwA r ri ei).2.entities.length := by
  intro c hc
  show c.data.length = (nwA.entities ++ [ei]).length
  obtain ⟨j, hj, hje⟩ := mem_iff_getD _ c default hc
  have hjn : j < nwA.components.length := by
    have : (mapIdx (fun j (c : ComponentStore) =>
        if j + 1 < A.components.length then
          if j < ri then ⟨c.type_id, c.data ++ [colVal A j r]⟩
          else ⟨c.type_id, c.data ++ [colVal A (j + 1) r]⟩
        else c) nwA.components).length = nwA.components.length :=
      length_mapIdx _ _
    rw [show (removeMigrate A nwA r ri ei).2.components =
      mapIdx (fun j (c : ComponentStore) =>
        if j + 1 < A.components.length then
          if j < ri then ⟨c.type_id, c.data ++ [colVal A j r]⟩
          else ⟨c.type_id, c.data ++ [colVal A (j + 1) r]⟩
        else c) nwA.components from rfl, this] at hj
    exact hj
  rw [show (removeMigrate A nwA r ri ei).2.components =
    mapIdx (fun j (c : ComponentStore) =>
      if j + 1 < A.components.length then
        if j < ri then ⟨c.type_id, c.data ++ [colVal A j r]⟩
        else ⟨c.type_id, c.data ++ [colVal A (j + 1) r]⟩
      else c) nwA.components from rfl] at hje
  rw [getD_mapIdx _ _ j default hjn] at hje
  have hbase := hnw _ (getD_mem nwA.components j default hjn)
  rw [List.length_append]
  rw [if_pos (by omega)] at hje
  by_cases h1 : j < ri
  · rw [if_pos h1] at hje
    rw [← hje]
    show ((nwA.components.getD j default).data ++ [colVal A j r]).length = _
    rw [List.length_append, hbase]
    rfl
  · rw [if_neg h1] at hje
    rw [← hje]
    show ((nwA.components.getD j default).data ++
      [colVal A (j + 1) r]).length = _
    rw [List.length_append, hbase]
    rfl

theorem filter_ne_eq_eraseAt (l : List Nat) (t ri : Nat)
    (hs : l.Pairwise (· < ·)) (hri : ri < l.length)
    (ht : l.getD ri 0 = t) :
    l.filter (fun x => decide (x ≠ t)) = eraseAt ri l := by
  induction l generalizing ri with
  | nil => simp at hri
  | cons a as ih =>
    have hall : ∀ b ∈ as, a < b := (List.pairwise_cons.mp hs).1
    have hs' : as.Pairwise (· < ·) := (List.pairwise_cons.mp hs).2
    cases ri with
    | zero =>
      have ha : a = t := ht
      subst ha
      show (a :: as).filter (fun x => decide (x ≠ a)) = as
      rw [List.filter_cons]
      rw [if_neg (by simp)]
      apply List.filter_eq_self.mpr
      intro b hb
      have := hall b hb
      simp
      omega
    | succ ri' =>
      have hri' : ri' < as.length := by simpa using hri
      have ht' : as.getD ri' 0 = t := by simpa [List.getD_cons_succ] using ht
      have hat : a ≠ t := by
        have hmem : as.getD ri' 0 ∈ as := getD_mem _ _ _ hri'
        have := hall _ hmem
        omega
      show (a :: as).filter (fun x => decide (x ≠ t)) = a :: eraseAt ri' as
      rw [List.filter_cons, if_pos (by simpa using hat),
        ih ri' hs' hri' ht']

theorem map_typeid_filter (cs : List ComponentStore) (t : Nat) :
    ((cs.filter (fun (c : ComponentStore) => decide (c.type_id ≠ t))).map
        (ComponentStore.type_id)) =
      (cs.map (ComponentStore.type_id)).filter (fun x => decide (x ≠ t)) := by
  induction cs with
  | nil => rfl
  | cons c cs' ih =>
    rw [List.map_cons, List.filter_cons, List.filter_cons]
    by_cases hc : c.type_id = t
    · rw [if_neg (by simp [hc]), if_neg (by simp [hc]), ih]
    · rw [if_pos (by simp [hc]), if_pos (by simp [hc]), List.map_cons, ih]

theorem stypes_newArchRemove (w : World) (e : Entity) (t ri : Nat)
    (hs : (stypes (archAt w e.index)).Pairwise (· < ·))
    (hri : ri < (stypes (archAt w e.index)).length)
    (ht : (stypes (archAt w e.index)).getD ri 0 = t) :
    stypes (newArchRemove w e t) = eraseAt ri (stypes (archAt w e.index)) := by
  show (((archAt w e.index).components.filter
      (fun (c : ComponentStore) => decide (c.type_id ≠ t))).map
        ComponentStore.new_same_type).map (·.type_id) = _
  rw [List.map_map]
  rw [show ((fun (c : ComponentStore) => c.type_id) ∘
      ComponentStore.new_same_type) = ComponentStore.type_id from rfl]
  rw [map_typeid_filter]
  exact filter_ne_eq_eraseAt _ t ri hs hri ht

theorem newArch_base_lockstep (w : World) (e : Entity) (t ii : Nat) :
    (∀ c ∈ (newArchAdd w e t ii).components,
      c.data.length = (newArchAdd w e t ii).entities.length) ∧
    (∀ c ∈ (newArchRemove w e t).components,
      c.data.length = (newArchRemove w e t).entities.length) := by
  constructor
  · intro c hc
    show c.data.length = 0
    rcases mem_insertAt _ _ _ _ hc with h1 | h1
    · rw [h1]
      rfl
    · simp only [List.mem_map] at h1
      obtain ⟨d, -, hd⟩ := h1
      rw [← hd]
      rfl
  · intro c hc
    show c.data.length = 0
    have hc' : c ∈ ((archAt w e.index).components.filter
        (fun (c : ComponentStore) => decide (c.type_id ≠ t))).map
          ComponentStore.new_same_type := hc
    simp only [List.mem_map] at hc'
    obtain ⟨d, -, hd⟩ := hc'
    rw [← hd]
    rfl

theorem pushBundle_lockstep (A : Archetype) (i : Nat) (b : List (Nat × Nat))
    (hst : stypes A = bundleTypes b)
    (hA : ∀ c ∈ A.components, c.data.length = A.entities.length) :
    ∀ c ∈ (pushBundle A i b).components,
      c.data.length = (pushBundle A i b).entities.length := by
  intro c hc
  show c.data.length = (A.entities ++ [i]).length
  have hlen : A.components.length = (sortBundle b).length := by
    have h1 := congrArg List.length hst
    unfold stypes bundleTypes at h1
    simpa using h1
  obtain ⟨j, hj, hje⟩ := mem_iff_getD _ c default hc
  have hjz : j < (A.components.zipWith
      (fun c p => (⟨c.type_id, c.data ++ [p.2]⟩ : ComponentStore))
      (sortBundle b)).length := hj
  rw [List.length_zipWith] at hjz
  have hja : j < A.components.length := by omega
  have hjb : j < (sortBundle b).length := by omega
  rw [show (pushBundle A i b).components =
    A.components.zipWith
      (fun c p => (⟨c.type_id, c.data ++ [p.2]⟩ : ComponentStore))
      (sortBundle b) from rfl] at hje
  rw [getD_zipWith _ _ _ j _ _ _ hja hjb] at hje
  rw [← hje]
  show ((A.components.getD j default).data ++
    [((sortBundle b).getD j (0, 0)).2]).length = _
  rw [List.length_append, List.length_append,
    hA _ (getD_mem A.components j default hja)]
  rfl

theorem spawn_map_eq (w : World) (b : List (Nat × Nat)) :
    (w.spawn b).2.bundle_id_to_archetype =
      (spawn_in_world b (preSpawn w) (spawnIdx w)).2.bundle_id_to_archetype := by
  rw [spawn_unfold]

theorem spawn_archs_found (w : World) (b : List (Nat × Nat)) (ai : Nat)
    (hlk : alookup w.bundle_id_to_archetype (bundleTypes b) = some ai) :
    (w.spawn b).2.archetypes =
      w.archetypes.set ai (pushBundle (archOf w ai) (spawnIdx w) b) ∧
    (w.spawn b).2.bundle_id_to_archetype = w.bundle_id_to_archetype := by
  have hlk' : alookup (preSpawn w).bundle_id_to_archetype (bundleTypes b) =
      some ai := by rw [preSpawn_map]; exact hlk
  constructor
  · rw [spawn_archetypes, spawn_in_world_found b (preSpawn w) (spawnIdx w)
      ai hlk']
    show (preSpawn w).archetypes.set ai
      (pushBundle ((preSpawn w).archetypes.getD ai default) (spawnIdx w) b) = _
    rw [preSpawn_archetypes]
    rfl
  · rw [spawn_map_eq, spawn_in_world_found b (preSpawn w) (spawnIdx w)
      ai hlk']
    exact preSpawn_map w

theorem spawn_archs_new (w : World) (b : List (Nat × Nat))
    (hlk : alookup w.bundle_id_to_archetype (bundleTypes b) = none) :
    (w.spawn b).2.archetypes =
      w.archetypes ++ [pushBundle (new_archetype b) (spawnIdx w) b] ∧
    (w.spawn b).2.bundle_id_to_archetype =
      (bundleTypes b, w.archetypes.length) :: w.bundle_id_to_archetype := by
  have hlk' : alookup (preSpawn w).bundle_id_to_archetype (bundleTypes b) =
      none := by rw [preSpawn_map]; exact hlk
  constructor
  · rw [spawn_archetypes, spawn_in_world_new b (preSpawn w) (spawnIdx w) hlk']
    show (preSpawn w).archetypes ++ _ = _
    rw [preSpawn_archetypes]
  · rw [spawn_map_eq, spawn_in_world_new b (preSpawn w) (spawnIdx w) hlk']
    show (bundleTypes b, (preSpawn w).archetypes.length) ::
      (preSpawn w).bundle_id_to_archetype = _
    rw [preSpawn_archetypes, preSpawn_map]

theorem spawn_arch_len_facts (w : World) (b : List (Nat × Nat))
    (hG : mapCoherent w) :
    w.archetypes.length ≤ (w.spawn b).2.archetypes.length ∧
    spawnTarget w b < (w.spawn b).2.archetypes.length ∧
    (∀ j, j < (w.spawn b).2.archetypes.length →
      j = spawnTarget w b ∨ j < w.archetypes.length) := by
  cases hlk : alookup w.bundle_id_to_archetype (bundleTypes b) with
  | some ai =>
    obtain ⟨harchs, -⟩ := spawn_archs_found w b ai hlk
    have htgt : spawnTarget w b = ai := by unfold spawnTarget; rw [hlk]
    have hailt : ai < w.archetypes.length := (hG _ (alookup_mem _ _ _ hlk)).1
    rw [harchs, List.length_set, htgt]
    exact ⟨Nat.le_refl _, hailt, fun j hj => Or.inr hj⟩
  | none =>
    obtain ⟨harchs, -⟩ := spawn_archs_new w b hlk
    have htgt : spawnTarget w b = w.archetypes.length := by
      unfold spawnTarget; rw [hlk]
    rw [harchs, List.length_append, htgt]
    refine ⟨by simp, by simp, fun j hj => ?_⟩
    simp only [List.length_cons, List.length_nil] at hj
    omega

theorem spawn_arch_other (w : World) (b : List (Nat × Nat)) (j : Nat)
    (hj : j ≠ spawnTarget w b) (hjl : j < w.archetypes.length) :
    archOf (w.spawn b).2 j = archOf w j := by
  cases hlk : alookup w.bundle_id_to_archetype (bundleTypes b) with
  | some ai =>
    obtain ⟨harchs, -⟩ := spawn_archs_found w b ai hlk
    have htgt : spawnTarget w b = ai := by unfold spawnTarget; rw [hlk]
    unfold archOf
    rw [harchs, getD_set_ne _ _ _ _ _ (by rw [← htgt]; exact fun h => hj h.symm)]
  | none =>
    obtain ⟨harchs, -⟩ := spawn_archs_new w b hlk
    unfold archOf
    rw [harchs, getD_append_left _ _ _ _ hjl]

theorem spawn_arch_entities (w : World) (b : List (Nat × Nat))
    (hG : mapCoherent w) :
    (archOf (w.spawn b).2 (spawnTarget w b)).entities =
      (archOf w (spawnTarget w b)).entities ++ [spawnIdx w] := by
  cases hlk : alookup w.bundle_id_to_archetype (bundleTypes b) with
  | some ai =>
    obtain ⟨harchs, -⟩ := spawn_archs_found w b ai hlk
    have htgt : spawnTarget w b = ai := by unfold spawnTarget; rw [hlk]
    have hailt : ai < w.archetypes.length := (hG _ (alookup_mem _ _ _ hlk)).1
    unfold archOf
    rw [harchs, htgt, getD_set_self _ _ _ _ hailt]
    rfl
  | none =>
    obtain ⟨harchs, -⟩ := spawn_archs_new w b hlk
    have htgt : spawnTarget w b = w.archetypes.length := by
      unfold spawnTarget; rw [hlk]
    unfold archOf
    rw [harchs, htgt, getD_concat_self,
      getD_of_le_length _ _ _ (Nat.le_refl _)]
    rfl

theorem spawn_arch_stypes_old (w : World) (b : List (Nat × Nat))
    (hG : mapCoherent w) (j : Nat) (hjl : j < w.archetypes.length) :
    stypes (archOf (w.spawn b).2 j) = stypes (archOf w j) := by
  cases hlk : alookup w.bundle_id_to_archetype (bundleTypes b) with
  | some ai =>
    obtain ⟨harchs, -⟩ := spawn_archs_found w b ai hlk
    have hailt : ai < w.archetypes.length := (hG _ (alookup_mem _ _ _ hlk)).1
    have hstai : stypes (archOf w ai) = bundleTypes b :=
      (hG _ (alookup_mem _ _ _ hlk)).2
    by_cases hja : j = ai
    · subst hja
      unfold archOf
      rw [harchs, getD_set_self _ _ _ _ hailt]
      rw [show w.archetypes.getD j default = archOf w j from rfl]
      apply stypes_pushBundle
      have h1 := congrArg List.length hstai
      unfold stypes bundleTypes at h1
      simp only [List.length_map] at h1
      omega
    · unfold archOf
      rw [harchs, getD_set_ne _ _ _ _ _ (fun h => hja h.symm)]
  | none =>
    obtain ⟨harchs, -⟩ := spawn_archs_new w b hlk
    unfold archOf
    rw [harchs, getD_append_left _ _ _ _ hjl]

theorem spawn_arch_target_stypes (w : World) (b : List (Nat × Nat))
    (hG : mapCoherent w) :
    stypes (archOf (w.spawn b).2 (spawnTarget w b)) = bundleTypes b := by
  cases hlk : alookup w.bundle_id_to_archetype (bundleTypes b) with
  | some ai =>
    have htgt : spawnTarget w b = ai := by unfold spawnTarget; rw [hlk]
    have hstai : stypes (archOf w ai) = bundleTypes b :=
      (hG _ (alookup_mem _ _ _ hlk)).2
    rw [htgt, ← hstai]
    exact spawn_arch_stypes_old w b hG ai (hG _ (alookup_mem _ _ _ hlk)).1
  | none =>
    obtain ⟨harchs, -⟩ := spawn_archs_new w b hlk
    have htgt : spawnTarget w b = w.archetypes.length := by
      unfold spawnTarget; rw [hlk]
    unfold archOf
    rw [harchs, htgt, getD_concat_self]
    rw [stypes_pushBundle _ _ _ (by
      show (new_archetype b).components.length ≤ _
      unfold new_archetype
      simp)]
    exact stypes_new_archetype b

theorem spawn_covers (w : World) (b : List (Nat × Nat)) (i : Nat)
    (hi : i < (w.spawn b).2.entities.length) (hne : i ≠ spawnIdx w) :
    i < w.entities.length := by
  rw [spawn_entities_len] at hi
  cases hfr : w.free_entities.getLast? with
  | some i0 =>
    have h1 : (preSpawn w).entities.length = w.entities.length := by
      unfold preSpawn
      rw [hfr]
    omega
  | none =>
    have h1 : (preSpawn w).entities.length = w.entities.length + 1 := by
      unfold preSpawn
      rw [hfr]
      simp
    have h2 : spawnIdx w = w.entities.length := by
      unfold spawnIdx
      rw [hfr]
    omega

theorem spawnIdx_not_free (w : World) (b : List (Nat × Nat))
    (hF : freeNodup w) : spawnIdx w ∉ (w.spawn b).2.free_entities := by
  rw [spawn_free]
  unfold spawnIdx
  cases hfr : w.free_entities.getLast? with
  | some i0 => exact not_mem_dropLast_of_nodup _ _ hF hfr
  | none =>
    have : w.free_entities = [] := List.getLast?_eq_none_iff.mp hfr
    rw [this]
    simp

theorem free_mem_spawn (w : World) (b : List (Nat × Nat)) (i : Nat)
    (hmem : i ∈ w.free_entities) (hne : i ≠ spawnIdx w) :
    i ∈ (w.spawn b).2.free_entities := by
  rw [spawn_free]
  cases hfr : w.free_entities.getLast? with
  | none =>
    have : w.free_entities = [] := List.getLast?_eq_none_iff.mp hfr
    rw [this] at hmem
    simp at hmem
  | some i0 =>
    have hidx : spawnIdx w = i0 := by unfold spawnIdx; rw [hfr]
    have hsplit := List.dropLast_append_getLast? i0 hfr
    rw [← hsplit] at hmem
    rcases List.mem_append.mp hmem with h1 | h1
    · exact h1
    · simp at h1
      exact absurd (hidx ▸ h1 : i = spawnIdx w) hne

theorem row_ne_spawnIdx (w : World) (j : Nat) (hjl : j < w.entities.length)
    (hjf : j ∉ w.free_entities) : j ≠ spawnIdx w := by
  unfold spawnIdx
  cases hfr : w.free_entities.getLast? with
  | some i0 =>
    intro h
    exact hjf (h ▸ getLast?_mem _ _ hfr)
  | none =>
    show j ≠ w.entities.length
    omega

theorem spawnGen_lt (w : World) : spawnGen w < U64 := by
  unfold spawnGen
  cases w.free_entities.getLast? with
  | some i =>
    show ((slotOf w i).generation + 1) % U64 < U64
    exact Nat.mod_lt _ (by decide)
  | none =>
    show (0 : Nat) < U64
    decide

theorem spawn_genBounded (w : World) (b : List (Nat × Nat))
    (hD : freeBounded w) (hE : genBounded w) : genBounded (w.spawn b).2 := by
  intro s hs
  obtain ⟨i, hi, hie⟩ := mem_iff_getD _ s default hs
  by_cases hne : i = spawnIdx w
  · subst hne
    rw [← hie, show (w.spawn b).2.entities.getD (spawnIdx w) default =
      slotOf (w.spawn b).2 (spawnIdx w) from rfl, spawn_slot_self w b hD]
    exact spawnGen_lt w
  · have hiw : i < w.entities.length := spawn_covers w b i hi hne
    rw [← hie, show (w.spawn b).2.entities.getD i default =
      slotOf (w.spawn b).2 i from rfl, spawn_slot_other w b i hne hiw]
    exact hE _ (getD_mem _ i default hiw)

theorem spawn_lockstep (w : World) (b : List (Nat × Nat))
    (hA : lockstep w) (hG : mapCoherent w) : lockstep (w.spawn b).2 := by
  intro a ha c hc
  cases hlk : alookup w.bundle_id_to_archetype (bundleTypes b) with
  | some ai =>
    obtain ⟨harchs, -⟩ := spawn_archs_found w b ai hlk
    rw [harchs] at ha
    have hailt : ai < w.archetypes.length := (hG _ (alookup_mem _ _ _ hlk)).1
    have hstai : stypes (archOf w ai) = bundleTypes b :=
      (hG _ (alookup_mem _ _ _ hlk)).2
    rcases List.mem_or_eq_of_mem_set ha with hmem | heq
    · exact hA a hmem c hc
    · subst heq
      exact pushBundle_lockstep (archOf w ai) (spawnIdx w) b hstai
        (hA _ (getD_mem _ ai default hailt)) c hc
  | none =>
    obtain ⟨harchs, -⟩ := spawn_archs_new w b hlk
    rw [harchs] at ha
    rcases List.mem_append.mp ha with hmem | hmem
    · exact hA a hmem c hc
    · have heq : a = pushBundle (new_archetype b) (spawnIdx w) b := by
        simpa using hmem
      subst heq
      refine pushBundle_lockstep (new_archetype b) (spawnIdx w) b
        (stypes_new_archetype b) ?_ c hc
      intro d hd
      unfold new_archetype at hd
      simp only [List.mem_map] at hd
      obtain ⟨p, -, hp⟩ := hd
      rw [← hp]
      rfl

theorem spawn_sortedTypes (w : World) (b : List (Nat × Nat))
    (hb : BundleWF b) (hB : sortedTypes w) (hG : mapCoherent w) :
    sortedTypes (w.spawn b).2 := by
  intro a ha
  cases hlk : alookup w.bundle_id_to_archetype (bundleTypes b) with
  | some ai =>
    obtain ⟨harchs, -⟩ := spawn_archs_found w b ai hlk
    rw [harchs] at ha
    have hailt : ai < w.archetypes.length := (hG _ (alookup_mem _ _ _ hlk)).1
    have hstai : stypes (archOf w ai) = bundleTypes b :=
      (hG _ (alookup_mem _ _ _ hlk)).2
    rcases List.mem_or_eq_of_mem_set ha with hmem | heq
    · exact hB a hmem
    · subst heq
      rw [stypes_pushBundle _ _ _ (by
        have h1 := congrArg List.length hstai
        unfold stypes bundleTypes at h1
        simp only [List.length_map] at h1
        omega)]
      exact hB _ (getD_mem _ ai default hailt)
  | none =>
    obtain ⟨harchs, -⟩ := spawn_archs_new w b hlk
    rw [harchs] at ha
    rcases List.mem_append.mp ha with hmem | hmem
    · exact hB a hmem
    · have heq : a = pushBundle (new_archetype b) (spawnIdx w) b := by
        simpa using hmem
      subst heq
      rw [stypes_pushBundle _ _ _ (by
        show (new_archetype b).components.length ≤ _
        unfold new_archetype
        simp), stypes_new_archetype]
      exact bundleTypes_sorted b hb

theorem spawn_mapCoherent (w : World) (b : List (Nat × Nat))
    (hG : mapCoherent w) : mapCoherent (w.spawn b).2 := by
  intro p hp
  obtain ⟨hge, htgtlt, hcover⟩ := spawn_arch_len_facts w b hG
  cases hlk : alookup w.bundle_id_to_archetype (bundleTypes b) with
  | some ai =>
    obtain ⟨harchs, hmap⟩ := spawn_archs_found w b ai hlk
    rw [hmap] at hp
    obtain ⟨hp2, hpst⟩ := hG p hp
    refine ⟨by omega, ?_⟩
    rw [spawn_arch_stypes_old w b hG p.2 hp2]
    exact hpst
  | none =>
    obtain ⟨harchs, hmap⟩ := spawn_archs_new w b hlk
    rw [hmap] at hp
    have htgt : spawnTarget w b = w.archetypes.length := by
      unfold spawnTarget
      rw [hlk]
    rcases List.mem_cons.mp hp with heq | hmem
    · subst heq
      refine ⟨by rw [← htgt]; exact htgtlt, ?_⟩
      show stypes (archOf (w.spawn b).2 w.archetypes.length) = bundleTypes b
      rw [← htgt]
      exact spawn_arch_target_stypes w b hG
    · obtain ⟨hp2, hpst⟩ := hG p hmem
      refine ⟨by omega, ?_⟩
      rw [spawn_arch_stypes_old w b hG p.2 hp2]
      exact hpst

theorem spawn_mapComplete (w : World) (b : List (Nat × Nat))
    (hG : mapCoherent w) (hH : mapComplete w) :
    mapComplete (w.spawn b).2 := by
  intro i hi
  obtain ⟨hge, htgtlt, hcover⟩ := spawn_arch_len_facts w b hG
  by_cases hit : i = spawnTarget w b
  · subst hit
    rw [spawn_arch_target_stypes w b hG]
    exact spawn_lookup_self w b
  · have hiw : i < w.archetypes.length := by
      rcases hcover i hi with h | h
      · exact absurd h hit
      · exact h
    rw [spawn_arch_stypes_old w b hG i hiw]
    cases hlk : alookup w.bundle_id_to_archetype (bundleTypes b) with
    | some ai =>
      obtain ⟨-, hmap⟩ := spawn_archs_found w b ai hlk
      rw [hmap]
      exact hH i hiw
    | none =>
      obtain ⟨-, hmap⟩ := spawn_archs_new w b hlk
      rw [hmap]
      rw [alookup_cons_ne _ _ _ _ (by
        intro heq
        rw [heq] at hlk
        rw [hH i hiw] at hlk
        cases hlk)]
      exact hH i hiw

theorem spawn_rowCoherent (w : World) (b : List (Nat × Nat))
    (hI : WInv w) : rowCoherent (w.spawn b).2 := by
  obtain ⟨hA, hB, hG, hH, hC, hD, hF, hL, hE⟩ := hI
  intro ai hai r hr
  obtain ⟨hge, htgtlt, hcover⟩ := spawn_arch_len_facts w b hG
  have hwle := spawn_entities_le w b
  have hidxlt : spawnIdx w < (w.spawn b).2.entities.length := by
    rw [spawn_entities_len]
    exact spawnIdx_lt w hD
  by_cases hat : ai = spawnTarget w b
  · subst hat
    rw [spawn_arch_entities w b hG, List.length_append,
      List.length_cons, List.length_nil] at hr
    by_cases hrold : r < (archOf w (spawnTarget w b)).entities.length
    · have htl : spawnTarget w b < w.archetypes.length := by
        by_contra hcon
        rw [show archOf w (spawnTarget w b) = default from
          getD_of_le_length _ _ _ (by omega),
          show (default : Archetype).entities.length = 0 from rfl] at hrold
        exact absurd hrold (Nat.not_lt_zero r)
      obtain ⟨hjlt, hjloc, hjfree⟩ := hC (spawnTarget w b) htl r hrold
      have hjne : (archOf w (spawnTarget w b)).entities.getD r 0 ≠
          spawnIdx w := row_ne_spawnIdx w _ hjlt hjfree
      have hrow_eq : (archOf (w.spawn b).2 (spawnTarget w b)).entities.getD
          r 0 = (archOf w (spawnTarget w b)).entities.getD r 0 := by
        rw [spawn_arch_entities w b hG, getD_append_left _ _ _ _ hrold]
      rw [hrow_eq]
      refine ⟨by omega, ?_, ?_⟩
      · unfold locOf
        rw [spawn_slot_other w b _ hjne hjlt]
        exact hjloc
      · rw [spawn_free]
        intro hmem
        exact hjfree (List.mem_of_mem_dropLast hmem)
    · have hreq : r = (archOf w (spawnTarget w b)).entities.length := by
        omega
      have hrow_eq : (archOf (w.spawn b).2 (spawnTarget w b)).entities.getD
          r 0 = spawnIdx w := by
        rw [spawn_arch_entities w b hG, hreq, getD_concat_self]
      rw [hrow_eq]
      refine ⟨hidxlt, ?_, spawnIdx_not_free w b hF⟩
      unfold locOf
      rw [spawn_slot_self w b hD, hreq]
  · have hiw : ai < w.archetypes.length := by
      rcases hcover ai hai with h | h
      · exact absurd h hat
      · exact h
    rw [spawn_arch_other w b ai hat hiw] at hr
    obtain ⟨hjlt, hjloc, hjfree⟩ := hC ai hiw r hr
    have hjne : (archOf w ai).entities.getD r 0 ≠ spawnIdx w :=
      row_ne_spawnIdx w _ hjlt hjfree
    rw [spawn_arch_other w b ai hat hiw]
    refine ⟨by omega, ?_, ?_⟩
    · unfold locOf
      rw [spawn_slot_other w b _ hjne hjlt]
      exact hjloc
    · rw [spawn_free]
      intro hmem
      exact hjfree (List.mem_of_mem_dropLast hmem)

theorem spawn_liveValid (w : World) (b : List (Nat × Nat))
    (hI : WInv w) : liveValid (w.spawn b).2 := by
  obtain ⟨hA, hB, hG, hH, hC, hD, hF, hL, hE⟩ := hI
  intro i hi
  obtain ⟨hge, htgtlt, hcover⟩ := spawn_arch_len_facts w b hG
  by_cases hne : i = spawnIdx w
  · subst hne
    right
    have hslot := spawn_slot_self w b hD
    have hloc : locOf (w.spawn b).2 (spawnIdx w) =
        ⟨spawnTarget w b, (archOf w (spawnTarget w b)).entities.length⟩ := by
      unfold locOf
      rw [hslot]
    have harchat : archAt (w.spawn b).2 (spawnIdx w) =
        archOf (w.spawn b).2 (spawnTarget w b) := by
      unfold archAt
      rw [hloc]
    rw [hloc, harchat]
    refine ⟨htgtlt, ?_, ?_⟩
    · show (archOf w (spawnTarget w b)).entities.length <
        (archOf (w.spawn b).2 (spawnTarget w b)).entities.length
      rw [spawn_arch_entities w b hG, List.length_append]
      simp
    · show (archOf (w.spawn b).2 (spawnTarget w b)).entities.getD
        (archOf w (spawnTarget w b)).entities.length 0 = spawnIdx w
      rw [spawn_arch_entities w b hG, getD_concat_self]
  · have hiw : i < w.entities.length := spawn_covers w b i hi hne
    rcases hL i hiw with hfree | ⟨hailt0, hrow0, hgetd0⟩
    · left
      exact free_mem_spawn w b i hfree hne
    · right
      have hloc : locOf (w.spawn b).2 i = locOf w i := by
        unfold locOf
        rw [spawn_slot_other w b i hne hiw]
      have harchat : archAt (w.spawn b).2 i =
          archOf (w.spawn b).2 (locOf w i).archetype_index := by
        unfold archAt
        rw [hloc]
      rw [hloc, harchat]
      by_cases hat : (locOf w i).archetype_index = spawnTarget w b
      · refine ⟨by omega, ?_, ?_⟩
        · rw [hat, spawn_arch_entities w b hG, List.length_append]
          rw [show archAt w i = archOf w (locOf w i).archetype_index from rfl,
            hat] at hrow0
          show (locOf w i).index_in_archetype <
            (archOf w (spawnTarget w b)).entities.length +
              [spawnIdx w].length
          simp only [List.length_cons, List.length_nil]
          omega
        · rw [hat, spawn_arch_entities w b hG]
          rw [show archAt w i = archOf w (locOf w i).archetype_index from rfl,
            hat] at hrow0 hgetd0
          rw [getD_append_left _ _ _ _ hrow0]
          exact hgetd0
      · refine ⟨by omega, ?_, ?_⟩
        · rw [spawn_arch_other w b _ hat hailt0]
          exact hrow0
        · rw [spawn_arch_other w b _ hat hailt0]
          exact hgetd0

theorem spawn_WInv (w : World) (b : List (Nat × Nat)) (hI : WInv w)
    (hb : BundleWF b) : WInv (w.spawn b).2 := by
  obtain ⟨hA, hB, hG, hH, hC, hD, hF, hL, hE⟩ := hI
  exact ⟨spawn_lockstep w b hA hG, spawn_sortedTypes w b hb hB hG,
    spawn_mapCoherent w b hG, spawn_mapComplete w b hG hH,
    spawn_rowCoherent w b ⟨hA, hB, hG, hH, hC, hD, hF, hL, hE⟩,
    spawn_freeBounded w b hD, spawn_freeNodup w b hF,
    spawn_liveValid w b ⟨hA, hB, hG, hH, hC, hD, hF, hL, hE⟩,
    spawn_genBounded w b hD hE⟩

theorem set_arch_preserves (w : World) (ai : Nat) (A' : Archetype)
    (hst : stypes A' = stypes (archOf w ai)) :
    ∀ j, stypes ((w.archetypes.set ai A').getD j default) =
      stypes (w.archetypes.getD j default) := by
  intro j
  by_cases hj : j = ai
  · subst hj
    by_cases hlt : j < w.archetypes.length
    · rw [getD_set_self _ _ _ _ hlt, hst]
      rfl
    · rw [List.set_eq_of_length_le (by omega)]
  · rw [getD_set_ne _ _ _ _ _ (fun h => hj h.symm)]

theorem row_entities_ne (w : World) (hC : rowCoherent w) (ai r1 r2 : Nat)
    (hai : ai < w.archetypes.length)
    (h1 : r1 < (archOf w ai).entities.length)
    (h2 : r2 < (archOf w ai).entities.length) (hne : r1 ≠ r2) :
    (archOf w ai).entities.getD r1 0 ≠ (archOf w ai).entities.getD r2 0 := by
  intro heq
  have e1 := (hC ai hai r1 h1).2.1
  have e2 := (hC ai hai r2 h2).2.1
  rw [heq, e2] at e1
  exact hne (congrArg EntityLocation.index_in_archetype e1).symm

theorem nodup_concat_of (l : List Nat) (x : Nat) (hnd : l.Nodup)
    (hx : x ∉ l) : (l ++ [x]).Nodup := by
  rw [List.nodup_append]
  refine ⟨hnd, by simp, ?_⟩
  intro a ha hax
  simp at hax
  exact hx (hax ▸ ha)

theorem despawn_WInv (w : World) (e : Entity) (w' : World) (hI : WInv w)
    (hv : EntityValid w e) (h : w.despawn e = .ok () w') : WInv w' := by
  obtain ⟨hA, hB, hG, hH, hC, hD, hF, hL, hE⟩ := hI
  obtain ⟨hidx, hgen, hailt, hrow, hrowe⟩ := hv
  obtain ⟨w'', hw'', harchs, hmap, hents, hfree⟩ := despawn_ok w e hidx hgen
  rw [hw''] at h
  injection h with h1 h2
  rw [h2] at harchs hmap hents hfree
  have hCe : ∀ r, r < (archAt w e.index).entities.length →
      (archAt w e.index).entities.getD r 0 < w.entities.length ∧
      locOf w ((archAt w e.index).entities.getD r 0) =
        ⟨(locOf w e.index).archetype_index, r⟩ ∧
      (archAt w e.index).entities.getD r 0 ∉ w.free_entities :=
    fun r hr => hC _ hailt r hr
  have hrne : ∀ r1 r2, r1 < (archAt w e.index).entities.length →
      r2 < (archAt w e.index).entities.length → r1 ≠ r2 →
      (archAt w e.index).entities.getD r1 0 ≠
        (archAt w e.index).entities.getD r2 0 :=
    fun r1 r2 hr1 hr2 hne => row_entities_ne w hC _ r1 r2 hailt hr1 hr2 hne
  have hmoved : (archAt w e.index).entities.getLast?.getD 0 =
      (archAt w e.index).entities.getD
        ((archAt w e.index).entities.length - 1) 0 :=
    getLast?_getD_eq_getD _
  have hlastlt : (archAt w e.index).entities.length - 1 <
      (archAt w e.index).entities.length := by omega
  have hmlt : (archAt w e.index).entities.getLast?.getD 0 <
      w.entities.length := by
    rw [hmoved]
    exact (hCe _ hlastlt).1
  have hmloc : locOf w ((archAt w e.index).entities.getLast?.getD 0) =
      ⟨(locOf w e.index).archetype_index,
       (archAt w e.index).entities.length - 1⟩ := by
    rw [hmoved]
    exact (hCe _ hlastlt).2.1
  have hmfree : (archAt w e.index).entities.getLast?.getD 0 ∉
      w.free_entities := by
    rw [hmoved]
    exact (hCe _ hlastlt).2.2
  have hefree : e.index ∉ w.free_entities := by
    have := (hCe _ hrow).2.2
    rw [← hrowe]
    exact this
  have hlen' : w'.entities.length = w.entities.length := by
    rw [hents, List.length_set, List.length_set]
  have hslotY : slotOf w' ((archAt w e.index).entities.getLast?.getD 0) =
      ⟨((w.entities.set e.index
          ⟨((slotOf w e.index).generation + 1) % U64, locOf w e.index⟩).getD
          ((archAt w e.index).entities.getLast?.getD 0) default).generation,
       locOf w e.index⟩ := by
    unfold slotOf
    rw [hents]
    exact getD_set_self _ _ _ _ (by rw [List.length_set]; exact hmlt)
  have hloc_moved : locOf w'
      ((archAt w e.index).entities.getLast?.getD 0) = locOf w e.index := by
    unfold locOf
    rw [hslotY]
    rfl
  have hloc_e : locOf w' e.index = locOf w e.index := by
    by_cases hme : (archAt w e.index).entities.getLast?.getD 0 = e.index
    · have h0 := hloc_moved
      rw [hme] at h0
      exact h0
    · unfold locOf slotOf
      rw [hents, getD_set_ne _ _ _ _ _ hme, getD_set_self _ _ _ _ hidx]
      rfl
  have hslot_other : ∀ i, i ≠ e.index →
      i ≠ (archAt w e.index).entities.getLast?.getD 0 →
      slotOf w' i = slotOf w i := by
    intro i hi1 hi2
    unfold slotOf
    rw [hents, getD_set_ne _ _ _ _ _ (fun hh => hi2 hh.symm),
      getD_set_ne _ _ _ _ _ (fun hh => hi1 hh.symm)]
  have harch_len : w'.archetypes.length = w.archetypes.length := by
    rw [harchs, List.length_set]
  have harchA_entities :
      (archOf w' (locOf w e.index).archetype_index).entities =
        swapRemove (archAt w e.index).entities
          (locOf w e.index).index_in_archetype := by
    unfold archOf
    rw [harchs, getD_set_self _ _ _ _ hailt]
  have harchA_len :
      (archOf w' (locOf w e.index).archetype_index).entities.length =
        (archAt w e.index).entities.length - 1 := by
    rw [harchA_entities, length_swapRemove]
  have harcho : ∀ j, j ≠ (locOf w e.index).archetype_index →
      archOf w' j = archOf w j := by
    intro j hj
    unfold archOf
    rw [harchs, getD_set_ne _ _ _ _ _ (fun hh => hj hh.symm)]
  have hstypes_all : ∀ j, stypes (archOf w' j) =
      stypes (archOf w j) := by
    intro j
    unfold archOf
    rw [harchs]
    exact set_arch_preserves w (locOf w e.index).archetype_index _
      (swapRemoved_stypes (archAt w e.index)
        (locOf w e.index).index_in_archetype) j
  have hmne_row : (locOf w e.index).index_in_archetype ≠
        (archAt w e.index).entities.length - 1 →
      (archAt w e.index).entities.getLast?.getD 0 ≠ e.index := by
    intro hne heq
    apply hrne ((archAt w e.index).entities.length - 1)
      (locOf w e.index).index_in_archetype hlastlt hrow
      (fun hh => hne hh.symm)
    exact (hmoved.symm.trans heq).trans hrowe.symm
  refine ⟨?_, ?_, ?_, ?_, ?_, ?_, ?_, ?_, ?_⟩
  · -- lockstep
    intro a ha c hc
    rw [harchs] at ha
    rcases List.mem_or_eq_of_mem_set ha with hmem | heq
    · exact hA a hmem c hc
    · subst heq
      exact swapRemoved_lockstep (archAt w e.index)
        (locOf w e.index).index_in_archetype
        (hA _ (getD_mem _ _ default hailt)) c hc
  · -- sortedTypes
    intro a ha
    rw [harchs] at ha
    rcases List.mem_or_eq_of_mem_set ha with hmem | heq
    · exact hB a hmem
    · subst heq
      rw [swapRemoved_stypes]
      exact hB _ (getD_mem _ _ default hailt)
  · -- mapCoherent
    intro p hp
    rw [hmap] at hp
    obtain ⟨hp2, hpst⟩ := hG p hp
    refine ⟨by omega, ?_⟩
    rw [show stypes (archOf w' p.2) = stypes (archOf w p.2) from
      hstypes_all p.2]
    exact hpst
  · -- mapComplete
    intro i hi
    rw [hmap]
    rw [show stypes (archOf w' i) = stypes (archOf w i) from hstypes_all i]
    exact hH i (by omega)
  · -- rowCoherent
    intro aj haj r hr
    rw [harch_len] at haj
    by_cases hja : aj = (locOf w e.index).archetype_index
    · subst hja
      rw [harchA_len] at hr
      rw [harchA_entities, getD_swapRemove _ _ _ hr]
      by_cases hrr : r = (locOf w e.index).index_in_archetype
      · rw [if_pos hrr]
        have hmne : (archAt w e.index).entities.getD
            ((archAt w e.index).entities.length - 1) 0 ≠ e.index := by
          rw [← hmoved]
          exact hmne_row (by omega)
        obtain ⟨hm1, hm2, hm3⟩ := hCe _ hlastlt
        refine ⟨by omega, ?_, ?_⟩
        · unfold locOf
          rw [show slotOf w' ((archAt w e.index).entities.getD
              ((archAt w e.index).entities.length - 1) 0) =
            slotOf w' ((archAt w e.index).entities.getLast?.getD 0) from by
              rw [hmoved], hslotY]
          show locOf w e.index = (⟨(locOf w e.index).archetype_index, r⟩ :
            EntityLocation)
          rw [hrr]
        · rw [hfree]
          intro hmem
          rcases List.mem_append.mp hmem with hh | hh
          · exact hm3 hh
          · exact hmne (List.mem_singleton.mp hh)
      · rw [if_neg hrr]
        obtain ⟨hj1, hj2, hj3⟩ := hCe r (by omega)
        have hjne_e : (archAt w e.index).entities.getD r 0 ≠ e.index :=
          fun heq => hrne r (locOf w e.index).index_in_archetype (by omega)
            hrow hrr (heq.trans hrowe.symm)
        have hjne_m : (archAt w e.index).entities.getD r 0 ≠
            (archAt w e.index).entities.getLast?.getD 0 := by
          rw [hmoved]
          exact hrne _ _ (by omega) hlastlt (by omega)
        refine ⟨by omega, ?_, ?_⟩
        · unfold locOf
          rw [hslot_other _ hjne_e hjne_m]
          exact hj2
        · rw [hfree]
          intro hmem
          rcases List.mem_append.mp hmem with hh | hh
          · exact hj3 hh
          · exact hjne_e (List.mem_singleton.mp hh)
    · have ho := harcho aj hja
      rw [ho] at hr ⊢
      obtain ⟨hj1, hj2, hj3⟩ := hC aj haj r hr
      have hjne_e : (archOf w aj).entities.getD r 0 ≠ e.index := by
        intro heq
        rw [heq] at hj2
        exact hja ((congrArg EntityLocation.archetype_index hj2).symm)
      have hjne_m : (archOf w aj).entities.getD r 0 ≠
          (archAt w e.index).entities.getLast?.getD 0 := by
        intro heq
        rw [heq, hmloc] at hj2
        exact hja ((congrArg EntityLocation.archetype_index hj2).symm)
      refine ⟨by omega, ?_, ?_⟩
      · unfold locOf
        rw [hslot_other _ hjne_e hjne_m]
        exact hj2
      · rw [hfree]
        intro hmem
        rcases List.mem_append.mp hmem with hh | hh
        · exact hj3 hh
        · exact hjne_e (List.mem_singleton.mp hh)
  · -- freeBounded
    intro i hi
    rw [hfree] at hi
    rcases List.mem_append.mp hi with hh | hh
    · have := hD i hh
      omega
    · have := List.mem_singleton.mp hh
      omega
  · -- freeNodup
    show w'.free_entities.Nodup
    rw [hfree]
    exact nodup_concat_of _ _ hF hefree
  · -- liveValid
    intro i hi
    rw [hlen'] at hi
    by_cases hie : i = e.index
    · left
      rw [hfree, hie]
      simp
    · by_cases him : i = (archAt w e.index).entities.getLast?.getD 0
      · right
        subst him
        rw [hloc_moved]
        have hrowne : (locOf w e.index).index_in_archetype ≠
            (archAt w e.index).entities.length - 1 := by
          intro heq
          apply hie
          rw [hmoved, ← heq, hrowe]
        refine ⟨by omega, ?_, ?_⟩
        · show (locOf w e.index).index_in_archetype <
            (archAt w' ((archAt w e.index).entities.getLast?.getD 0)).entities.length
          rw [show archAt w' ((archAt w e.index).entities.getLast?.getD 0) =
            archOf w' (locOf w'
              ((archAt w e.index).entities.getLast?.getD 0)).archetype_index
            from rfl, hloc_moved]
          show _ < (archOf w' (locOf w e.index).archetype_index).entities.length
          rw [harchA_len]
          omega
        · rw [show archAt w' ((archAt w e.index).entities.getLast?.getD 0) =
            archOf w' (locOf w'
              ((archAt w e.index).entities.getLast?.getD 0)).archetype_index
            from rfl, hloc_moved]
          show (archOf w' (locOf w e.index).archetype_index).entities.getD
            (locOf w e.index).index_in_archetype 0 = _
          rw [harchA_entities, getD_swapRemove _ _ _ (by omega),
            if_pos rfl, ← hmoved]
      · rcases hL i hi with hfree0 | ⟨ha0, hr0, hg0⟩
        · left
          rw [hfree]
          exact List.mem_append.mpr (Or.inl hfree0)
        · right
          have hloci : locOf w' i = locOf w i := by
            unfold locOf
            rw [hslot_other i hie him]
          have harchati : archAt w' i =
              archOf w' (locOf w i).archetype_index := by
            unfold archAt
            rw [hloci]
          have hg0' : (archOf w (locOf w i).archetype_index).entities.getD
              (locOf w i).index_in_archetype 0 = i := hg0
          have hr0' : (locOf w i).index_in_archetype <
              (archOf w (locOf w i).archetype_index).entities.length := hr0
          rw [hloci, harchati]
          by_cases hia : (locOf w i).archetype_index =
              (locOf w e.index).archetype_index
          · rw [hia] at hr0' hg0'
            have hrne_row2 : (locOf w i).index_in_archetype ≠
                (locOf w e.index).index_in_archetype := by
              intro heq
              apply hie
              rw [← hrowe, ← heq]
              exact hg0'.symm
            have hrne_last : (locOf w i).index_in_archetype ≠
                (archAt w e.index).entities.length - 1 := by
              intro heq
              apply him
              rw [hmoved, ← heq]
              exact hg0'.symm
            have hr0'' : (locOf w i).index_in_archetype <
                (archAt w e.index).entities.length := hr0'
            refine ⟨by omega, ?_, ?_⟩
            · rw [hia, harchA_len]
              omega
            · rw [hia, harchA_entities,
                getD_swapRemove _ _ _ (by omega), if_neg hrne_row2]
              exact hg0'
          · have ho := harcho _ hia
            rw [ho]
            exact ⟨by omega, hr0', hg0'⟩
  · -- genBounded
    intro s hs
    obtain ⟨i, hi, hie⟩ := mem_iff_getD _ s default hs
    rw [hlen'] at hi
    rw [← hie]
    by_cases him : i = (archAt w e.index).entities.getLast?.getD 0
    · rw [show w'.entities.getD i default = slotOf w' i from rfl, him,
        hslotY]
      show ((w.entities.set e.index
          ⟨((slotOf w e.index).generation + 1) % U64, locOf w e.index⟩).getD
          ((archAt w e.index).entities.getLast?.getD 0)
          default).generation < U64
      by_cases hme : (archAt w e.index).entities.getLast?.getD 0 = e.index
      · rw [hme, getD_set_self _ _ _ _ hidx]
        exact Nat.mod_lt _ (by decide)
      · rw [getD_set_ne _ _ _ _ _ (fun hh => hme hh.symm)]
        exact hE _ (getD_mem _ _ default hmlt)
    · by_cases hie2 : i = e.index
      · rw [show w'.entities.getD i default = slotOf w' i from rfl, hie2]
        have hse : slotOf w' e.index =
            ⟨((slotOf w e.index).generation + 1) % U64,
             locOf w e.index⟩ := by
          unfold slotOf
          rw [hents, getD_set_ne _ _ _ _ _ (by
              intro hh
              exact him (hie2.trans hh.symm)),
            getD_set_self _ _ _ _ hidx]
          rfl
        rw [hse]
        exact Nat.mod_lt _ (by decide)
      · rw [show w'.entities.getD i default = slotOf w' i from rfl,
          hslot_other i hie2 him]
        exact hE _ (getD_mem _ _ default hi)

theorem getLast?_eq_some_getD (l : List Nat) (h : 0 < l.length) :
    l.getLast? = some (l.getD (l.length - 1) 0) := by
  cases hl : l.getLast? with
  | none =>
    rw [List.getLast?_eq_none_iff] at hl
    subst hl
    simp at h
  | some x =>
    have := getLast?_getD_eq_getD l
    rw [hl] at this
    rw [show (some x).getD 0 = x from rfl] at this
    rw [this]

/-- Registry-and-location invariants of a world produced by an archetype
migration (`add_component` / `remove_component` moving entity `e` from its
archetype to destination `bj`): swap-removed source rows, destination rows
extended with `e.index`, the two location fix-ups of `migrateEnts`. -/
theorem migrate_reg_inv (w w' : World) (e : Entity) (bj m : Nat)
    (nwEnts : List Nat) (hI : WInv w) (hv : EntityValid w e)
    (hbj_ne : bj ≠ (locOf w e.index).archetype_index)
    (hents : w'.entities = migrateEnts w e bj m)
    (hm : m = nwEnts.length)
    (hfree : w'.free_entities = w.free_entities)
    (hlen : w.archetypes.length ≤ w'.archetypes.length)
    (hbj_lt : bj < w'.archetypes.length)
    (hA1e : (archOf w' (locOf w e.index).archetype_index).entities =
      swapRemove (archAt w e.index).entities
        (locOf w e.index).index_in_archetype)
    (hA2e : (archOf w' bj).entities = nwEnts ++ [e.index])
    (hother : ∀ j, j < w'.archetypes.length →
      j ≠ (locOf w e.index).archetype_index → j ≠ bj →
      archOf w' j = archOf w j ∧ j < w.archetypes.length)
    (hnwcase : (bj < w.archetypes.length ∧
        nwEnts = (archOf w bj).entities) ∨
      (w.archetypes.length ≤ bj ∧ nwEnts = [])) :
    rowCoherent w' ∧ liveValid w' ∧ freeBounded w' ∧ freeNodup w' ∧
      genBounded w' := by
  obtain ⟨hA, hB, hG, hH, hC, hD, hF, hL, hE⟩ := hI
  obtain ⟨hidx, hgen, hailt, hrow, hrowe⟩ := hv
  have hCe : ∀ r, r < (archAt w e.index).entities.length →
      (archAt w e.index).entities.getD r 0 < w.entities.length ∧
      locOf w ((archAt w e.index).entities.getD r 0) =
        ⟨(locOf w e.index).archetype_index, r⟩ ∧
      (archAt w e.index).entities.getD r 0 ∉ w.free_entities :=
    fun r hr => hC _ hailt r hr
  have hrne : ∀ r1 r2, r1 < (archAt w e.index).entities.length →
      r2 < (archAt w e.index).entities.length → r1 ≠ r2 →
      (archAt w e.index).entities.getD r1 0 ≠
        (archAt w e.index).entities.getD r2 0 :=
    fun r1 r2 hr1 hr2 hne => row_entities_ne w hC _ r1 r2 hailt hr1 hr2 hne
  have hnwrows : ∀ r, r < nwEnts.length →
      nwEnts.getD r 0 < w.entities.length ∧
      locOf w (nwEnts.getD r 0) = ⟨bj, r⟩ ∧
      nwEnts.getD r 0 ∉ w.free_entities := by
    rcases hnwcase with ⟨hbw, hnw⟩ | ⟨hbw, hnw⟩
    · intro r hr
      rw [hnw] at hr ⊢
      exact hC bj hbw r hr
    · intro r hr
      rw [hnw] at hr
      simp at hr
  have hefree : e.index ∉ w.free_entities := by
    have := (hCe _ hrow).2.2
    rw [← hrowe]
    exact this
  have hsome : (archAt w e.index).entities.getLast? =
      some ((archAt w e.index).entities.getD
        ((archAt w e.index).entities.length - 1) 0) :=
    getLast?_eq_some_getD _ (by omega)
  have hlastlt : (archAt w e.index).entities.length - 1 <
      (archAt w e.index).entities.length := by omega
  have hllt : (archAt w e.index).entities.getD
      ((archAt w e.index).entities.length - 1) 0 < w.entities.length :=
    (hCe _ hlastlt).1
  have hlloc : locOf w ((archAt w e.index).entities.getD
      ((archAt w e.index).entities.length - 1) 0) =
      ⟨(locOf w e.index).archetype_index,
       (archAt w e.index).entities.length - 1⟩ :=
    (hCe _ hlastlt).2.1
  have hlfree : (archAt w e.index).entities.getD
      ((archAt w e.index).entities.length - 1) 0 ∉ w.free_entities :=
    (hCe _ hlastlt).2.2
  have hlen' : w'.entities.length = w.entities.length := by
    rw [hents, migrateEnts_len]
  have hslot_self : slotOf w' e.index =
      ⟨(slotOf w e.index).generation, ⟨bj, m⟩⟩ := by
    unfold slotOf
    rw [hents]
    exact migrateEnts_slot_self w e bj m hidx
  have hloc_self : locOf w' e.index = ⟨bj, m⟩ := by
    unfold locOf
    rw [hslot_self]
  have hslot_last : (archAt w e.index).entities.getD
        ((archAt w e.index).entities.length - 1) 0 ≠ e.index →
      slotOf w' ((archAt w e.index).entities.getD
        ((archAt w e.index).entities.length - 1) 0) =
      ⟨(slotOf w ((archAt w e.index).entities.getD
          ((archAt w e.index).entities.length - 1) 0)).generation,
       locOf w e.index⟩ := by
    intro hne
    unfold slotOf
    rw [hents]
    exact migrateEnts_slot_last w e bj m _ hsome hne hllt
  have hslot_other : ∀ i, i ≠ e.index →
      i ≠ (archAt w e.index).entities.getD
        ((archAt w e.index).entities.length - 1) 0 →
      slotOf w' i = slotOf w i := by
    intro i hi1 hi2
    unfold slotOf
    rw [hents]
    apply migrateEnts_slot_other w e bj m i hi1
    intro last hlast
    rw [hsome] at hlast
    injection hlast with hlast
    rw [← hlast]
    exact hi2
  have hA1len : (archOf w' (locOf w e.index).archetype_index).entities.length
      = (archAt w e.index).entities.length - 1 := by
    rw [hA1e, length_swapRemove]
  refine ⟨?_, ?_, ?_, ?_, ?_⟩
  · -- rowCoherent
    intro aj haj r hr
    by_cases hja : aj = (locOf w e.index).archetype_index
    · subst hja
      rw [hA1len] at hr
      rw [hA1e, getD_swapRemove _ _ _ hr]
      by_cases hrr : r = (locOf w e.index).index_in_archetype
      · rw [if_pos hrr]
        have hlast_ne : (archAt w e.index).entities.getD
            ((archAt w e.index).entities.length - 1) 0 ≠ e.index :=
          fun heq => hrne _ _ hlastlt hrow (by omega)
            (heq.trans hrowe.symm)
        refine ⟨by omega, ?_, ?_⟩
        · unfold locOf
          rw [hslot_last hlast_ne]
          show locOf w e.index = _
          have : locOf w e.index =
              ⟨(locOf w e.index).archetype_index,
               (locOf w e.index).index_in_archetype⟩ := rfl
          rw [this, hrr]
          rfl
        · rw [hfree]
          exact hlfree
      · rw [if_neg hrr]
        obtain ⟨hj1, hj2, hj3⟩ := hCe r (by omega)
        have hjne_e : (archAt w e.index).entities.getD r 0 ≠ e.index :=
          fun heq => hrne r (locOf w e.index).index_in_archetype (by omega)
            hrow hrr (heq.trans hrowe.symm)
        have hjne_l : (archAt w e.index).entities.getD r 0 ≠
            (archAt w e.index).entities.getD
              ((archAt w e.index).entities.length - 1) 0 :=
          hrne _ _ (by omega) hlastlt (by omega)
        refine ⟨by omega, ?_, ?_⟩
        · unfold locOf
          rw [hslot_other _ hjne_e hjne_l]
          exact hj2
        · rw [hfree]
          exact hj3
    · by_cases hjb : aj = bj
      · subst hjb
        rw [hA2e, List.length_append, List.length_cons, List.length_nil]
          at hr
        by_cases hrn : r < nwEnts.length
        · obtain ⟨hj1, hj2, hj3⟩ := hnwrows r hrn
          rw [hA2e, getD_append_left _ _ _ _ hrn]
          have hjne_e : nwEnts.getD r 0 ≠ e.index := by
            intro heq
            rw [heq] at hj2
            have : locOf w e.index =
                ⟨(locOf w e.index).archetype_index,
                 (locOf w e.index).index_in_archetype⟩ := rfl
            rw [this] at hj2
            exact hja ((congrArg EntityLocation.archetype_index hj2).symm)
          have hjne_l : nwEnts.getD r 0 ≠
              (archAt w e.index).entities.getD
                ((archAt w e.index).entities.length - 1) 0 := by
            intro heq
            rw [heq, hlloc] at hj2
            exact hja ((congrArg EntityLocation.archetype_index hj2).symm)
          refine ⟨by omega, ?_, ?_⟩
          · unfold locOf
            rw [hslot_other _ hjne_e hjne_l]
            exact hj2
          · rw [hfree]
            exact hj3
        · have hreq : r = nwEnts.length := by omega
          rw [hA2e, hreq, getD_concat_self]
          refine ⟨by omega, ?_, ?_⟩
          · rw [hloc_self, hm]
          · rw [hfree]
            exact hefree
      · obtain ⟨ho, hjw⟩ := hother aj haj hja hjb
        rw [ho] at hr ⊢
        obtain ⟨hj1, hj2, hj3⟩ := hC aj hjw r hr
        have hjne_e : (archOf w aj).entities.getD r 0 ≠ e.index := by
          intro heq
          rw [heq] at hj2
          have : locOf w e.index =
              ⟨(locOf w e.index).archetype_index,
               (locOf w e.index).index_in_archetype⟩ := rfl
          rw [this] at hj2
          exact hja ((congrArg EntityLocation.archetype_index hj2).symm)
        have hjne_l : (archOf w aj).entities.getD r 0 ≠
            (archAt w e.index).entities.getD
              ((archAt w e.index).entities.length - 1) 0 := by
          intro heq
          rw [heq, hlloc] at hj2
          exact hja ((congrArg EntityLocation.archetype_index hj2).symm)
        refine ⟨by omega, ?_, ?_⟩
        · unfold locOf
          rw [hslot_other _ hjne_e hjne_l]
          exact hj2
        · rw [hfree]
          exact hj3
  · -- liveValid
    intro i hi
    rw [hlen'] at hi
    by_cases hie : i = e.index
    · right
      subst hie
      rw [hloc_self]
      have harchat : archAt w' e.index = archOf w' bj := by
        unfold archAt
        rw [hloc_self]
      refine ⟨hbj_lt, ?_, ?_⟩
      · show m < (archAt w' e.index).entities.length
        rw [harchat, hA2e, List.length_append, hm]
        simp
      · show (archAt w' e.index).entities.getD m 0 = e.index
        rw [harchat, hA2e, hm, getD_concat_self]
    · by_cases hil : i = (archAt w e.index).entities.getD
          ((archAt w e.index).entities.length - 1) 0
      · right
        subst hil
        have hll : locOf w' ((archAt w e.index).entities.getD
            ((archAt w e.index).entities.length - 1) 0) =
            locOf w e.index := by
          unfold locOf
          rw [hslot_last hie]
          rfl
        have hrowne : (locOf w e.index).index_in_archetype ≠
            (archAt w e.index).entities.length - 1 := by
          intro heq
          apply hie
          rw [heq] at hrowe
          exact hrowe
        have harchat : archAt w' ((archAt w e.index).entities.getD
            ((archAt w e.index).entities.length - 1) 0) =
            archOf w' (locOf w e.index).archetype_index := by
          show archOf w' (locOf w' ((archAt w e.index).entities.getD
            ((archAt w e.index).entities.length - 1) 0)).archetype_index = _
          rw [hll]
        rw [hll, harchat]
        refine ⟨by omega, ?_, ?_⟩
        · rw [hA1len]
          omega
        · rw [hA1e, getD_swapRemove _ _ _ (by omega), if_pos rfl]
      · rcases hL i hi with hfree0 | ⟨ha0, hr0, hg0⟩
        · left
          rw [hfree]
          exact hfree0
        · right
          have hloci : locOf w' i = locOf w i := by
            unfold locOf
            rw [hslot_other i hie hil]
          have harchati : archAt w' i =
              archOf w' (locOf w i).archetype_index := by
            unfold archAt
            rw [hloci]
          have hg0' : (archOf w (locOf w i).archetype_index).entities.getD
              (locOf w i).index_in_archetype 0 = i := hg0
          have hr0' : (locOf w i).index_in_archetype <
              (archOf w (locOf w i).archetype_index).entities.length := hr0
          rw [hloci, harchati]
          by_cases hia : (locOf w i).archetype_index =
              (locOf w e.index).archetype_index
          · rw [hia] at hr0' hg0'
            have hr0x : (locOf w i).index_in_archetype <
                (archAt w e.index).entities.length := hr0'
            have hg0x : (archAt w e.index).entities.getD
                (locOf w i).index_in_archetype 0 = i := hg0'
            have hrne_row : (locOf w i).index_in_archetype ≠
                (locOf w e.index).index_in_archetype := by
              intro heq
              apply hie
              rw [← hrowe, ← heq]
              exact hg0x.symm
            have hrne_last : (locOf w i).index_in_archetype ≠
                (archAt w e.index).entities.length - 1 := by
              intro heq
              apply hil
              rw [← heq]
              exact hg0x.symm
            refine ⟨by omega, ?_, ?_⟩
            · rw [hia, hA1len]
              omega
            · rw [hia, hA1e, getD_swapRemove _ _ _ (by omega),
                if_neg hrne_row]
              exact hg0x
          · by_cases hib : (locOf w i).archetype_index = bj
            · rcases hnwcase with ⟨hbw, hnw⟩ | ⟨hbw, hnw⟩
              · rw [hib] at hr0' hg0'
                refine ⟨by omega, ?_, ?_⟩
                · rw [hib, hA2e, List.length_append]
                  have : (locOf w i).index_in_archetype < nwEnts.length := by
                    rw [hnw]
                    exact hr0'
                  omega
                · rw [hib, hA2e,
                    getD_append_left _ _ _ _ (by rw [hnw]; exact hr0'), hnw]
                  exact hg0'
              · omega
            · obtain ⟨ho, hjw⟩ := hother (locOf w i).archetype_index
                (by omega) hia hib
              rw [ho]
              exact ⟨by omega, hr0', hg0'⟩
  · -- freeBounded
    intro i hi
    rw [hfree] at hi
    have := hD i hi
    omega
  · -- freeNodup
    show w'.free_entities.Nodup
    rw [hfree]
    exact hF
  · -- genBounded
    intro s hs
    rw [hents] at hs
    exact migrateEnts_genBounded w e bj m hE s hs

theorem eraseAt_sublist {α : Type} (n : Nat) (l : List α) :
    (eraseAt n l).Sublist l := by
  induction l generalizing n with
  | nil => simp [eraseAt]
  | cons a as ih =>
    cases n with
    | zero =>
      show as.Sublist (a :: as)
      exact List.sublist_cons_self a as
    | succ n' =>
      show (a :: eraseAt n' as).Sublist (a :: as)
      exact List.Sublist.cons₂ a (ih n')

theorem sorted_eraseAt (n : Nat) (l : List Nat)
    (hs : l.Pairwise (· < ·)) : (eraseAt n l).Pairwise (· < ·) :=
  hs.sublist (eraseAt_sublist n l)

theorem mapIdx_replace_typeid (ci row v : Nat) (cs : List ComponentStore) :
    (mapIdx (fun j (c : ComponentStore) =>
      if j = ci then ⟨c.type_id, c.data.set row v⟩ else c) cs).map
        (·.type_id) = cs.map (·.type_id) := by
  apply stypes_mapIdx
  intro j c
  by_cases hj : j = ci
  · simp [hj]
  · simp [hj]

theorem mapIdx_replace_lockstep (ci row v : Nat) (A : Archetype)
    (hA : ∀ c ∈ A.components, c.data.length = A.entities.length) :
    ∀ c ∈ mapIdx (fun j (c : ComponentStore) =>
        if j = ci then ⟨c.type_id, c.data.set row v⟩ else c) A.components,
      c.data.length = A.entities.length := by
  intro c hc
  obtain ⟨j, hj, hje⟩ := mem_iff_getD _ c default hc
  rw [length_mapIdx] at hj
  rw [getD_mapIdx _ _ j default hj] at hje
  have hbase := hA _ (getD_mem A.components j default hj)
  by_cases hjc : j = ci
  · rw [if_pos hjc] at hje
    rw [← hje]
    show ((A.components.getD j default).data.set row v).length = _
    rw [List.length_set]
    exact hbase
  · rw [if_neg hjc] at hje
    rw [← hje]
    exact hbase

/-- A world differing from `w` only in component data (same registry, free
list, bundle map, archetype entity lists and type ids) inherits `w`'s
invariants apart from column lockstep, which is supplied. -/
theorem same_shape_WInv (w w' : World) (hI : WInv w)
    (hents : w'.entities = w.entities)
    (hfree : w'.free_entities = w.free_entities)
    (hmap : w'.bundle_id_to_archetype = w.bundle_id_to_archetype)
    (hlen : w'.archetypes.length = w.archetypes.length)
    (hstypes : ∀ j, stypes (archOf w' j) = stypes (archOf w j))
    (hentsj : ∀ j, (archOf w' j).entities = (archOf w j).entities)
    (hlock : lockstep w') : WInv w' := by
  obtain ⟨hA, hB, hG, hH, hC, hD, hF, hL, hE⟩ := hI
  have hslots : ∀ i, slotOf w' i = slotOf w i := by
    intro i
    unfold slotOf
    rw [hents]
  have hlocs : ∀ i, locOf w' i = locOf w i := by
    intro i
    unfold locOf
    rw [hslots]
  refine ⟨hlock, ?_, ?_, ?_, ?_, ?_, ?_, ?_, ?_⟩
  · intro a ha
    obtain ⟨j, hj, hje⟩ := mem_iff_getD _ a default ha
    have : stypes a = stypes (archOf w j) := by
      rw [← hje]
      exact hstypes j
    rw [this]
    rw [hlen] at hj
    exact hB _ (getD_mem _ j default hj)
  · intro p hp
    rw [hmap] at hp
    obtain ⟨hp2, hpst⟩ := hG p hp
    exact ⟨by omega, by rw [hstypes p.2]; exact hpst⟩
  · intro i hi
    rw [hmap, hstypes i]
    exact hH i (by omega)
  · intro ai hai r hr
    rw [hlen] at hai
    rw [hentsj] at hr ⊢
    obtain ⟨hj1, hj2, hj3⟩ := hC ai hai r hr
    refine ⟨by rw [hents]; exact hj1, ?_, ?_⟩
    · rw [hlocs]
      exact hj2
    · rw [hfree]
      exact hj3
  · intro i hi
    rw [hfree] at hi
    rw [hents]
    exact hD i hi
  · show w'.free_entities.Nodup
    rw [hfree]
    exact hF
  · intro i hi
    rw [hents] at hi
    rcases hL i hi with hf | ⟨h1, h2, h3⟩
    · left
      rw [hfree]
      exact hf
    · right
      have harchat : archAt w' i = archOf w' (locOf w i).archetype_index := by
        unfold archAt
        rw [hlocs]
      rw [hlocs, harchat, hentsj]
      exact ⟨by omega, h2, h3⟩
  · intro s hs
    rw [hents] at hs
    exact hE s hs

theorem add_WInv (w : World) (e : Entity) (t v : Nat) (w' : World)
    (hI : WInv w) (hv : EntityValid w e)
    (h : w.add_component e t v = .ok () w') : WInv w' := by
  obtain ⟨hA, hB, hG, hH, hC, hD, hF, hL, hE⟩ := hI
  obtain ⟨hidx, hgen, hailt, hrow, hrowe⟩ := hv
  have hsorted : (stypes (archAt w e.index)).Pairwise (· < ·) :=
    hB _ (getD_mem _ _ default hailt)
  have hAlock : ∀ c ∈ (archAt w e.index).components,
      c.data.length = (archAt w e.index).entities.length :=
    hA _ (getD_mem _ _ default hailt)
  cases hs : searchSorted (stypes (archAt w e.index)) t with
  | found ci =>
    rw [add_unfold_replace w e t v ci hidx hgen hs] at h
    injection h with h1 h2
    have harchs : w'.archetypes =
        w.archetypes.set (locOf w e.index).archetype_index
          ⟨(archAt w e.index).entities,
            mapIdx (fun j (c : ComponentStore) =>
              if j = ci then
                ⟨c.type_id, c.data.set (locOf w e.index).index_in_archetype v⟩
              else c) (archAt w e.index).components⟩ := by
      rw [← h2]
    have hmap : w'.bundle_id_to_archetype = w.bundle_id_to_archetype := by
      rw [← h2]
    have hents : w'.entities = w.entities := by rw [← h2]
    have hfree : w'.free_entities = w.free_entities := by rw [← h2]
    have hstA : stypes (⟨(archAt w e.index).entities,
        mapIdx (fun j (c : ComponentStore) =>
          if j = ci then
            ⟨c.type_id, c.data.set (locOf w e.index).index_in_archetype v⟩
          else c) (archAt w e.index).components⟩ : Archetype) =
        stypes (archOf w (locOf w e.index).archetype_index) := by
      show (mapIdx _ (archAt w e.index).components).map (·.type_id) = _
      rw [mapIdx_replace_typeid]
      rfl
    apply same_shape_WInv w w' ⟨hA, hB, hG, hH, hC, hD, hF, hL, hE⟩
      hents hfree hmap
    · rw [harchs, List.length_set]
    · intro j
      unfold archOf
      rw [harchs]
      exact set_arch_preserves w _ _ hstA j
    · intro j
      unfold archOf
      rw [harchs]
      by_cases hj : j = (locOf w e.index).archetype_index
      · subst hj
        rw [getD_set_self _ _ _ _ hailt]
        rfl
      · rw [getD_set_ne _ _ _ _ _ (fun hh => hj hh.symm)]
    · intro a ha c hc
      rw [harchs] at ha
      rcases List.mem_or_eq_of_mem_set ha with hmem | heq
      · exact hA a hmem c hc
      · subst heq
        show c.data.length = (archAt w e.index).entities.length
        exact mapIdx_replace_lockstep ci _ v (archAt w e.index) hAlock c hc
  | notFound ii =>
    obtain ⟨hii, hnotmem, hlow, hhigh⟩ :=
      searchSorted_notFound_spec _ t ii hsorted hs
    cases hlk : alookup w.bundle_id_to_archetype
        (insertAt ii t (stypes (archAt w e.index))) with
    | some bj =>
      rw [add_unfold_found w e t v ii bj hidx hgen hs hlk] at h
      injection h with h1 h2
      obtain ⟨hbj_lt, hbj_st⟩ := hG _ (alookup_mem _ _ _ hlk)
      have hkey_len : (insertAt ii t (stypes (archAt w e.index))).length =
          (stypes (archAt w e.index)).length + 1 :=
        length_insertAt ii t _ hii
      have hbj_ne : bj ≠ (locOf w e.index).archetype_index := by
        intro heq
        rw [heq] at hbj_st
        have := congrArg List.length hbj_st
        rw [hkey_len] at this
        have h0 : stypes (archOf w (locOf w e.index).archetype_index) =
            stypes (archAt w e.index) := rfl
        rw [h0] at this
        omega
      have hcomp_len : (archOf w bj).components.length =
          (archAt w e.index).components.length + 1 := by
        have := congrArg List.length hbj_st
        rw [hkey_len] at this
        unfold stypes at this
        simp only [List.length_map] at this
        exact this
      have harchs : w'.archetypes =
          (w.archetypes.set (locOf w e.index).archetype_index
            (addMigrate (archAt w e.index) (archOf w bj)
              (locOf w e.index).index_in_archetype ii e.index v).1).set bj
            (addMigrate (archAt w e.index) (archOf w bj)
              (locOf w e.index).index_in_archetype ii e.index v).2 := by
        rw [← h2]
      have hmap : w'.bundle_id_to_archetype = w.bundle_id_to_archetype := by
        rw [← h2]
      have hents : w'.entities =
          migrateEnts w e bj (archOf w bj).entities.length := by
        rw [← h2]
      have hfree : w'.free_entities = w.free_entities := by rw [← h2]
      have harch_len : w'.archetypes.length = w.archetypes.length := by
        rw [harchs, List.length_set, List.length_set]
      have hA1 : archOf w' (locOf w e.index).archetype_index =
          (addMigrate (archAt w e.index) (archOf w bj)
            (locOf w e.index).index_in_archetype ii e.index v).1 := by
        unfold archOf
        rw [harchs, getD_set_ne _ _ _ _ _ hbj_ne,
          getD_set_self _ _ _ _ hailt]
        rfl
      have hA2 : archOf w' bj =
          (addMigrate (archAt w e.index) (archOf w bj)
            (locOf w e.index).index_in_archetype ii e.index v).2 := by
        unfold archOf
        rw [harchs,
          getD_set_self _ _ _ _ (by rw [List.length_set]; exact hbj_lt)]
        rfl
      have hreg := migrate_reg_inv w w' e bj (archOf w bj).entities.length
        (archOf w bj).entities ⟨hA, hB, hG, hH, hC, hD, hF, hL, hE⟩
        ⟨hidx, hgen, hailt, hrow, hrowe⟩ hbj_ne hents rfl hfree
        (by omega) (by omega)
        (by rw [hA1]; rfl) (by rw [hA2]; rfl)
        (by
          intro j hj hja hjb
          constructor
          · unfold archOf
            rw [harchs, getD_set_ne _ _ _ _ _ (fun hh => hjb hh.symm),
              getD_set_ne _ _ _ _ _ (fun hh => hja hh.symm)]
          · omega)
        (Or.inl ⟨hbj_lt, rfl⟩)
      have hstypes_j : ∀ j, stypes (archOf w' j) =
          stypes (archOf w j) := by
        intro j
        by_cases hjb : j = bj
        · subst hjb
          rw [hA2, stypes_addMigrate_nw]
        · by_cases hja : j = (locOf w e.index).archetype_index
          · subst hja
            rw [hA1, stypes_addMigrate_old]
            rfl
          · unfold archOf
            rw [harchs, getD_set_ne _ _ _ _ _ (fun hh => hjb hh.symm),
              getD_set_ne _ _ _ _ _ (fun hh => hja hh.symm)]
      refine ⟨?_, ?_, ?_, ?_, hreg.1, hreg.2.2.1, hreg.2.2.2.1, hreg.2.1,
        hreg.2.2.2.2⟩
      · intro a ha c hc
        rw [harchs] at ha
        rcases List.mem_or_eq_of_mem_set ha with ha' | heq
        · rcases List.mem_or_eq_of_mem_set ha' with hmem | heq
          · exact hA a hmem c hc
          · subst heq
            exact addMigrate_fst_lockstep _ _ _ _ _ _ hAlock c hc
        · subst heq
          exact addMigrate_snd_lockstep _ _ _ _ _ _ hcomp_len
            (hA _ (getD_mem _ _ default hbj_lt)) c hc
      · intro a ha
        rw [harchs] at ha
        rcases List.mem_or_eq_of_mem_set ha with ha' | heq
        · rcases List.mem_or_eq_of_mem_set ha' with hmem | heq
          · exact hB a hmem
          · subst heq
            rw [stypes_addMigrate_old]
            exact hsorted
        · subst heq
          rw [stypes_addMigrate_nw]
          exact hB _ (getD_mem _ _ default hbj_lt)
      · intro p hp
        rw [hmap] at hp
        obtain ⟨hp2, hpst⟩ := hG p hp
        exact ⟨by omega, by rw [hstypes_j p.2]; exact hpst⟩
      · intro i hi
        rw [hmap, hstypes_j i]
        exact hH i (by omega)
    | none =>
      rw [add_unfold_new w e t v ii hidx hgen hs hlk hailt] at h
      injection h with h1 h2
      have hkey_len : (insertAt ii t (stypes (archAt w e.index))).length =
          (stypes (archAt w e.index)).length + 1 :=
        length_insertAt ii t _ hii
      have hna_st : stypes (newArchAdd w e t ii) =
          insertAt ii t (stypes (archAt w e.index)) :=
        stypes_newArchAdd w e t ii
      have hna_comp : (newArchAdd w e t ii).components.length =
          (archAt w e.index).components.length + 1 := by
        have := congrArg List.length hna_st
        rw [hkey_len] at this
        unfold stypes at this
        simp only [List.length_map] at this
        exact this
      have hbj_ne : w.archetypes.length ≠
          (locOf w e.index).archetype_index := by omega
      have harchs : w'.archetypes =
          ((w.archetypes ++ [newArchAdd w e t ii]).set
            (locOf w e.index).archetype_index
            (addMigrate (archAt w e.index) (newArchAdd w e t ii)
              (locOf w e.index).index_in_archetype ii e.index v).1).set
            w.archetypes.length
            (addMigrate (archAt w e.index) (newArchAdd w e t ii)
              (locOf w e.index).index_in_archetype ii e.index v).2 := by
        rw [← h2]
      have hmap : w'.bundle_id_to_archetype =
          (insertAt ii t (stypes (archAt w e.index)),
            w.archetypes.length) :: w.bundle_id_to_archetype := by
        rw [← h2]
      have hents : w'.entities = migrateEnts w e w.archetypes.length
          (newArchAdd w e t ii).entities.length := by
        rw [← h2]
      have hfree : w'.free_entities = w.free_entities := by rw [← h2]
      have harch_len : w'.archetypes.length = w.archetypes.length + 1 := by
        rw [harchs, List.length_set, List.length_set, List.length_append]
        rfl
      have hA1 : archOf w' (locOf w e.index).archetype_index =
          (addMigrate (archAt w e.index) (newArchAdd w e t ii)
            (locOf w e.index).index_in_archetype ii e.index v).1 := by
        unfold archOf
        rw [harchs, getD_set_ne _ _ _ _ _ hbj_ne,
          getD_set_self _ _ _ _ (by
            rw [List.length_append]
            simp
            omega)]
      have hA2 : archOf w' w.archetypes.length =
          (addMigrate (archAt w e.index) (newArchAdd w e t ii)
            (locOf w e.index).index_in_archetype ii e.index v).2 := by
        unfold archOf
        rw [harchs, getD_set_self _ _ _ _ (by
          rw [List.length_set, List.length_append]
          simp)]
      have hother : ∀ j, j < w'.archetypes.length →
          j ≠ (locOf w e.index).archetype_index →
          j ≠ w.archetypes.length →
          archOf w' j = archOf w j ∧ j < w.archetypes.length := by
        intro j hj hja hjb
        rw [harch_len] at hj
        constructor
        · unfold archOf
          rw [harchs, getD_set_ne _ _ _ _ _ (fun hh => hjb hh.symm),
            getD_set_ne _ _ _ _ _ (fun hh => hja hh.symm),
            getD_append_left _ _ _ _ (by omega)]
        · omega
      have hreg := migrate_reg_inv w w' e w.archetypes.length
        (newArchAdd w e t ii).entities.length []
        ⟨hA, hB, hG, hH, hC, hD, hF, hL, hE⟩
        ⟨hidx, hgen, hailt, hrow, hrowe⟩ hbj_ne hents rfl hfree
        (by omega) (by omega)
        (by rw [hA1]; rfl) (by rw [hA2]; rfl)
        hother (Or.inr ⟨Nat.le_refl _, rfl⟩)
      have hkey_sorted : (insertAt ii t
          (stypes (archAt w e.index))).Pairwise (· < ·) :=
        insertAt_sorted _ t ii hii hlow hhigh hsorted
      have hstypes_new : stypes (archOf w' w.archetypes.length) =
          insertAt ii t (stypes (archAt w e.index)) := by
        rw [hA2, stypes_addMigrate_nw, hna_st]
      have hstypes_old : ∀ j, j < w.archetypes.length →
          stypes (archOf w' j) = stypes (archOf w j) := by
        intro j hj
        by_cases hja : j = (locOf w e.index).archetype_index
        · subst hja
          rw [hA1, stypes_addMigrate_old]
          rfl
        · exact congrArg stypes (hother j (by omega) hja (by omega)).1
      refine ⟨?_, ?_, ?_, ?_, hreg.1, hreg.2.2.1, hreg.2.2.2.1, hreg.2.1,
        hreg.2.2.2.2⟩
      · intro a ha c hc
        rw [harchs] at ha
        rcases List.mem_or_eq_of_mem_set ha with ha' | heq
        · rcases List.mem_or_eq_of_mem_set ha' with ha'' | heq
          · rcases List.mem_append.mp ha'' with hmem | hmem
            · exact hA a hmem c hc
            · have heq : a = newArchAdd w e t ii := by simpa using hmem
              subst heq
              exact (newArch_base_lockstep w e t ii).1 c hc
          · subst heq
            exact addMigrate_fst_lockstep _ _ _ _ _ _ hAlock c hc
        · subst heq
          exact addMigrate_snd_lockstep _ _ _ _ _ _ hna_comp
            (newArch_base_lockstep w e t ii).1 c hc
      · intro a ha
        rw [harchs] at ha
        rcases List.mem_or_eq_of_mem_set ha with ha' | heq
        · rcases List.mem_or_eq_of_mem_set ha' with ha'' | heq
          · rcases List.mem_append.mp ha'' with hmem | hmem
            · exact hB a hmem
            · have heq : a = newArchAdd w e t ii := by simpa using hmem
              subst heq
              rw [hna_st]
              exact hkey_sorted
          · subst heq
            rw [stypes_addMigrate_old]
            exact hsorted
        · subst heq
          rw [stypes_addMigrate_nw, hna_st]
          exact hkey_sorted
      · intro p hp
        rw [hmap] at hp
        rcases List.mem_cons.mp hp with heq | hmem
        · subst heq
          exact ⟨by omega, hstypes_new⟩
        · obtain ⟨hp2, hpst⟩ := hG p hmem
          refine ⟨by omega, ?_⟩
          rw [hstypes_old p.2 hp2]
          exact hpst
      · intro i hi
        rw [harch_len] at hi
        rw [hmap]
        by_cases hiL : i = w.archetypes.length
        · subst hiL
          rw [hstypes_new]
          exact alookup_cons_self _ _ _
        · rw [hstypes_old i (by omega)]
          rw [alookup_cons_ne _ _ _ _ (by
            intro heq
            rw [heq, hH i (by omega)] at hlk
            cases hlk)]
          exact hH i (by omega)

theorem remove_WInv (w : World) (e : Entity) (t x : Nat) (w' : World)
    (hI : WInv w) (hv : EntityValid w e)
    (h : w.remove_component e t = .ok x w') : WInv w' := by
  obtain ⟨hA, hB, hG, hH, hC, hD, hF, hL, hE⟩ := hI
  obtain ⟨hidx, hgen, hailt, hrow, hrowe⟩ := hv
  have hsorted : (stypes (archAt w e.index)).Pairwise (· < ·) :=
    hB _ (getD_mem _ _ default hailt)
  have hAlock : ∀ c ∈ (archAt w e.index).components,
      c.data.length = (archAt w e.index).entities.length :=
    hA _ (getD_mem _ _ default hailt)
  cases hs : searchSorted (stypes (archAt w e.index)) t with
  | notFound ri =>
    rw [remove_unfold_missing w e t ri hidx hgen hs] at h
    simp at h
  | found ri =>
    obtain ⟨hri, hgetd⟩ := searchSorted_found_spec _ t ri hs
    have hkey_len : (eraseAt ri (stypes (archAt w e.index))).length =
        (stypes (archAt w e.index)).length - 1 :=
      length_eraseAt ri _ hri
    cases hlk : alookup w.bundle_id_to_archetype
        (eraseAt ri (stypes (archAt w e.index))) with
    | some aj =>
      rw [remove_unfold_found w e t ri aj hidx hgen hs hlk] at h
      injection h with h1 h2
      obtain ⟨haj_lt, haj_st⟩ := hG _ (alookup_mem _ _ _ hlk)
      have haj_ne : aj ≠ (locOf w e.index).archetype_index := by
        intro heq
        rw [heq] at haj_st
        have := congrArg List.length haj_st
        rw [hkey_len] at this
        have h0 : stypes (archOf w (locOf w e.index).archetype_index) =
            stypes (archAt w e.index) := rfl
        rw [h0] at this
        omega
      have hri_c : ri < (archAt w e.index).components.length := by
        have h3 := hri
        unfold stypes at h3
        simp only [List.length_map] at h3
        exact h3
      have hcomp_len : (archOf w aj).components.length + 1 =
          (archAt w e.index).components.length := by
        have := congrArg List.length haj_st
        rw [hkey_len] at this
        unfold stypes at this
        simp only [List.length_map] at this
        omega
      have harchs : w'.archetypes =
          (w.archetypes.set (locOf w e.index).archetype_index
            (removeMigrate (archAt w e.index) (archOf w aj)
              (locOf w e.index).index_in_archetype ri e.index).1).set aj
            (removeMigrate (archAt w e.index) (archOf w aj)
              (locOf w e.index).index_in_archetype ri e.index).2 := by
        rw [← h2]
      have hmap : w'.bundle_id_to_archetype = w.bundle_id_to_archetype := by
        rw [← h2]
      have hents : w'.entities =
          migrateEnts w e aj (archOf w aj).entities.length := by
        rw [← h2]
      have hfree : w'.free_entities = w.free_entities := by rw [← h2]
      have harch_len : w'.archetypes.length = w.archetypes.length := by
        rw [harchs, List.length_set, List.length_set]
      have hA1 : archOf w' (locOf w e.index).archetype_index =
          (removeMigrate (archAt w e.index) (archOf w aj)
            (locOf w e.index).index_in_archetype ri e.index).1 := by
        unfold archOf
        rw [harchs, getD_set_ne _ _ _ _ _ haj_ne,
          getD_set_self _ _ _ _ hailt]
        rfl
      have hA2 : archOf w' aj =
          (removeMigrate (archAt w e.index) (archOf w aj)
            (locOf w e.index).index_in_archetype ri e.index).2 := by
        unfold archOf
        rw [harchs,
          getD_set_self _ _ _ _ (by rw [List.length_set]; exact haj_lt)]
        rfl
      have hreg := migrate_reg_inv w w' e aj (archOf w aj).entities.length
        (archOf w aj).entities ⟨hA, hB, hG, hH, hC, hD, hF, hL, hE⟩
        ⟨hidx, hgen, hailt, hrow, hrowe⟩ haj_ne hents rfl hfree
        (by omega) (by omega)
        (by rw [hA1]; rfl) (by rw [hA2]; rfl)
        (by
          intro j hj hja hjb
          constructor
          · unfold archOf
            rw [harchs, getD_set_ne _ _ _ _ _ (fun hh => hjb hh.symm),
              getD_set_ne _ _ _ _ _ (fun hh => hja hh.symm)]
          · omega)
        (Or.inl ⟨haj_lt, rfl⟩)
      have hstypes_j : ∀ j, stypes (archOf w' j) =
          stypes (archOf w j) := by
        intro j
        by_cases hjb : j = aj
        · subst hjb
          rw [hA2, stypes_removeMigrate_nw]
        · by_cases hja : j = (locOf w e.index).archetype_index
          · subst hja
            rw [hA1, stypes_removeMigrate_old]
            rfl
          · unfold archOf
            rw [harchs, getD_set_ne _ _ _ _ _ (fun hh => hjb hh.symm),
              getD_set_ne _ _ _ _ _ (fun hh => hja hh.symm)]
      refine ⟨?_, ?_, ?_, ?_, hreg.1, hreg.2.2.1, hreg.2.2.2.1, hreg.2.1,
        hreg.2.2.2.2⟩
      · intro a ha c hc
        rw [harchs] at ha
        rcases List.mem_or_eq_of_mem_set ha with ha' | heq
        · rcases List.mem_or_eq_of_mem_set ha' with hmem | heq
          · exact hA a hmem c hc
          · subst heq
            exact removeMigrate_fst_lockstep _ _ _ _ _ hAlock c hc
        · subst heq
          exact removeMigrate_snd_lockstep _ _ _ _ _ hcomp_len
            (hA _ (getD_mem _ _ default haj_lt)) c hc
      · intro a ha
        rw [harchs] at ha
        rcases List.mem_or_eq_of_mem_set ha with ha' | heq
        · rcases List.mem_or_eq_of_mem_set ha' with hmem | heq
          · exact hB a hmem
          · subst heq
            rw [stypes_removeMigrate_old]
            exact hsorted
        · subst heq
          rw [stypes_removeMigrate_nw]
          exact hB _ (getD_mem _ _ default haj_lt)
      · intro p hp
        rw [hmap] at hp
        obtain ⟨hp2, hpst⟩ := hG p hp
        exact ⟨by omega, by rw [hstypes_j p.2]; exact hpst⟩
      · intro i hi
        rw [hmap, hstypes_j i]
        exact hH i (by omega)
    | none =>
      rw [remove_unfold_new w e t ri hidx hgen hs hlk hailt] at h
      injection h with h1 h2
      have hna_st : stypes (newArchRemove w e t) =
          eraseAt ri (stypes (archAt w e.index)) :=
        stypes_newArchRemove w e t ri hsorted hri hgetd
      have hri_c : ri < (archAt w e.index).components.length := by
        have h3 := hri
        unfold stypes at h3
        simp only [List.length_map] at h3
        exact h3
      have hna_comp : (newArchRemove w e t).components.length + 1 =
          (archAt w e.index).components.length := by
        have := congrArg List.length hna_st
        rw [hkey_len] at this
        unfold stypes at this
        simp only [List.length_map] at this
        omega
      have hbj_ne : w.archetypes.length ≠
          (locOf w e.index).archetype_index := by omega
      have harchs : w'.archetypes =
          ((w.archetypes ++ [newArchRemove w e t]).set
            (locOf w e.index).archetype_index
            (removeMigrate (archAt w e.index) (newArchRemove w e t)
              (locOf w e.index).index_in_archetype ri e.index).1).set
            w.archetypes.length
            (removeMigrate (archAt w e.index) (newArchRemove w e t)
              (locOf w e.index).index_in_archetype ri e.index).2 := by
        rw [← h2]
      have hmap : w'.bundle_id_to_archetype =
          (eraseAt ri (stypes (archAt w e.index)),
            w.archetypes.length) :: w.bundle_id_to_archetype := by
        rw [← h2]
      have hents : w'.entities = migrateEnts w e w.archetypes.length
          (newArchRemove w e t).entities.length := by
        rw [← h2]
      have hfree : w'.free_entities = w.free_entities := by rw [← h2]
      have harch_len : w'.archetypes.length = w.archetypes.length + 1 := by
        rw [harchs, List.length_set, List.length_set, List.length_append]
        rfl
      have hA1 : archOf w' (locOf w e.index).archetype_index =
          (removeMigrate (archAt w e.index) (newArchRemove w e t)
            (locOf w e.index).index_in_archetype ri e.index).1 := by
        unfold archOf
        rw [harchs, getD_set_ne _ _ _ _ _ hbj_ne,
          getD_set_self _ _ _ _ (by
            rw [List.length_append]
            simp
            omega)]
      have hA2 : archOf w' w.archetypes.length =
          (removeMigrate (archAt w e.index) (newArchRemove w e t)
            (locOf w e.index).index_in_archetype ri e.index).2 := by
        unfold archOf
        rw [harchs, getD_set_self _ _ _ _ (by
          rw [List.length_set, List.length_append]
          simp)]
      have hother : ∀ j, j < w'.archetypes.length →
          j ≠ (locOf w e.index).archetype_index →
          j ≠ w.archetypes.length →
          archOf w' j = archOf w j ∧ j < w.archetypes.length := by
        intro j hj hja hjb
        rw [harch_len] at hj
        constructor
        · unfold archOf
          rw [harchs, getD_set_ne _ _ _ _ _ (fun hh => hjb hh.symm),
            getD_set_ne _ _ _ _ _ (fun hh => hja hh.symm),
            getD_append_left _ _ _ _ (by omega)]
        · omega
      have hreg := migrate_reg_inv w w' e w.archetypes.length
        (newArchRemove w e t).entities.length []
        ⟨hA, hB, hG, hH, hC, hD, hF, hL, hE⟩
        ⟨hidx, hgen, hailt, hrow, hrowe⟩ hbj_ne hents rfl hfree
        (by omega) (by omega)
        (by rw [hA1]; rfl) (by rw [hA2]; rfl)
        hother (Or.inr ⟨Nat.le_refl _, rfl⟩)
      have hkey_sorted : (eraseAt ri
          (stypes (archAt w e.index))).Pairwise (· < ·) :=
        sorted_eraseAt ri _ hsorted
      have hstypes_new : stypes (archOf w' w.archetypes.length) =
          eraseAt ri (stypes (archAt w e.index)) := by
        rw [hA2, stypes_removeMigrate_nw, hna_st]
      have hstypes_old : ∀ j, j < w.archetypes.length →
          stypes (archOf w' j) = stypes (archOf w j) := by
        intro j hj
        by_cases hja : j = (locOf w e.index).archetype_index
        · subst hja
          rw [hA1, stypes_removeMigrate_old]
          rfl
        · exact congrArg stypes (hother j (by omega) hja (by omega)).1
      refine ⟨?_, ?_, ?_, ?_, hreg.1, hreg.2.2.1, hreg.2.2.2.1, hreg.2.1,
        hreg.2.2.2.2⟩
      · intro a ha c hc
        rw [harchs] at ha
        rcases List.mem_or_eq_of_mem_set ha with ha' | heq
        · rcases List.mem_or_eq_of_mem_set ha' with ha'' | heq
          · rcases List.mem_append.mp ha'' with hmem | hmem
            · exact hA a hmem c hc
            · have heq : a = newArchRemove w e t := by simpa using hmem
              subst heq
              exact (newArch_base_lockstep w e t 0).2 c hc
          · subst heq
            exact removeMigrate_fst_lockstep _ _ _ _ _ hAlock c hc
        · subst heq
          exact removeMigrate_snd_lockstep _ _ _ _ _ hna_comp
            (newArch_base_lockstep w e t 0).2 c hc
      · intro a ha
        rw [harchs] at ha
        rcases List.mem_or_eq_of_mem_set ha with ha' | heq
        · rcases List.mem_or_eq_of_mem_set ha' with ha'' | heq
          · rcases List.mem_append.mp ha'' with hmem | hmem
            · exact hB a hmem
            · have heq : a = newArchRemove w e t := by simpa using hmem
              subst heq
              rw [hna_st]
              exact hkey_sorted
          · subst heq
            rw [stypes_removeMigrate_old]
            exact hsorted
        · subst heq
          rw [stypes_removeMigrate_nw, hna_st]
          exact hkey_sorted
      · intro p hp
        rw [hmap] at hp
        rcases List.mem_cons.mp hp with heq | hmem
        · subst heq
          exact ⟨by omega, hstypes_new⟩
        · obtain ⟨hp2, hpst⟩ := hG p hmem
          refine ⟨by omega, ?_⟩
          rw [hstypes_old p.2 hp2]
          exact hpst
      · intro i hi
        rw [harch_len] at hi
        rw [hmap]
        by_cases hiL : i = w.archetypes.length
        · subst hiL
          rw [hstypes_new]
          exact alookup_cons_self _ _ _
        · rw [hstypes_old i (by omega)]
          rw [alookup_cons_ne _ _ _ _ (by
            intro heq
            rw [heq, hH i (by omega)] at hlk
            cases hlk)]
          exact hH i (by omega)

theorem WInv_step (w w' : World) (hI : WInv w) (hs : Step w w') :
    WInv w' :=
  match hs with
  | .spawn _ b hb => spawn_WInv w b hI hb
  | .despawn _ _ e hv h => despawn_WInv w e w' hI hv h
  | .add _ _ e t v hv h => add_WInv w e t v w' hI hv h
  | .remove _ _ e t x hv h => remove_WInv w e t x w' hI hv h

theorem WInv_new : WInv World.new := by decide

theorem WInv_reachable (w : World) (hr : Reachable World.new w) :
    WInv w := by
  induction hr with
  | refl => exact WInv_new
  | tail w2 w3 h1 h2 ih => exact WInv_step w2 w3 ih h2

/-- C6: in every world state reachable from `World::new` by successful
`spawn`, `despawn`, `add_component` and `remove_component` operations
(spawns of duplicate-free bundles, the other operations through live
handles), every archetype keeps every component store's column exactly as
long as its entity list — all columns and the entity list stay in
lockstep. -/
theorem C6_columns_lockstep (w : World) (hr : Reachable World.new w) :
    ∀ a ∈ w.archetypes, ∀ c ∈ a.components,
      c.data.length = a.entities.length :=
  (WInv_reachable w hr).1

theorem C6_columns_lockstep_witness :
    Reachable World.new exW2 ∧
    (∀ a ∈ exW2.archetypes, ∀ c ∈ a.components,
      c.data.length = a.entities.length) :=
  ⟨Reachable.tail _ _ _
     (Reachable.tail _ _ _ (Reachable.refl World.new)
       (Step.spawn World.new [(0, 10), (1, 20)] (by decide)))
     (Step.spawn (World.new.spawn [(0, 10), (1, 20)]).2 [(2, 30)]
       (by decide)),
   C6_columns_lockstep exW2
     (Reachable.tail _ _ _
       (Reachable.tail _ _ _ (Reachable.refl World.new)
         (Step.spawn World.new [(0, 10), (1, 20)] (by decide)))
       (Step.spawn (World.new.spawn [(0, 10), (1, 20)]).2 [(2, 30)]
         (by decide)))⟩
